import Mathlib

/-!
# omsehat-api: therapy sessions, conversation turns and trend summaries

A shallow embedding of `services/therapy_service.go`, `controllers/therapy_controller.go`,
`schemas/*.go` and `models/therapy_session.go`, followed by the properties proved of it.

Conventions of the embedding:

* Go `int` is the 64-bit two's-complement integer: a value is an `Int`, every addition is
  followed by `wrapInt`.
* a finite `float64` is the rational number it denotes; every arithmetic operation rounds its
  exact result with `roundF64` (binary64, round to nearest, ties to even).
* a run-time panic or a non-finite float is `none`.
* the global `config.DB` is a value `db : DB` passed in and returned; a reading of the clock
  (`time.Now()`) and an id generated by the store are arguments of the function that reads
  them.
* what lies outside the repository (the JSON decoder, the completion service, the layout of
  a time, `uuid.Parse`) and the helper `utils.DateToAgeString` are fields of `Env`; the decoder
  `json.Unmarshal` and the layouts of a time in UTC are modelled as well, for the worlds of the
  examples and for the properties of `ParseTherapyJSON`.
-/

namespace OmSehat

/-! ## Machine arithmetic -/

/-- Go `int` arithmetic on 64-bit targets: results wrap around to `[-2^63, 2^63)`. -/
def wrapInt (x : Int) : Int :=
  (x + 2 ^ 63) % 2 ^ 64 - 2 ^ 63

/-- The integer nearest to `q`, a tie going to the even neighbour. -/
def roundHalfEven (q : ℚ) : Int :=
  let f := ⌊q⌋
  if q - f < 1 / 2 then f
  else if 1 / 2 < q - f then f + 1
  else if f % 2 = 0 then f else f + 1

/-- Rounding of an exact result to binary64: the significand keeps 53 bits, round to nearest,
ties to even. The exponent is not limited: the operands met in `determineTrend` are quotients
and differences of 64-bit integers, which stay far inside the normal range of binary64. -/
def roundF64 (q : ℚ) : ℚ :=
  if q = 0 then 0
  else
    let e := Int.log 2 |q| - 52
    (roundHalfEven (q / 2 ^ e) : ℚ) * 2 ^ e

/-- The conversion `float64(x)` of a Go `int`. -/
def float64 (x : Int) : ℚ :=
  roundF64 x

/-- The float64 quotient `a / b`; a zero divisor gives an infinity or a NaN, which is `none`. -/
def fdiv (a b : ℚ) : Option ℚ :=
  if b = 0 then none else some (roundF64 (a / b))

/-- The float64 difference `a - b`. -/
def fsub (a b : ℚ) : ℚ :=
  roundF64 (a - b)

/-! ## Data model (`models/therapy_session.go`, `schemas/*.go`) -/

/-- A `uuid.UUID`, kept in its textual form; the zero value `uuid.Nil` is the empty text. A
session id taken from the request path is compared with the stored id as text. -/
abbrev UUID := String

/-- A `time.Time`, as nanoseconds since the epoch. -/
abbrev Time := Int

/-- The duration `time.Millisecond`, in nanoseconds. -/
def Millisecond : Int := 1000000

/-- Modelled from the spec: the declaration of `models.User` is not among the sources. The spec
(§3) gives a user an id, name, date of birth, gender and nationality; the fields are those that
the services and the tests read or set. -/
structure User where
  ID : UUID := ""
  Name : String := ""
  Email : String := ""
  DOB : String := ""
  Gender : String := ""
  Nationality : String := ""
deriving DecidableEq, Repr, Inhabited

/-- Modelled from the spec: the declaration of `models.Message` is not among the sources. The
spec (§3) gives a message a role, a text content, its owning session and a timestamp; the fields
are those set by `UpdateTherapyChatHistory`. The key that the store generates is left out. -/
structure Message where
  Role : String := ""
  Content : String := ""
  SessionID : UUID := ""
  CreatedAt : Time := 0
  UpdatedAt : Time := 0
deriving DecidableEq, Repr, Inhabited

/-- The record `models.TherapySession`. `User` and `Messages` are associations: they are not
columns of the session row and are filled by a preload. -/
structure TherapySession where
  ID : UUID := ""
  UserID : UUID := ""
  User : User := {}
  StressLevel : Int := 0
  MoodRating : Int := 0
  SleepQuality : Int := 0
  IsHealthWorker : Bool := false
  Specialization : String := ""
  WorkHours : Int := 0
  Messages : List Message := []
  Recommendation : String := ""
  NextSteps : String := ""
  CreatedAt : Time := 0
  UpdatedAt : Time := 0
deriving DecidableEq, Repr, Inhabited

/-- The record `schemas.TherapyResponse`, the structured reply of the model. -/
structure TherapyResponse where
  NextAction : String := ""
  Reply : String := ""
  Recommendation : String := ""
  NextSteps : String := ""
deriving DecidableEq, Repr, Inhabited

/-- The record `schemas.TherapySessionInput`. Its `validate` tags are read, if at all, by the
helper `utils.BindAndValidate`, which is not among the sources. -/
structure TherapySessionInput where
  StressLevel : Int := 0
  MoodRating : Int := 0
  SleepQuality : Int := 0
  IsHealthWorker : Bool := false
  Specialization : String := ""
  WorkHours : Int := 0
deriving DecidableEq, Repr, Inhabited

/-- Modelled from the spec: the declaration of `schemas.TherapyChatInput` is not among the
sources; the controller reads its `NewMessage`, the user's new text of a turn (§4.2). -/
structure TherapyChatInput where
  NewMessage : String := ""
deriving DecidableEq, Repr, Inhabited

/-! ## The relational store (`config.DB`)

The store is an external collaborator. It is modelled as three tables held in memory; a lookup
fails when no row matches, an insertion of a session fails on a key that is taken, every other
write succeeds. -/

/-- The tables behind `config.DB`. A row of `therapy_sessions` carries no associations: its
`User` and `Messages` are the zero values. -/
structure DB where
  users : List User := []
  therapy_sessions : List TherapySession := []
  messages : List Message := []
deriving DecidableEq, Repr, Inhabited

/-- The columns of a session: the record without its associations. -/
def TherapySession.row (s : TherapySession) : TherapySession :=
  { s with User := {}, Messages := [] }

/-- The query `Where("id = ?", id).First(&session)`: the columns of the row with this id, or the
error `record not found`. -/
def DB.First (db : DB) (id : String) : Except String TherapySession :=
  match db.therapy_sessions.find? (fun s => s.ID == id) with
  | some s => .ok s.row
  | none => .error "record not found"

/-- The preload `Preload("User")`: the user whose id is the session's `UserID`, the zero user when
there is none. -/
def DB.PreloadUser (db : DB) (s : TherapySession) : TherapySession :=
  { s with User := (db.users.find? (fun u => u.ID == s.UserID)).getD {} }

/-- The preload `Preload("Messages", Order("created_at ASC"))`: the messages of the session in
ascending order of creation time (messages of equal time keep their order of insertion). -/
def DB.PreloadMessages (db : DB) (s : TherapySession) : TherapySession :=
  let rows := db.messages.filter (fun m => m.SessionID == s.ID)
  { s with Messages := rows.insertionSort (fun a b => a.CreatedAt ≤ b.CreatedAt) }

/-- The insertion `Create(&message)`. -/
def DB.CreateMessage (db : DB) (m : Message) : Except String DB :=
  .ok { db with messages := db.messages ++ [m] }

/-- The insertion `Create(&session)`: the store generates the id (`uuid_generate_v4()`), here
`newID`, and writes the columns of the record. The id is the primary key: an id that a row
already has is refused. -/
def DB.CreateSession (db : DB) (newID : UUID) (s : TherapySession) :
    Except String (DB × TherapySession) :=
  if db.therapy_sessions.any (fun r => r.ID == newID) then
    .error "duplicate key value violates unique constraint"
  else
    let s1 := { s with ID := newID }
    .ok ({ db with therapy_sessions := db.therapy_sessions ++ [s1.row] }, s1)

/-- The update `Save(&session)`: every column of the row with the record's id is overwritten;
when there is no such row the record is inserted. -/
def DB.Save (db : DB) (s : TherapySession) : Except String DB :=
  if db.therapy_sessions.any (fun r => r.ID == s.ID) then
    .ok { db with therapy_sessions :=
            db.therapy_sessions.map (fun r => if r.ID == s.ID then s.row else r) }
  else
    .ok { db with therapy_sessions := db.therapy_sessions ++ [s.row] }

/-- The query `Where("user_id = ?", userId).Order("created_at DESC").Find(&history)`. -/
def DB.FindByUserNewestFirst (db : DB) (userId : UUID) : Except String (List TherapySession) :=
  .ok ((db.therapy_sessions.filter (fun s => s.UserID == userId)).insertionSort
        (fun a b => a.CreatedAt ≥ b.CreatedAt))

/-- The query `Where("user_id = ?", userID).Find(&sessions)`, in stored order. -/
def DB.FindByUser (db : DB) (userID : UUID) : Except String (List TherapySession) :=
  .ok (db.therapy_sessions.filter (fun s => s.UserID == userID))

/-! ## External collaborators -/

/-- What a request meets outside the repository's own code: library functions, the helper
`utils.DateToAgeString` (not among the sources) and the completion service. -/
structure Env where
  /-- The helper `utils.DateToAgeString`. -/
  DateToAgeString : String → String
  /-- The layout `Format("2006-01-02 15:04:05")` of a time. -/
  formatDateTime : Time → String
  /-- The layout `Format("2006-01-02")` of a time. -/
  formatDate : Time → String
  /-- The decoder `json.Unmarshal` into a `TherapyResponse`. -/
  unmarshal : String → Except String TherapyResponse
  /-- The function `uuid.Parse`. -/
  parseUUID : String → Except String UUID
  /-- The chat of the completion service: system instruction, stored history, new message. The
  error is the one `GetTherapyResponse` returns. -/
  gemini : String → List Message → String → Except String String

/-! ## Services (`services/therapy_service.go`) -/

namespace services

/-- The verb `%d` of `fmt.Sprintf` for a Go `int`: the decimal text, with a leading `-` for a
negative value. -/
def fmtInt (n : Int) : String :=
  toString n

/-- The service `CreateTherapySession`; `t1` and `t2` are the two readings of the clock, `newID`
the id the store generates. -/
def CreateTherapySession (db : DB) (t1 t2 : Time) (newID : UUID) (userId : UUID)
    (input : TherapySessionInput) : Except String TherapySession × DB :=
  let session : TherapySession :=
    { UserID := userId
      StressLevel := input.StressLevel
      MoodRating := input.MoodRating
      SleepQuality := input.SleepQuality
      IsHealthWorker := input.IsHealthWorker
      CreatedAt := t1
      UpdatedAt := t2 }
  let session :=
    if input.IsHealthWorker then
      { session with Specialization := input.Specialization, WorkHours := input.WorkHours }
    else session
  match db.CreateSession newID session with
  | .error err => (.error ("error creating therapy session: " ++ err), db)
  | .ok (db1, session) =>
    match db1.First session.ID with
    | .error err => (.error ("error loading user data: " ++ err), db1)
    | .ok loaded => (.ok (db1.PreloadUser loaded), db1)

/-- The service `CreateTherapySessionTest`; `newID` is the result of `uuid.New()`. -/
def CreateTherapySessionTest (t1 t2 : Time) (newID : UUID) (userId : UUID)
    (input : TherapySessionInput) : Except String TherapySession :=
  let session : TherapySession :=
    { ID := newID
      UserID := userId
      StressLevel := input.StressLevel
      MoodRating := input.MoodRating
      SleepQuality := input.SleepQuality
      IsHealthWorker := input.IsHealthWorker
      CreatedAt := t1
      UpdatedAt := t2 }
  let session :=
    if input.IsHealthWorker then
      { session with Specialization := input.Specialization, WorkHours := input.WorkHours }
    else session
  let session :=
    { session with
      User := { ID := userId, Name := "Test User", Email := "test@example.com",
                DOB := "1990-01-01" } }
  .ok session

/-- The service `UpdateTherapyChatHistory`; `now` is its reading of the clock. The result is the
error, if any, and the store after the call. -/
def UpdateTherapyChatHistory (db : DB) (now : Time) (sessionId newMessage LLMResponse : String) :
    Except String Unit × DB :=
  match db.First sessionId with
  | .error err => (.error ("error fetching therapy session: " ++ err), db)
  | .ok session =>
    let newUserMessage : Message :=
      { Role := "user", Content := newMessage, SessionID := session.ID,
        CreatedAt := now, UpdatedAt := now }
    let newLLMResponse : Message :=
      { Role := "therapist", Content := LLMResponse, SessionID := session.ID,
        CreatedAt := now + Millisecond, UpdatedAt := now + Millisecond }
    match db.CreateMessage newUserMessage with
    | .error err => (.error ("error saving user message: " ++ err), db)
    | .ok db1 =>
      match db1.CreateMessage newLLMResponse with
      | .error err => (.error ("error saving LLM response: " ++ err), db1)
      | .ok db2 => (.ok (), db2)

/-- The service `GetTherapySessionData`. -/
def GetTherapySessionData (db : DB) (sessionId : String) : Except String TherapySession :=
  match db.First sessionId with
  | .error err => .error ("therapy session not found: " ++ err)
  | .ok session => .ok (db.PreloadMessages (db.PreloadUser session))

/-- The service `GetTherapyHistory`: the user's sessions, newest first; empty on an error. -/
def GetTherapyHistory (db : DB) (userId : UUID) : List TherapySession :=
  match db.FindByUserNewestFirst userId with
  | .error _ => []
  | .ok history => history

/-- The service `UpdateSessionRecommendation`; `now` is its reading of the clock. -/
def UpdateSessionRecommendation (db : DB) (now : Time)
    (sessionId recommendation nextSteps : String) : Except String Unit × DB :=
  match db.First sessionId with
  | .error err => (.error ("therapy session not found: " ++ err), db)
  | .ok session =>
    let session := { session with Recommendation := recommendation }
    let session := { session with NextSteps := nextSteps }
    let session := { session with UpdatedAt := now }
    match db.Save session with
    | .error err => (.error ("failed to save recommendation: " ++ err), db)
    | .ok db1 => (.ok (), db1)

/-- The service `ParseTherapyJSON`. -/
def ParseTherapyJSON (env : Env) (input : String) : Except String TherapyResponse :=
  match env.unmarshal input with
  | .error err => .error ("failed to extract JSON: " ++ err)
  | .ok responseJSON => .ok responseJSON

/-- The persona text of `BuildTherapySystemPrompt` for a healthcare worker. -/
def healthWorkerPrompt : String :=
  "You are a compassionate and knowledgeable mental health professional who specializes in helping healthcare workers deal with burnout, stress, and mental health challenges related to their high-stress work environment, especially those who worked during the COVID-19 pandemic. You communicate in a warm, empathetic manner, building trust and providing evidence-based support and strategies.\n\nFollow the conversation flow and output format strictly as described below:\n\n0. JSON FORMAT FOR EVERY RESPONSE\n- Output the response in valid JSON format ONLY. Do not include any surrounding text, explanations, or formatting outside the JSON structure.\n- JSON Output Format:\n\x7b\n  \"next_action\": \"CONTINUE_CHAT\" or \"END_SESSION\",\n  \"reply\": \"Your supportive and therapeutic response here\",\n  \"recommendation\": \"Brief mental health recommendation based on the conversation\",\n  \"next_steps\": \"Suggested practical actions for the healthcare worker\"\n\x7d\n- Detailed explanation of each field:\n  - next_action: A string indicating the next step in the conversation. Must be either \"CONTINUE_CHAT\" or \"END_SESSION\".\n  - reply: A string containing your supportive and therapeutic response to the healthcare worker.\n  - recommendation: A brief mental health recommendation based on the conversation.\n  - next_steps: Suggested practical actions the healthcare worker can take to improve their mental health.\n\n1. Conversation Flow:\n  1. First Response:\n    - Greet the healthcare worker warmly and ask them to choose their preferred language:\n      - a. Bahasa Indonesia\n      - b. English\n    - Add: \"Choose the language that makes you feel most comfortable.\"\n    - Default language: Bahasa Indonesia.\n  2. Second Response (AFTER language selection):\n    - Start with a friendly, supportive greeting.\n    - Express empathy for the challenges healthcare workers face.\n    - Ask what specific aspects of their work are causing stress or burnout.\n  3. Follow-Up Questions:\n    - Based on their answers, explore specific stressors, coping mechanisms, and support systems.\n    - Ask about their self-care practices, work-life balance, and sleep patterns.\n    - Inquire about their professional support network and institutional support.\n  4. Decision Points:\n    - If the conversation has provided sufficient information for a recommendation:\n      - Offer personalized coping strategies for healthcare burnout.\n      - Suggest practical self-care activities.\n      - Recommend professional resources if needed.\n      - Ask if they would like to end the session or continue discussing.\n\n2. Important Notes:\n  - Always acknowledge the unique stressors of healthcare work during and after the COVID-19 pandemic.\n  - Provide evidence-based recommendations for managing burnout in healthcare settings.\n  - Recognize signs of more serious mental health issues that might require professional intervention.\n  - Be culturally sensitive, especially when discussing mental health in the Indonesian context.\n  - Suggest practical strategies that can be implemented within a busy healthcare worker\x27s schedule.\n  - If the user indicates serious mental health concerns such as suicidal thoughts, emphasize the importance of seeking immediate professional help."

/-- The persona text of `BuildTherapySystemPrompt` for a general user. -/
def generalPrompt : String :=
  "You are a compassionate and knowledgeable mental health professional who specializes in helping people deal with everyday stress, anxiety, and mental health challenges. You communicate in a warm, empathetic manner, building trust and providing evidence-based support and strategies.\n\nFollow the conversation flow and output format strictly as described below:\n\n0. JSON FORMAT FOR EVERY RESPONSE\n- Output the response in valid JSON format ONLY. Do not include any surrounding text, explanations, or formatting outside the JSON structure.\n- JSON Output Format:\n\x7b\n  \"next_action\": \"CONTINUE_CHAT\" or \"END_SESSION\",\n  \"reply\": \"Your supportive and therapeutic response here\",\n  \"recommendation\": \"Brief mental health recommendation based on the conversation\",\n  \"next_steps\": \"Suggested practical actions for the user\"\n\x7d\n- Detailed explanation of each field:\n  - next_action: A string indicating the next step in the conversation. Must be either \"CONTINUE_CHAT\" or \"END_SESSION\".\n  - reply: A string containing your supportive and therapeutic response to the user.\n  - recommendation: A brief mental health recommendation based on the conversation.\n  - next_steps: Suggested practical actions the user can take to improve their mental health.\n\n1. Conversation Flow:\n  1. First Response:\n    - Greet the user warmly and ask them to choose their preferred language:\n      - a. Bahasa Indonesia\n      - b. English\n    - Add: \"Choose the language that makes you feel most comfortable.\"\n    - Default language: Bahasa Indonesia.\n  2. Second Response (AFTER language selection):\n    - Start with a friendly, supportive greeting.\n    - Express empathy for the challenges they might be facing.\n    - Ask what specific aspects of their life are causing stress or anxiety.\n  3. Follow-Up Questions:\n    - Based on their answers, explore specific stressors, coping mechanisms, and support systems.\n    - Ask about their self-care practices, work-life balance, and sleep patterns.\n    - Inquire about their social support network.\n  4. Decision Points:\n    - If the conversation has provided sufficient information for a recommendation:\n      - Offer personalized coping strategies.\n      - Suggest practical self-care activities.\n      - Recommend professional resources if needed.\n      - Ask if they would like to end the session or continue discussing.\n\n2. Important Notes:\n  - Provide evidence-based recommendations for managing stress and anxiety.\n  - Recognize signs of more serious mental health issues that might require professional intervention.\n  - Be culturally sensitive, especially when discussing mental health in the Indonesian context.\n  - Suggest practical strategies that can be implemented in daily life.\n  - If the user indicates serious mental health concerns such as suicidal thoughts, emphasize the importance of seeking immediate professional help."

/-- The user-data block that both prompt builders render: the first `Sprintf`, followed for a
healthcare worker by the second one. -/
def userDataText (env : Env) (session : TherapySession) : String :=
  let userType := if session.IsHealthWorker then "healthcare worker" else "general user"
  let userDataText :=
    "\nHere\x27s the user\x27s data: \nName: " ++ session.User.Name ++
    "\nAge: " ++ env.DateToAgeString session.User.DOB ++
    "\nGender: " ++ session.User.Gender ++
    "\nUser Type: " ++ userType ++
    "\nStress Level (1-10): " ++ fmtInt session.StressLevel ++
    "\nMood Rating (1-10): " ++ fmtInt session.MoodRating ++
    "\nSleep Quality (1-10): " ++ fmtInt session.SleepQuality ++ "\n"
  if session.IsHealthWorker then
    userDataText ++ ("Specialization: " ++ session.Specialization ++
      "\nWeekly Work Hours: " ++ fmtInt session.WorkHours ++ "\n")
  else userDataText

/-- One entry of the history block: the `Sprintf` in the loop of `BuildTherapySystemPrompt`. -/
def historyEntry (env : Env) (historyItem : TherapySession) : String :=
  "[" ++ env.formatDateTime historyItem.CreatedAt ++
  "]\nStress Level: " ++ fmtInt historyItem.StressLevel ++
  "\nMood Rating: " ++ fmtInt historyItem.MoodRating ++
  "\nSleep Quality: " ++ fmtInt historyItem.SleepQuality ++
  "\nRecommendation: " ++ historyItem.Recommendation ++
  "\nNext Steps: " ++ historyItem.NextSteps ++ "\n"

/-- The loop `for i, historyItem := range history` of `BuildTherapySystemPrompt`, from index `i`
on: the current session is skipped (`continue`), the loop stops at the first other item whose
index is 3 or more (`break`). -/
def historyLoop (env : Env) (currentID : UUID) : List TherapySession → Nat → String → String
  | [], _, historyText => historyText
  | historyItem :: rest, i, historyText =>
    if historyItem.ID == currentID then historyLoop env currentID rest (i + 1) historyText
    else if i ≥ 3 then historyText
    else historyLoop env currentID rest (i + 1) (historyText ++ historyEntry env historyItem)

/-- The history block of `BuildTherapySystemPrompt`. -/
def historyText (env : Env) (db : DB) (session : TherapySession) : String :=
  let history := GetTherapyHistory db session.User.ID
  if history.length > 0 then
    historyLoop env session.ID history 0 "\nPrevious therapy sessions:\n"
  else "\nNo previous therapy sessions found.\n"

/-- The service `BuildTherapySystemPrompt`; `now` is its reading of the clock. -/
def BuildTherapySystemPrompt (env : Env) (db : DB) (now : Time) (session : TherapySession) :
    String :=
  let systemPrompt := if session.IsHealthWorker then healthWorkerPrompt else generalPrompt
  systemPrompt ++ " " ++ userDataText env session ++ " " ++ historyText env db session ++
    "\nCurrent Time: " ++ env.formatDateTime now

/-- The service `GetTherapyResponse`: renders the system prompt and asks the completion service,
handing it the stored messages of the session and the new message. -/
def GetTherapyResponse (env : Env) (db : DB) (now : Time) (newMessage : String)
    (session : TherapySession) : Except String String :=
  let storedHistory := session.Messages
  let systemPromptText := BuildTherapySystemPrompt env db now session
  env.gemini systemPromptText storedHistory newMessage

/-- The service `GetTherapySessionsByUserID`: `nil` (the empty list) on an error. -/
def GetTherapySessionsByUserID (db : DB) (userID : UUID) : List TherapySession :=
  match db.FindByUser userID with
  | .error _ => []
  | .ok sessions => sessions

/-- The loop `for i := lo; i < lo + count; i++ { sum += values[i] }`, started with `sum`.
An index outside the slice panics: `none`. -/
def sumLoop (values : List Int) : Nat → Nat → Int → Option Int
  | 0, _, sum => some sum
  | count + 1, i, sum =>
    match values[i]? with
    | none => none
    | some v => sumLoop values count (i + 1) (wrapInt (sum + v))

/-- The function `determineTrend`: compares the float64 average of the first half of the series
with that of the second half. -/
def determineTrend (values : List Int) : Option String :=
  if values.length < 2 then some "stable"
  else
    let midpoint := values.length / 2
    (sumLoop values midpoint 0 0).bind fun firstHalfSum =>
    (sumLoop values (values.length - midpoint) midpoint 0).bind fun secondHalfSum =>
    (fdiv (float64 firstHalfSum) (float64 midpoint)).bind fun firstHalfAvg =>
    (fdiv (float64 secondHalfSum) (float64 (values.length - midpoint : Nat))).bind
      fun secondHalfAvg =>
    let difference := fsub firstHalfAvg secondHalfAvg
    if |difference| < 1 / 2 then some "stable"
    else if difference > 0 then some "improving"
    else some "worsening"

end services

/-! ## The trend rule of the specification -/

/-- The arithmetic mean of a series, as an exact rational. -/
def mean (l : List Int) : ℚ :=
  (l.sum : ℚ) / (l.length : ℚ)

/-- The rule of the specification (§4.3), with exact means: fewer than two points are stable;
otherwise the series is split at `floor(n/2)` and the two means are compared. -/
def trendRule (s : List Int) : String :=
  if s.length < 2 then "stable"
  else
    let m := s.length / 2
    let firstMean := mean (s.take m)
    let secondMean := mean (s.drop m)
    if |firstMean - secondMean| < 1 / 2 then "stable"
    else if firstMean > secondMean then "improving"
    else "worsening"

/-- A series of twelve ratings in 1..10 whose half means are 13/6 and 10/6. -/
def tieSeries : List Int :=
  [3, 2, 2, 2, 2, 2, 2, 2, 2, 2, 1, 1]

/-! ## Request validation (`utils.BindAndValidate`) -/

/-- A rating on the scale 1..10. -/
def ratingInRange (v : Int) : Bool :=
  decide (1 ≤ v) && decide (v ≤ 10)

/-- Modelled from the spec: `utils.BindAndValidate` is not among the sources. The spec (§8) says
"For all ratings r in 1..10, session creation with r succeeds; r outside that range fails
`ValidationError`", and (§7) names as validation errors a "rating out of 1–10 range" and
"missing health-worker-conditional fields"; the latter are the checks of the handler itself. A
bound input is valid when each of its three ratings is in 1..10. -/
def validateTherapySessionInput (input : TherapySessionInput) : Bool :=
  ratingInRange input.StressLevel && ratingInRange input.MoodRating &&
    ratingInRange input.SleepQuality

/-- Modelled from the spec: `utils.BindAndValidate` is not among the sources. `body` is the
request body as bound to the input record, `none` when it does not bind; the call reports
success exactly when the body binds and satisfies `validateTherapySessionInput`, and has
otherwise answered the client itself (spec §7: "validation errors are detected and reported
before any persistence or upstream call"). -/
def BindAndValidate (body : Option TherapySessionInput) : Option TherapySessionInput :=
  match body with
  | none => none
  | some input => if validateTherapySessionInput input then some input else none

/-! ## Controllers (`controllers/therapy_controller.go`) -/

/-- What a handler writes to the client. -/
inductive Reply
  /-- The answer `c.JSON(status, gin.H{"message": message})`. -/
  | message (status : Nat) (message : String)
  /-- The answer that `utils.BindAndValidate` wrote before reporting a failure. -/
  | invalid
  /-- The answer `c.JSON(status, session)`. -/
  | session (status : Nat) (session : TherapySession)
  /-- The answer 200 of `GenerateTherapyResponse`. -/
  | chat (status : Nat) (response : TherapyResponse) (session_id : String)
deriving DecidableEq, Repr, Inhabited

/-- A validation error: the answer of `utils.BindAndValidate`, or a status 400 of the handler. -/
def Reply.isValidationError : Reply → Bool
  | .invalid => true
  | .message status _ => status == 400
  | _ => false

/-- The answer 201 that carries the created session. -/
def Reply.isCreated : Reply → Bool
  | .session status _ => status == 201
  | _ => false

/-- A request to create a session, with what the outside world supplies while it is served. -/
structure CreateRequest where
  /-- The value `c.Get("user_id")` left by the authentication middleware. -/
  user_id : Option String := none
  /-- The request body as bound to the input record; `none` when it does not bind. -/
  body : Option TherapySessionInput := none
  /-- The two readings of the clock. -/
  t1 : Time := 0
  t2 : Time := 0
  /-- The id the store generates for the new row. -/
  newID : UUID := ""
deriving Repr, Inhabited

/-- A request of one conversation turn, with what the outside world supplies while it is
served. -/
structure ChatRequest where
  /-- The path parameter `c.Param("id")`. -/
  session_id : String := ""
  /-- The input as bound and validated by `utils.BindAndValidate`; `none` when it reported a
  failure (the tags of `schemas.TherapyChatInput` are not among the sources). -/
  body : Option TherapyChatInput := none
  /-- The readings of the clock in the prompt builder, in `UpdateSessionRecommendation` and
  in `UpdateTherapyChatHistory`. -/
  tPrompt : Time := 0
  tRecommendation : Time := 0
  tHistory : Time := 0
deriving Repr, Inhabited

/-- The handler `CreateTherapySession`. -/
def controllers.CreateTherapySession (env : Env) (db : DB) (req : CreateRequest) : Reply × DB :=
  match req.user_id with
  | none => (.message 401 "Unauthorized", db)
  | some userID =>
    match env.parseUUID userID with
    | .error _ => (.message 400 "Invalid user ID", db)
    | .ok uid =>
      match BindAndValidate req.body with
      | none => (.invalid, db)
      | some input =>
        let create : Reply × DB :=
          match services.CreateTherapySession db req.t1 req.t2 req.newID uid input with
          | (.error err, db1) => (.message 500 err, db1)
          | (.ok session, db1) => (.session 201 session, db1)
        if input.IsHealthWorker then
          if input.Specialization == "" then
            (.message 400 "Specialization is required for healthcare workers", db)
          else if input.WorkHours ≤ 0 then
            (.message 400 "Work hours must be greater than 0 for healthcare workers", db)
          else create
        else create

/-- The end of the handler `GenerateTherapyResponse`, after the branch on the next action: the
chat history is updated and the turn is answered. -/
def controllers.GenerateTherapyResponse.updateHistory (db : DB) (req : ChatRequest)
    (input : TherapyChatInput) (LLMResponse : TherapyResponse) : Reply × DB :=
  match services.UpdateTherapyChatHistory db req.tHistory req.session_id input.NewMessage
      LLMResponse.Reply with
  | (.error err, db1) => (.message 500 err, db1)
  | (.ok _, db1) => (.chat 200 LLMResponse req.session_id, db1)

/-- The handler `GenerateTherapyResponse`: one conversation turn. -/
def controllers.GenerateTherapyResponse (env : Env) (db : DB) (req : ChatRequest) : Reply × DB :=
  match db.First req.session_id with
  | .error _ => (.message 404 "Therapy session not found", db)
  | .ok row =>
    let existingSession := db.PreloadMessages (db.PreloadUser row)
    match req.body with
    | none => (.invalid, db)
    | some input =>
      match services.GetTherapyResponse env db req.tPrompt input.NewMessage existingSession with
      | .error err => (.message 500 err, db)
      | .ok reply =>
        match services.ParseTherapyJSON env reply with
        | .error err => (.message 500 ("Error parsing LLM response: " ++ err), db)
        | .ok LLMResponse =>
          let next_action := LLMResponse.NextAction
          if next_action == "CONTINUE_CHAT" then
            controllers.GenerateTherapyResponse.updateHistory db req input LLMResponse
          else if next_action == "END_SESSION" then
            match services.UpdateSessionRecommendation db req.tRecommendation req.session_id
                LLMResponse.Recommendation LLMResponse.NextSteps with
            | (.error err, db1) => (.message 500 err, db1)
            | (.ok _, db1) =>
              controllers.GenerateTherapyResponse.updateHistory db1 req input LLMResponse
          else (.message 500 "Invalid next action", db)

/-- The handler `GetActiveTherapySession`. -/
def controllers.GetActiveTherapySession (db : DB) (session_id : String) : Reply :=
  match services.GetTherapySessionData db session_id with
  | .error _ => .message 404 "Therapy session not found"
  | .ok session =>
    if session.Recommendation != "" then .message 400 "Therapy session is completed"
    else .session 200 session

/-- The handler `GetTherapySessionDetail`. -/
def controllers.GetTherapySessionDetail (db : DB) (session_id : String) : Reply :=
  match services.GetTherapySessionData db session_id with
  | .error _ => .message 404 "Therapy session not found"
  | .ok session => .session 200 session

/-! ## Runs of requests -/

/-- A request served by the store-changing handlers. -/
inductive Step
  | create (env : Env) (req : CreateRequest)
  | turn (env : Env) (req : ChatRequest)

/-- The store after one request. -/
def Step.apply (db : DB) : Step → DB
  | .create env req => (controllers.CreateTherapySession env db req).2
  | .turn env req => (controllers.GenerateTherapyResponse env db req).2

/-- The store after a sequence of requests, served one after the other. -/
def run (db : DB) (steps : List Step) : DB :=
  steps.foldl Step.apply db

/-! ## The messages of a turn -/

/-- The record of the user's text: role `user`, created at `now`. -/
def userMessage (sessionID content : String) (now : Time) : Message :=
  { Role := "user", Content := content, SessionID := sessionID, CreatedAt := now, UpdatedAt := now }

/-- The record of the model's reply: role `therapist`, created one millisecond after `now`. -/
def therapistMessage (sessionID content : String) (now : Time) : Message :=
  { Role := "therapist", Content := content, SessionID := sessionID,
    CreatedAt := now + Millisecond, UpdatedAt := now + Millisecond }

/-! ## Sample data -/

/-- A world in which the completion service answers `text` to every turn and the decoder reads
`text` as `decoded`, rejecting every other text. -/
def Env.answering (text : String) (decoded : Except String TherapyResponse) : Env :=
  { DateToAgeString := fun _ => "34"
    formatDateTime := fun _ => "2025-01-01 10:00:00"
    formatDate := fun _ => "2025-01-01"
    unmarshal := fun s => if s == text then decoded else .error "invalid character"
    parseUUID := fun s => .ok s
    gemini := fun _ _ _ => .ok text }

/-- A store with one user and one newly created session of that user. -/
def sampleStore : DB :=
  { users := [{ ID := "u1", Name := "Ayu", DOB := "1991-02-03", Gender := "Female" }]
    therapy_sessions :=
      [{ ID := "s1", UserID := "u1", StressLevel := 8, MoodRating := 5, SleepQuality := 4,
         CreatedAt := 1000, UpdatedAt := 1000 }]
    messages := [] }

/-- The session row of `sampleStore`. -/
def sampleRow : TherapySession :=
  { ID := "s1", UserID := "u1", StressLevel := 8, MoodRating := 5, SleepQuality := 4,
    CreatedAt := 1000, UpdatedAt := 1000 }

/-- A turn on the session of `sampleStore`. -/
def sampleTurn : ChatRequest :=
  { session_id := "s1", body := some { NewMessage := "I cannot sleep" },
    tPrompt := 2000, tRecommendation := 3000, tHistory := 4000 }

/-- A reply text whose `next_action` is outside the two-valued enum. -/
def fooText : String :=
  "\x7b\"next_action\":\"FOO\",\"reply\":\"Hello\",\"recommendation\":\"Rest\",\"next_steps\":\"Walk\"\x7d"

/-- The decoded `fooText`. -/
def fooResponse : TherapyResponse :=
  { NextAction := "FOO", Reply := "Hello", Recommendation := "Rest", NextSteps := "Walk" }

/-- A reply text that continues the chat while carrying a recommendation and next steps. -/
def continueText : String :=
  "\x7b\"next_action\":\"CONTINUE_CHAT\",\"reply\":\"Tell me more\",\"recommendation\":\"Rest\",\"next_steps\":\"Walk\"\x7d"

/-- The decoded `continueText`. -/
def continueResponse : TherapyResponse :=
  { NextAction := "CONTINUE_CHAT", Reply := "Tell me more", Recommendation := "Rest",
    NextSteps := "Walk" }

/-- A reply text that ends the session. -/
def endText : String :=
  "\x7b\"next_action\":\"END_SESSION\",\"reply\":\"Take care\",\"recommendation\":\"Rest\",\"next_steps\":\"Walk\"\x7d"

/-- The decoded `endText`. -/
def endResponse : TherapyResponse :=
  { NextAction := "END_SESSION", Reply := "Take care", Recommendation := "Rest",
    NextSteps := "Walk" }

/-- A reply text that ends the session with a recommendation and with empty next steps. -/
def endNoStepsText : String :=
  "\x7b\"next_action\":\"END_SESSION\",\"reply\":\"Take care\",\"recommendation\":\"Rest\",\"next_steps\":\"\"\x7d"

/-- The decoded `endNoStepsText`. -/
def endNoStepsResponse : TherapyResponse :=
  { NextAction := "END_SESSION", Reply := "Take care", Recommendation := "Rest",
    NextSteps := "" }

/-- A second reply text that ends the session, with another recommendation. -/
def endAgainText : String :=
  "\x7b\"next_action\":\"END_SESSION\",\"reply\":\"Bye\",\"recommendation\":\"Sleep early\",\"next_steps\":\"Keep a diary\"\x7d"

/-- The decoded `endAgainText`. -/
def endAgainResponse : TherapyResponse :=
  { NextAction := "END_SESSION", Reply := "Bye", Recommendation := "Sleep early",
    NextSteps := "Keep a diary" }

/-- The id of the user of the examples that pass through `uuid.Parse`, in the textual form of a
UUID. -/
def ayuID : UUID :=
  "7b0f3c9e-2d41-4e8a-9c57-1f6a2b3d4e5f"

/-- The id of the stored session of that user. -/
def firstID : UUID :=
  "0a1b2c3d-4e5f-4a6b-8c7d-9e0f1a2b3c4d"

/-- The id that the store generates for the next session. -/
def secondID : UUID :=
  "1b2c3d4e-5f6a-4b7c-9d8e-0f1a2b3c4d5e"

/-- The stored session of the user `ayuID`, created on 2025-01-01 at 10:00 UTC. -/
def clinicRow : TherapySession :=
  { ID := firstID, UserID := ayuID, StressLevel := 8, MoodRating := 5, SleepQuality := 4,
    CreatedAt := 1735725600000000000, UpdatedAt := 1735725600000000000 }

/-- A store with the user `ayuID` and one newly created session of that user. -/
def clinicStore : DB :=
  { users := [{ ID := ayuID, Name := "Ayu", DOB := "1991-02-03", Gender := "Female" }]
    therapy_sessions := [clinicRow]
    messages := [] }

/-- A turn on the session of `clinicStore`, a minute after its creation. -/
def clinicTurn : ChatRequest :=
  { session_id := firstID, body := some { NewMessage := "I cannot sleep" },
    tPrompt := 1735725660000000000, tRecommendation := 1735725661000000000,
    tHistory := 1735725662000000000 }

/-- A request of the user `ayuID` to create a session as a healthcare worker. -/
def sampleCreate : CreateRequest :=
  { user_id := some ayuID
    body := some { StressLevel := 7, MoodRating := 6, SleepQuality := 5, IsHealthWorker := true,
                   Specialization := "Doctor", WorkHours := 60 }
    t1 := 1735725700000000000, t2 := 1735725700000001000, newID := secondID }

/-- The sample store once the turn `sampleTurn` has ended its session with `endText`. -/
def completedStore : DB :=
  { users := sampleStore.users
    therapy_sessions :=
      [{ sampleRow with Recommendation := "Rest", NextSteps := "Walk", UpdatedAt := 3000 }]
    messages := [userMessage "s1" "I cannot sleep" 4000, therapistMessage "s1" "Take care" 4000] }

/-- The world of the examples on session creation. -/
def sampleEnv : Env :=
  Env.answering endText (.ok endResponse)

/-- The request `sampleCreate` with a stress level of 11. -/
def badRatingCreate : CreateRequest :=
  { user_id := some ayuID
    body := some { StressLevel := 11, MoodRating := 6, SleepQuality := 5, IsHealthWorker := true,
                   Specialization := "Doctor", WorkHours := 60 }
    t1 := 1735725700000000000, t2 := 1735725700000001000, newID := secondID }

/-- A request of a healthcare worker with ratings in 1..10, the specialization `Nurse` and 169
work hours, one more than a week has. -/
def longHoursCreate : CreateRequest :=
  { user_id := some ayuID
    body := some { StressLevel := 5, MoodRating := 5, SleepQuality := 5, IsHealthWorker := true,
                   Specialization := "Nurse", WorkHours := 169 }
    t1 := 1735725700000000000, t2 := 1735725700000001000, newID := secondID }

/-- A request of a general user with ratings in 1..10. -/
def generalCreate : CreateRequest :=
  { user_id := some ayuID
    body := some { StressLevel := 5, MoodRating := 5, SleepQuality := 5 }
    t1 := 1735725700000000000, t2 := 1735725700000001000, newID := secondID }

/-- A request of a healthcare worker with ratings in 1..10 and no specialization. -/
def noSpecializationCreate : CreateRequest :=
  { user_id := some ayuID
    body := some { StressLevel := 5, MoodRating := 5, SleepQuality := 5, IsHealthWorker := true,
                   Specialization := "", WorkHours := 40 }
    t1 := 1735725700000000000, t2 := 1735725700000001000, newID := secondID }

/-! ## Session lifecycle -/

/-- The invariant of the specification (§3): the recommendation and the next steps of a session
are both empty or both set. -/
def TherapySession.bothOrNeither (s : TherapySession) : Bool :=
  (s.Recommendation == "") == (s.NextSteps == "")

/-- The same pairing for a structured reply: its recommendation and its next steps are both
empty or both set. -/
def TherapyResponse.paired (r : TherapyResponse) : Bool :=
  (r.Recommendation == "") == (r.NextSteps == "")

/-- The structured reply that a turn receives in a store: what the decoder reads from the
answer of the completion service, when the session is found, the body binds, the service
answers and its answer is decoded. -/
def receivedReply (env : Env) (db : DB) (req : ChatRequest) : Option TherapyResponse :=
  match db.First req.session_id, req.body with
  | .ok row, some input =>
    match services.GetTherapyResponse env db req.tPrompt input.NewMessage
        (db.PreloadMessages (db.PreloadUser row)) with
    | .error _ => none
    | .ok reply =>
      match env.unmarshal reply with
      | .error _ => none
      | .ok r => some r
  | _, _ => none

/-- The reply that a request receives in a store is paired if it ends the session: when it is an
`END_SESSION` reply, its recommendation and its next steps are both empty or both set. A request
to create a session has no reply. -/
def Step.pairedReply (db : DB) : Step → Prop
  | .create _ _ => True
  | .turn env req =>
    ∀ r, receivedReply env db req = some r → r.NextAction = "END_SESSION" → r.paired = true

/-- Along a run from a store, every reply that is received and ends a session is paired. -/
def pairedRun : DB → List Step → Prop
  | _, [] => True
  | db, step :: rest => step.pairedReply db ∧ pairedRun (step.apply db) rest

/-- The row of a session as `CreateTherapySession` writes it: the ratings and the flag of the
input, the specialization and the work hours of a healthcare worker only, no recommendation,
no next steps. -/
def newSessionRow (newID userId : UUID) (input : TherapySessionInput) (t1 t2 : Time) :
    TherapySession :=
  { ID := newID
    UserID := userId
    StressLevel := input.StressLevel
    MoodRating := input.MoodRating
    SleepQuality := input.SleepQuality
    IsHealthWorker := input.IsHealthWorker
    Specialization := if input.IsHealthWorker then input.Specialization else ""
    WorkHours := if input.IsHealthWorker then input.WorkHours else 0
    CreatedAt := t1
    UpdatedAt := t2 }

/-! ## Substrings -/

/-- The test `strings.Contains(s, sub)`: the characters of `sub` occur in `s` as one
contiguous run. -/
def Contains (s sub : String) : Prop :=
  sub.data <:+: s.data

/-- The test `Contains` can be computed. -/
instance Contains.decidable (s sub : String) : Decidable (Contains s sub) :=
  inferInstanceAs (Decidable (sub.data <:+: s.data))

/-- No occurrence of `sub` in `label` and none that starts at the end of `label`: no proper
beginning of `sub` ends `label`. -/
def labelFree (sub label : String) : Prop :=
  ¬ sub.data <:+: label.data ∧
    ∀ k, k < sub.data.length → 0 < k → ¬ sub.data.take k <:+ label.data

/-- The property `labelFree` can be computed. -/
instance labelFree.decidable (sub label : String) : Decidable (labelFree sub label) :=
  inferInstanceAs (Decidable (_ ∧ _))

/-- The fixed text of the user-data block of a general user leaves no room for `sub`: `sub` has
no line break, holds a character that the text of a number does not hold, occurs in none of
the fixed lines, and does not start at the end of a label. -/
def templateFree (sub : String) : Prop :=
  '\n' ∉ sub.data ∧ (∃ c ∈ sub.data, c.isDigit = false ∧ c ≠ '-') ∧
  ¬ Contains "Here\x27s the user\x27s data: " sub ∧ ¬ Contains "User Type: general user" sub ∧
  labelFree sub "Name: " ∧ labelFree sub "Age: " ∧ labelFree sub "Gender: " ∧
  labelFree sub "Stress Level (1-10): " ∧ labelFree sub "Mood Rating (1-10): " ∧
  labelFree sub "Sleep Quality (1-10): " ∧ labelFree sub " " ∧ labelFree sub "Current Time: "

/-- The property `templateFree` can be computed. -/
instance templateFree.decidable (sub : String) : Decidable (templateFree sub) :=
  inferInstanceAs (Decidable (_ ∧ _))

/-! ## The decoder `json.Unmarshal` (package `encoding/json`)

`ParseTherapyJSON` hands the reply of the model to `json.Unmarshal` with a
`schemas.TherapyResponse` as the target. The decoder is library code; it is modelled here on
texts as lists of Unicode characters (a Go string that is not valid UTF-8 has no counterpart):
the scanner of the library (the grammar of RFC 8259, a nesting limit of 10000) followed by the
assignment of the members of the object to the fields named by the `json:"..."` tags of the
struct. -/

/-- A JSON value as the scanner reads it; a number keeps its text. -/
inductive JSON
  | null
  | bool (b : Bool)
  | number (text : List Char)
  | string (s : String)
  | array (items : List JSON)
  | object (members : List (String × JSON))

namespace json

/-- The white space of the scanner (`isSpace`). -/
def isSpace (c : Char) : Bool :=
  c == ' ' || c == '\t' || c == '\r' || c == '\n'

/-- The text after its leading white space. -/
def skipSpace : List Char → List Char
  | [] => []
  | c :: rest => if isSpace c then skipSpace rest else c :: rest

/-- The value of a hexadecimal digit. -/
def hexDigit (c : Char) : Option Nat :=
  if '0' ≤ c ∧ c ≤ '9' then some (c.toNat - 48)
  else if 'a' ≤ c ∧ c ≤ 'f' then some (c.toNat - 87)
  else if 'A' ≤ c ∧ c ≤ 'F' then some (c.toNat - 55)
  else none

/-- The function `getu4`: the number written by the four hexadecimal digits of `\uXXXX`. -/
def getu4 (a b c d : Char) : Option Nat :=
  (hexDigit a).bind fun a => (hexDigit b).bind fun b => (hexDigit c).bind fun c =>
  (hexDigit d).bind fun d => some (((a * 16 + b) * 16 + c) * 16 + d)

/-- The character a one-letter escape stands for. -/
def escaped (c : Char) : Option Char :=
  if c = '"' then some '"'
  else if c = '\\' then some '\\'
  else if c = '/' then some '/'
  else if c = 'b' then some (Char.ofNat 8)
  else if c = 'f' then some (Char.ofNat 12)
  else if c = 'n' then some '\n'
  else if c = 'r' then some '\r'
  else if c = 't' then some '\t'
  else none

/-- The replacement character `unicode.ReplacementChar`. -/
def replacementChar : Char :=
  Char.ofNat 0xFFFD

/-- The function `unquote` on the text after an opening quote: the characters up to the closing
quote with the escapes resolved, and the text after the closing quote. A raw control character,
an unknown escape and a text that ends inside the literal are refused; an escaped surrogate that
is not the first of a valid pair becomes the replacement character. The first argument bounds
the number of steps; every step takes at least one character, so the length of the text is
enough. -/
def unquote : Nat → List Char → List Char → Option (List Char × List Char)
  | 0, _, _ => none
  | _ + 1, [], _ => none
  | n + 1, c :: rest, acc =>
    if c = '"' then some (acc.reverse, rest)
    else if c = '\\' then
      match rest with
      | [] => none
      | 'u' :: h1 :: h2 :: h3 :: h4 :: rest2 =>
        match getu4 h1 h2 h3 h4 with
        | none => none
        | some rr =>
          if 0xD800 ≤ rr ∧ rr < 0xE000 then
            match rest2 with
            | '\\' :: 'u' :: l1 :: l2 :: l3 :: l4 :: rest3 =>
              match getu4 l1 l2 l3 l4 with
              | none => none
              | some rr1 =>
                if rr < 0xDC00 ∧ 0xDC00 ≤ rr1 ∧ rr1 < 0xE000 then
                  unquote n rest3
                    (Char.ofNat (0x10000 + (rr - 0xD800) * 0x400 + (rr1 - 0xDC00)) :: acc)
                else unquote n rest2 (replacementChar :: acc)
            | _ => unquote n rest2 (replacementChar :: acc)
          else unquote n rest2 (Char.ofNat rr :: acc)
      | e :: rest1 =>
        match escaped e with
        | none => none
        | some x => unquote n rest1 (x :: acc)
    else if c.toNat < 0x20 then none
    else unquote n rest (c :: acc)

/-- A string literal from behind its opening quote on. -/
def stringLiteral (cs : List Char) : Option (String × List Char) :=
  (unquote cs.length cs []).map fun r => (String.mk r.1, r.2)

/-- A run of decimal digits and the text after it. -/
def digits : List Char → List Char × List Char
  | [] => ([], [])
  | c :: rest =>
    if c.isDigit then (c :: (digits rest).1, (digits rest).2) else ([], c :: rest)

/-- One or more decimal digits. -/
def digits1 (cs : List Char) : Option (List Char × List Char) :=
  if (digits cs).1 = [] then none else some (digits cs)

/-- The exponent of a number, if there is one: `e` or `E`, an optional sign, digits. -/
def scanExponent (text cs : List Char) : Option (List Char × List Char) :=
  match cs with
  | e :: rest =>
    if e = 'e' ∨ e = 'E' then
      match rest with
      | s :: rest1 =>
        if s = '+' ∨ s = '-' then
          (digits1 rest1).map fun r => (text ++ e :: s :: r.1, r.2)
        else (digits1 rest).map fun r => (text ++ e :: r.1, r.2)
      | [] => none
    else some (text, cs)
  | [] => some (text, cs)

/-- The fraction of a number, if there is one, and what follows it. -/
def scanFraction (text cs : List Char) : Option (List Char × List Char) :=
  match cs with
  | '.' :: rest => (digits1 rest).bind fun r => scanExponent (text ++ '.' :: r.1) r.2
  | _ => scanExponent text cs

/-- The integer part of a number after its sign: `0`, or a digit from 1 to 9 and a run of digits;
then the fraction and the exponent. -/
def scanInteger (text cs : List Char) : Option (List Char × List Char) :=
  match cs with
  | [] => none
  | c :: rest =>
    if c = '0' then scanFraction (text ++ [c]) rest
    else if c.isDigit then scanFraction (text ++ c :: (digits rest).1) (digits rest).2
    else none

/-- A number: its text and the text after it. -/
def scanNumber (cs : List Char) : Option (List Char × List Char) :=
  match cs with
  | '-' :: rest => scanInteger ['-'] rest
  | _ => scanInteger [] cs

/-- The elements of an array after the first white space behind `[`, the array not being empty;
`value` reads one element. -/
def parseItems (value : List Char → Option (JSON × List Char)) :
    Nat → List Char → List JSON → Option (List JSON × List Char)
  | 0, _, _ => none
  | n + 1, cs, acc =>
    match value cs with
    | none => none
    | some (v, rest) =>
      match skipSpace rest with
      | ',' :: rest1 => parseItems value n (skipSpace rest1) (v :: acc)
      | ']' :: rest1 => some ((v :: acc).reverse, rest1)
      | _ => none

/-- The members of an object from the opening quote of a key on; `value` reads one value. -/
def parseMembers (value : List Char → Option (JSON × List Char)) :
    Nat → List Char → List (String × JSON) → Option (List (String × JSON) × List Char)
  | 0, _, _ => none
  | n + 1, cs, acc =>
    match cs with
    | '"' :: rest =>
      match stringLiteral rest with
      | none => none
      | some (key, rest1) =>
        match skipSpace rest1 with
        | ':' :: rest2 =>
          match value (skipSpace rest2) with
          | none => none
          | some (v, rest3) =>
            match skipSpace rest3 with
            | ',' :: rest4 => parseMembers value n (skipSpace rest4) ((key, v) :: acc)
            | '}' :: rest4 => some (((key, v) :: acc).reverse, rest4)
            | _ => none
        | _ => none
    | _ => none

/-- The text after a given beginning, if it begins so. -/
def after : List Char → List Char → Option (List Char)
  | [], cs => some cs
  | _ :: _, [] => none
  | p :: ps, c :: cs => if p = c then after ps cs else none

/-- One value at the head of the text and the text after it. An object or an array may be
opened only while `depth` is positive: `depth` is the number of levels still allowed. -/
def parseValue : Nat → List Char → Option (JSON × List Char)
  | _, [] => none
  | depth, c :: rest =>
    if c = '{' then
      match depth with
      | 0 => none
      | depth1 + 1 =>
        match skipSpace rest with
        | [] => none
        | d :: rest1 =>
          if d = '}' then some (.object [], rest1)
          else
            (parseMembers (parseValue depth1) (d :: rest1).length (d :: rest1) []).map
              fun r => (.object r.1, r.2)
    else if c = '[' then
      match depth with
      | 0 => none
      | depth1 + 1 =>
        match skipSpace rest with
        | [] => none
        | d :: rest1 =>
          if d = ']' then some (.array [], rest1)
          else
            (parseItems (parseValue depth1) (d :: rest1).length (d :: rest1) []).map
              fun r => (.array r.1, r.2)
    else if c = '"' then (stringLiteral rest).map fun r => (.string r.1, r.2)
    else if c = 't' then (after ['r', 'u', 'e'] rest).map fun r => (.bool true, r)
    else if c = 'f' then (after ['a', 'l', 's', 'e'] rest).map fun r => (.bool false, r)
    else if c = 'n' then (after ['u', 'l', 'l'] rest).map fun r => (.null, r)
    else (scanNumber (c :: rest)).map fun r => (.number r.1, r.2)

/-- The nesting limit of the scanner (`maxNestingDepth`). -/
def maxNestingDepth : Nat := 10000

/-- The whole text as one value between white space (`checkValid`); the message of a syntax
error is abridged. -/
def parse (text : String) : Except String JSON :=
  match parseValue maxNestingDepth (skipSpace text.data) with
  | none => .error "invalid character"
  | some (v, rest) =>
    if skipSpace rest = [] then .ok v else .error "invalid character after top-level value"

/-- The names of the fields of `schemas.TherapyResponse` in their `json` tags, in the order of
the declaration. -/
def fieldNames : List String :=
  ["next_action", "reply", "recommendation", "next_steps"]

/-- The case folding under which a key matches a field name: letters of ASCII without their
case, the long s as `S`, the Kelvin sign as `K`. -/
def foldChar (c : Char) : Char :=
  if 'a' ≤ c ∧ c ≤ 'z' then Char.ofNat (c.toNat - 32)
  else if c = Char.ofNat 0x17F then 'S'
  else if c = Char.ofNat 0x212A then 'K'
  else c

/-- The folded form of a name. -/
def foldName (s : String) : List Char :=
  s.data.map foldChar

/-- The field a key names: the one whose tag is the key, else the first whose tag equals the key
under case folding. -/
def fieldOf (key : String) : Option Nat :=
  match fieldNames.indexOf? key with
  | some i => some i
  | none => (fieldNames.map foldName).indexOf? (foldName key)

/-- The assignment of a text to the field with this index. -/
def setField (r : TherapyResponse) (i : Nat) (s : String) : TherapyResponse :=
  match i with
  | 0 => { r with NextAction := s }
  | 1 => { r with Reply := s }
  | 2 => { r with Recommendation := s }
  | _ => { r with NextSteps := s }

/-- The kind of a value, as an `UnmarshalTypeError` names it. -/
def kind : JSON → String
  | .null => "null"
  | .bool _ => "bool"
  | .number _ => "number"
  | .string _ => "string"
  | .array _ => "array"
  | .object _ => "object"

/-- The members of an object into the fields of the record, in the order of the text: a key that
names no field is skipped, `null` leaves the field as it is, a string is assigned, a value of
another kind is a type error. The first type error is kept while the decoding goes on; its
message is abridged. -/
def decodeMembers : List (String × JSON) → TherapyResponse → Option String →
    TherapyResponse × Option String
  | [], r, saved => (r, saved)
  | (key, v) :: rest, r, saved =>
    match fieldOf key with
    | none => decodeMembers rest r saved
    | some i =>
      match v with
      | .string s => decodeMembers rest (setField r i s) saved
      | .null => decodeMembers rest r saved
      | v =>
        decodeMembers rest r
          (saved.orElse fun _ =>
            some ("json: cannot unmarshal " ++ kind v ++ " into Go struct field of type string"))

/-- A value into a `TherapyResponse` that starts as the zero record. -/
def decode : JSON → Except String TherapyResponse
  | .null => .ok {}
  | .object members =>
    match decodeMembers members {} none with
    | (r, none) => .ok r
    | (_, some err) => .error err
  | v =>
    .error ("json: cannot unmarshal " ++ kind v ++
      " into Go value of type schemas.TherapyResponse")

/-- The call `json.Unmarshal([]byte(input), &responseJSON)`. -/
def Unmarshal (input : String) : Except String TherapyResponse :=
  match parse input with
  | .error err => .error err
  | .ok v => decode v

/-- The hexadecimal digit of a number below 16. -/
def hexChar (n : Nat) : Char :=
  if n < 10 then Char.ofNat (48 + n) else Char.ofNat (87 + n)

/-- A character of a string literal as a writer puts it: the quote and the backslash behind a
backslash, a control character as `\u00XX`, every other character as it is. -/
def escapeChar (c : Char) : List Char :=
  if c = '"' then ['\\', '"']
  else if c = '\\' then ['\\', '\\']
  else if c.toNat < 0x20 then ['\\', 'u', '0', '0', hexChar (c.toNat / 16), hexChar (c.toNat % 16)]
  else [c]

/-- The escaped form of a text. -/
def escape : List Char → List Char
  | [] => []
  | c :: rest => escapeChar c ++ escape rest

/-- The string literal that denotes `s`. -/
def quote (s : String) : List Char :=
  '"' :: (escape s.data ++ ['"'])

/-- The member `"key": value` of an object for a text value. -/
def member (key value : String) : List Char :=
  quote key ++ ':' :: quote value

/-- The members of an object one after another, a comma between two of them. -/
def membersText : List (String × String) → List Char
  | [] => []
  | [m] => member m.1 m.2
  | m :: rest => member m.1 m.2 ++ ',' :: membersText rest

/-- The text of an object with these members, all of them strings, without white space. -/
def objectText (members : List (String × String)) : String :=
  String.mk ('{' :: (membersText members ++ ['}']))

/-- The member of an object that a written member stands for. -/
def memberValue (m : String × String) : String × JSON :=
  (m.1, .string m.2)

end json

/-! ## The mental health summary (`services.GetMentalHealthSummary`) -/

/-- A value of the payload `map[string]interface{}`. -/
inductive Value
  | int (n : Int)
  | float (q : ℚ)
  | str (s : String)
  | bool (b : Bool)
deriving DecidableEq

/-- The payload `map[string]interface{}` of the summary, as its entries in the order in which the
source writes them; a key occurs once. -/
abbrev Payload := List (String × Value)

namespace services

/-- The variables of the loop `for i, session := range sessions` of `GetMentalHealthSummary`.
The four slices are filled element by element in the order of the loop: an entry is appended. -/
structure Totals where
  totalStressLevel : Int := 0
  totalMoodRating : Int := 0
  totalSleepQuality : Int := 0
  healthWorkerSessions : Int := 0
  sessionDates : List Time := []
  stressLevels : List Int := []
  moodRatings : List Int := []
  sleepQualities : List Int := []

/-- The body of that loop for one session. -/
def Totals.add (t : Totals) (session : TherapySession) : Totals :=
  { totalStressLevel := wrapInt (t.totalStressLevel + session.StressLevel)
    totalMoodRating := wrapInt (t.totalMoodRating + session.MoodRating)
    totalSleepQuality := wrapInt (t.totalSleepQuality + session.SleepQuality)
    healthWorkerSessions :=
      if session.IsHealthWorker then wrapInt (t.healthWorkerSessions + 1)
      else t.healthWorkerSessions
    sessionDates := t.sessionDates ++ [session.CreatedAt]
    stressLevels := t.stressLevels ++ [session.StressLevel]
    moodRatings := t.moodRatings ++ [session.MoodRating]
    sleepQualities := t.sleepQualities ++ [session.SleepQuality] }

/-- The loop `for i, session := range sessions`. -/
def summaryLoop : List TherapySession → Totals → Totals
  | [], t => t
  | session :: rest, t => summaryLoop rest (t.add session)

/-- The service `GetMentalHealthSummary`. The error it returns is always `nil`; `none` stands for
a run that does not return (an index outside a slice) or divides by zero. -/
def GetMentalHealthSummary (env : Env) (db : DB) (userID : UUID) :
    Option (Except String Payload) :=
  let sessions := GetTherapySessionsByUserID db userID
  if sessions.length = 0 then
    some (.ok [("total_sessions", .int 0),
               ("message", .str "No therapy sessions found for this user")])
  else
    let t := summaryLoop sessions {}
    (fdiv (float64 t.totalStressLevel) (float64 sessions.length)).bind fun avgStressLevel =>
    (fdiv (float64 t.totalMoodRating) (float64 sessions.length)).bind fun avgMoodRating =>
    (fdiv (float64 t.totalSleepQuality) (float64 sessions.length)).bind fun avgSleepQuality =>
    (determineTrend t.stressLevels).bind fun stressTrend =>
    (determineTrend t.moodRatings).bind fun moodTrend =>
    (determineTrend t.sleepQualities).bind fun sleepTrend =>
    sessions[0]?.bind fun first =>
    let lastSessionDate := env.formatDate first.CreatedAt
    some (.ok [("total_sessions", .int sessions.length),
               ("healthcare_worker", .bool (decide (t.healthWorkerSessions > 0))),
               ("avg_stress_level", .float avgStressLevel),
               ("avg_mood_rating", .float avgMoodRating),
               ("avg_sleep_quality", .float avgSleepQuality),
               ("stress_trend", .str stressTrend),
               ("mood_trend", .str moodTrend),
               ("sleep_trend", .str sleepTrend),
               ("last_session_date", .str lastSessionDate),
               ("completed_sessions", .int sessions.length)])

end services

/-- The value a payload holds under a key. -/
def Payload.get (p : Payload) (key : String) : Option Value :=
  p.lookup key

/-- The keys of a payload. -/
def Payload.keys (p : Payload) : List String :=
  p.map Prod.fst

/-! ## Times of the calendar

The layouts of `time.Format` depend on the location of the time; the examples read every time in
UTC. -/

/-- The year, month and day of a count of days since 1970-01-01 (Gregorian calendar). -/
def civilFromDays (days : Int) : Int × Int × Int :=
  let z := days + 719468
  let era := z / 146097
  let doe := z - era * 146097
  let yoe := (doe - doe / 1460 + doe / 36524 - doe / 146096) / 365
  let doy := doe - (365 * yoe + yoe / 4 - yoe / 100)
  let mp := (5 * doy + 2) / 153
  let d := doy - (153 * mp + 2) / 5 + 1
  let m := if mp < 10 then mp + 3 else mp - 9
  let y := yoe + era * 400 + (if m ≤ 2 then 1 else 0)
  (y, m, d)

/-- A number in decimal with at least `width` digits. -/
def padded (width : Nat) (n : Int) : String :=
  let s := toString n.toNat
  String.mk (List.replicate (width - s.length) '0') ++ s

/-- The layout `2006-01-02` of a time in UTC. -/
def utcDate (t : Time) : String :=
  let c := civilFromDays (t / 1000000000 / 86400)
  padded 4 c.1 ++ "-" ++ padded 2 c.2.1 ++ "-" ++ padded 2 c.2.2

/-- The layout `2006-01-02 15:04:05` of a time in UTC. -/
def utcDateTime (t : Time) : String :=
  let s := t / 1000000000 % 86400
  utcDate t ++ " " ++ padded 2 (s / 3600) ++ ":" ++ padded 2 (s % 3600 / 60) ++ ":" ++
    padded 2 (s % 60)

/-! ## Sample data of the history and of the summary -/

/-- The world of `sampleEnv` with the times read in UTC and the replies decoded by
`json.Unmarshal`. -/
def utcEnv : Env :=
  { sampleEnv with
    formatDateTime := utcDateTime
    formatDate := utcDate
    unmarshal := json.Unmarshal }

/-- The world of `utcEnv` in which the completion service answers `text` to every turn; the
answer is decoded by `json.Unmarshal`. -/
def Env.replying (text : String) : Env :=
  { utcEnv with gemini := fun _ _ _ => .ok text }

/-- Ten o'clock on the first day of a month of 2025 (UTC): January, February, March, April. -/
def january : Time := 1735725600000000000

/-- The first of February 2025, ten o'clock. -/
def february : Time := 1738404000000000000

/-- The first of March 2025, ten o'clock. -/
def march : Time := 1740823200000000000

/-- The first of April 2025, ten o'clock. -/
def april : Time := 1743501600000000000

/-- The user of the examples. -/
def ayu : User :=
  { ID := "u1", Name := "Ayu", DOB := "1991-02-03", Gender := "Female" }

/-- The three completed sessions of the user, in the order of their creation. -/
def januarySession : TherapySession :=
  { ID := "s1", UserID := "u1", StressLevel := 8, MoodRating := 4, SleepQuality := 5,
    Recommendation := "Rest", NextSteps := "Walk", CreatedAt := january, UpdatedAt := january }

/-- The session of February. -/
def februarySession : TherapySession :=
  { ID := "s2", UserID := "u1", StressLevel := 7, MoodRating := 5, SleepQuality := 5,
    Recommendation := "Sleep", NextSteps := "Read", CreatedAt := february, UpdatedAt := february }

/-- The session of March. -/
def marchSession : TherapySession :=
  { ID := "s3", UserID := "u1", StressLevel := 6, MoodRating := 6, SleepQuality := 6,
    Recommendation := "Breathe", NextSteps := "Swim", CreatedAt := march, UpdatedAt := march }

/-- The session of April, not completed: the current one. -/
def aprilSession : TherapySession :=
  { ID := "s4", UserID := "u1", StressLevel := 5, MoodRating := 7, SleepQuality := 7,
    CreatedAt := april, UpdatedAt := april }

/-- A store in which the user has four sessions, stored in the order of their creation. -/
def fourSessions : DB :=
  { users := [ayu]
    therapy_sessions := [januarySession, februarySession, marchSession, aprilSession] }

/-- A store in which the user has the session of April only. -/
def oneSession : DB :=
  { users := [ayu], therapy_sessions := [aprilSession] }

/-- A user with three sessions whose stress levels are 1, 1 and 2. -/
def thirds : DB :=
  { users := [ayu]
    therapy_sessions :=
      [{ januarySession with StressLevel := 1 }, { februarySession with StressLevel := 1 },
       { marchSession with StressLevel := 2 }] }

/-- The session with this number in a store of `tieSeries.length` sessions of one user whose mood
ratings are those of `tieSeries`. -/
def tieSession (i : Nat) (mood : Int) : TherapySession :=
  { ID := "t" ++ toString i, UserID := "u1", StressLevel := 5, MoodRating := mood,
    SleepQuality := 5, CreatedAt := january + i * 86400000000000,
    UpdatedAt := january + i * 86400000000000 }

/-- The store of those sessions. -/
def tieStore : DB :=
  { users := [ayu], therapy_sessions := tieSeries.enum.map fun p => tieSession p.1 p.2 }

/-! ## What the history block is compared with -/

/-- The entries of these sessions one after another. -/
def historyEntries (env : Env) : List TherapySession → String
  | [] => ""
  | historyItem :: rest => services.historyEntry env historyItem ++ historyEntries env rest

/-- The sessions of a history other than the current one, in the order of the history. -/
def otherSessions (currentID : UUID) (history : List TherapySession) : List TherapySession :=
  history.filter fun h => !(h.ID == currentID)

/-- The first line of a history block that lists sessions. -/
def historyHeader : String :=
  "\nPrevious therapy sessions:\n"

/-- The history block of a user without previous sessions. -/
def noHistory : String :=
  "\nNo previous therapy sessions found.\n"

/-- The three labels of a trend. -/
def isTrendLabel (label : String) : Prop :=
  label = "improving" ∨ label = "worsening" ∨ label = "stable"

/-- The stress levels of the sessions the store returns for a user, in the order in which it
returns them. -/
def stressSeries (db : DB) (userID : UUID) : List Int :=
  (services.GetTherapySessionsByUserID db userID).map (·.StressLevel)

/-- The mood ratings of those sessions. -/
def moodSeries (db : DB) (userID : UUID) : List Int :=
  (services.GetTherapySessionsByUserID db userID).map (·.MoodRating)

/-- The sleep ratings of those sessions. -/
def sleepSeries (db : DB) (userID : UUID) : List Int :=
  (services.GetTherapySessionsByUserID db userID).map (·.SleepQuality)

/-- The mean of the first half of a series minus the mean of its second half, the split being at
`length / 2`. -/
def halfGap (s : List Int) : ℚ :=
  mean (s.take (s.length / 2)) - mean (s.drop (s.length / 2))

/-! ## The texts of `TestParseTherapyJSON` and the written members of a reply -/

/-- The text `validJSON` of the test `TestParseTherapyJSON`. -/
def validJSON : String :=
  "\x7b\n\t\t\"next_action\": \"CONTINUE_CHAT\",\n\t\t\"reply\": \"How are you feeling today?\",\n\t\t\"recommendation\": \"Consider practicing mindfulness\",\n\t\t\"next_steps\": \"Try deep breathing exercises\"\n\t\x7d"

/-- The text `invalidJSON` of the same test: an object with two of the four members. -/
def invalidJSON : String :=
  "\x7b\n\t\t\"next_action\": \"INVALID_ACTION\",\n\t\t\"reply\": \"How are you feeling today?\"\n\t\x7d"

/-- The four members of a structured reply, in the order of the fields. -/
def replyMembers (a r c n : String) : List (String × String) :=
  [("next_action", a), ("reply", r), ("recommendation", c), ("next_steps", n)]

/-- The record of the members of an object: under each field the value of the member with the
name of the field, the empty text when the object has no such member. -/
def responseOf (members : List (String × String)) : TherapyResponse :=
  { NextAction := (members.lookup "next_action").getD ""
    Reply := (members.lookup "reply").getD ""
    Recommendation := (members.lookup "recommendation").getD ""
    NextSteps := (members.lookup "next_steps").getD "" }

/-- Texts that are no structured reply: not a JSON text, an object cut short, a number where the
reply is expected, a text after the object, a raw line break inside a string. -/
def malformedReplies : List String :=
  ["I am sorry", "\x7b\"next_action\": \"END_SESSION\"", "\x7b\"reply\": 1\x7d",
   "\x7b\"reply\": \"a\"\x7d\x7b\x7d", "\x7b\"reply\": \"a\nb\"\x7d"]

end OmSehat

namespace OmSehat

open services

/-! ## Lemmas on the store -/

theorem row_row (s : TherapySession) : s.row.row = s.row := rfl

theorem row_ID (s : TherapySession) : s.row.ID = s.ID := rfl

theorem First_eq_ok {db : DB} {id : String} {row : TherapySession}
    (h : db.First id = .ok row) :
    ∃ s, db.therapy_sessions.find? (fun s => s.ID == id) = some s ∧ row = s.row := by
  unfold DB.First at h
  split at h
  · rename_i s hs
    exact ⟨s, hs, by injection h with h; exact h.symm⟩
  · cases h

theorem First_ok_ID {db : DB} {id : String} {row : TherapySession}
    (h : db.First id = .ok row) : row.ID = id := by
  obtain ⟨s, hs, rfl⟩ := First_eq_ok h
  have := List.find?_some (p := fun (s : TherapySession) => s.ID == id) hs
  simpa using this

theorem First_ok_row {db : DB} {id : String} {row : TherapySession}
    (h : db.First id = .ok row) : row.row = row := by
  obtain ⟨s, _, rfl⟩ := First_eq_ok h
  rfl

theorem First_ok_any {db : DB} {id : String} {row : TherapySession}
    (h : db.First id = .ok row) :
    db.therapy_sessions.any (fun r => r.ID == id) = true := by
  obtain ⟨s, hs, rfl⟩ := First_eq_ok h
  rw [List.any_eq_true]
  exact ⟨s, List.mem_of_find?_eq_some hs, List.find?_some (p := fun (s : TherapySession) => s.ID == id) hs⟩

theorem find_cons_pos {α : Type} (p : α → Bool) (a : α) (l : List α) (h : p a = true) :
    (a :: l).find? p = some a := by
  simp [List.find?_cons, h]

theorem find_cons_neg {α : Type} (p : α → Bool) (a : α) (l : List α) (h : p a = false) :
    (a :: l).find? p = l.find? p := by
  simp [List.find?_cons, h]

theorem find_map_update (l : List TherapySession) (id id' : String) (new : TherapySession)
    (hnew : new.ID = id) :
    (l.map (fun r => if r.ID == id then new else r)).find? (fun s => s.ID == id') =
      if id' = id then (if l.any (fun r => r.ID == id) then some new else none)
      else l.find? (fun s => s.ID == id') := by
  induction l with
  | nil => simp
  | cons a l ih =>
    rw [List.map_cons, List.any_cons]
    by_cases ha : a.ID = id
    · have hb : (a.ID == id) = true := by simp [ha]
      rw [if_pos hb]
      by_cases hid : id' = id
      · have hc : (new.ID == id') = true := by simp [hnew, hid]
        rw [find_cons_pos (fun (s : TherapySession) => s.ID == id') _ _ hc]
        simp [hid, hb]
      · have hc : (new.ID == id') = false := by
          simp only [beq_eq_false_iff_ne, ne_eq, hnew]; exact fun h => hid h.symm
        have hd : (a.ID == id') = false := by
          simp only [beq_eq_false_iff_ne, ne_eq, ha]; exact fun h => hid h.symm
        rw [find_cons_neg (fun (s : TherapySession) => s.ID == id') _ _ hc, ih,
          find_cons_neg (fun (s : TherapySession) => s.ID == id') _ _ hd, if_neg hid, if_neg hid]
    · have hb : ¬ (a.ID == id) = true := by simp [ha]
      rw [if_neg hb]
      by_cases hid : id' = id
      · have hc : (a.ID == id') = false := by simp [ha, hid]
        rw [find_cons_neg (fun (s : TherapySession) => s.ID == id') _ _ hc, ih]
        simp [hid, ha]
      · by_cases he : a.ID = id'
        · have hc : (a.ID == id') = true := by simp [he]
          rw [find_cons_pos (fun (s : TherapySession) => s.ID == id') _ _ hc,
            find_cons_pos (fun (s : TherapySession) => s.ID == id') _ _ hc, if_neg hid]
        · have hc : (a.ID == id') = false := by simp [he]
          rw [find_cons_neg (fun (s : TherapySession) => s.ID == id') _ _ hc,
            find_cons_neg (fun (s : TherapySession) => s.ID == id') _ _ hc, ih, if_neg hid,
            if_neg hid]

/-- The chat history update on a session that exists: both messages are appended. -/
theorem UpdateTherapyChatHistory_found {db : DB} {id : String} {row : TherapySession}
    (now : Time) (newMessage LLMResponse : String) (h : db.First id = .ok row) :
    UpdateTherapyChatHistory db now id newMessage LLMResponse =
      (.ok (), { db with messages := db.messages ++
        [userMessage id newMessage now, therapistMessage id LLMResponse now] }) := by
  have hid := First_ok_ID h
  simp [UpdateTherapyChatHistory, h, DB.CreateMessage, hid, userMessage, therapistMessage]

/-- The recommendation update on a session that exists. -/
theorem UpdateSessionRecommendation_found {db : DB} {id : String} {row : TherapySession}
    (now : Time) (recommendation nextSteps : String) (h : db.First id = .ok row) :
    UpdateSessionRecommendation db now id recommendation nextSteps =
      (.ok (), { db with therapy_sessions := db.therapy_sessions.map (fun r =>
        if r.ID == id then
          { row with Recommendation := recommendation, NextSteps := nextSteps, UpdatedAt := now }
        else r) }) := by
  have hid := First_ok_ID h
  have hrow := First_ok_row h
  have hany := First_ok_any h
  have hr : ∀ r : TherapySession, r.row = r →
      ({ r with Recommendation := recommendation, NextSteps := nextSteps, UpdatedAt := now }
        : TherapySession).row =
      { r with Recommendation := recommendation, NextSteps := nextSteps, UpdatedAt := now } := by
    intro r hr
    conv_rhs => rw [← hr]
    rfl
  have hr := hr row hrow
  subst hid
  simp only [UpdateSessionRecommendation, h, DB.Save, hany, if_true]
  rw [hr]

/-! ## binary64 rounding -/

/-- Rounding to the nearest integer moves a number by at most one half. -/
theorem roundHalfEven_error (q : ℚ) : |(roundHalfEven q : ℚ) - q| ≤ 1 / 2 := by
  have h0 : ((⌊q⌋ : Int) : ℚ) ≤ q := Int.floor_le q
  have h1 : q < (⌊q⌋ : Int) + 1 := Int.lt_floor_add_one q
  unfold roundHalfEven
  simp only
  rw [abs_le]
  split_ifs <;> push_cast <;> constructor <;> linarith

/-- An integer is its own nearest integer. -/
theorem roundHalfEven_intCast (n : Int) : roundHalfEven (n : ℚ) = n := by
  simp [roundHalfEven]

/-- The relative error of a rounding to binary64 is at most `2^-53`. -/
theorem roundF64_error (q : ℚ) : |roundF64 q - q| ≤ |q| / 2 ^ 53 := by
  unfold roundF64
  split_ifs with h0
  · simp [h0]
  · simp only
    have hq : 0 < |q| := abs_pos.mpr h0
    have hp : (0 : ℚ) < 2 ^ (Int.log 2 |q| - 52) := zpow_pos (by norm_num) _
    have hlog : ((2 : ℕ) : ℚ) ^ Int.log 2 |q| ≤ |q| := Int.zpow_log_le_self (by norm_num) hq
    have hsplit : (2 : ℚ) ^ (Int.log 2 |q| - 52) = 2 ^ Int.log 2 |q| / 2 ^ 52 := by
      rw [zpow_sub₀ (by norm_num)]
      norm_num
    have herr := roundHalfEven_error (q / 2 ^ (Int.log 2 |q| - 52))
    have hrw : (roundHalfEven (q / 2 ^ (Int.log 2 |q| - 52)) : ℚ) * 2 ^ (Int.log 2 |q| - 52) - q
        = ((roundHalfEven (q / 2 ^ (Int.log 2 |q| - 52)) : ℚ) - q / 2 ^ (Int.log 2 |q| - 52))
          * 2 ^ (Int.log 2 |q| - 52) := by
      field_simp
    rw [hrw, abs_mul, abs_of_pos hp]
    calc |(roundHalfEven (q / 2 ^ (Int.log 2 |q| - 52)) : ℚ) - q / 2 ^ (Int.log 2 |q| - 52)|
          * 2 ^ (Int.log 2 |q| - 52)
        ≤ 1 / 2 * 2 ^ (Int.log 2 |q| - 52) := mul_le_mul_of_nonneg_right herr hp.le
      _ = 2 ^ Int.log 2 |q| / 2 ^ 53 := by rw [hsplit]; ring
      _ ≤ |q| / 2 ^ 53 := by
        apply div_le_div_of_nonneg_right _ (by positivity)
        simpa using hlog

/-- An integer below `2^53` in magnitude is a binary64 number: its conversion is exact. -/
theorem roundF64_intCast (z : Int) (hz : |z| < 2 ^ 53) : roundF64 (z : ℚ) = z := by
  unfold roundF64
  split_ifs with h0
  · exact h0.symm
  · simp only
    have hq : (0 : ℚ) < |(z : ℚ)| := abs_pos.mpr h0
    have hlt : |(z : ℚ)| < ((2 : ℕ) : ℚ) ^ (53 : Int) := by
      have h1 : ((|z| : Int) : ℚ) < ((2 ^ 53 : Int) : ℚ) := by exact_mod_cast hz
      rw [Int.cast_abs] at h1
      norm_num at h1 ⊢
      exact h1
    have hlog : Int.log 2 |(z : ℚ)| < 53 := (Int.lt_zpow_iff_log_lt (by norm_num) hq).mp hlt
    obtain ⟨k, hk⟩ : ∃ k : ℕ, Int.log 2 |(z : ℚ)| - 52 = -(k : Int) :=
      ⟨(52 - Int.log 2 |(z : ℚ)|).toNat, by omega⟩
    rw [hk, zpow_neg, zpow_natCast]
    have hint : (z : ℚ) / ((2 : ℚ) ^ k)⁻¹ = ((z * 2 ^ k : Int) : ℚ) := by
      push_cast
      field_simp
    rw [hint, roundHalfEven_intCast]
    push_cast
    field_simp

/-- The conversion of a small integer is exact. -/
theorem float64_exact (z : Int) (hz : |z| < 2 ^ 53) : float64 z = z :=
  roundF64_intCast z hz

/-! ## The sums of the two halves -/

/-- No wrap-around inside the range of a Go `int`. -/
theorem wrapInt_of_small (x : Int) (h : |x| < 2 ^ 63) : wrapInt x = x := by
  unfold wrapInt
  have := abs_lt.mp h
  omega

/-- The sum of values bounded by `V`. -/
theorem sum_abs_le (V : ℕ) : ∀ l : List Int, (∀ v ∈ l, |v| ≤ V) → |l.sum| ≤ l.length * V
  | [], _ => by simp
  | a :: l, h => by
    have ha := h a (List.mem_cons_self _ _)
    have hl := sum_abs_le V l (fun v hv => h v (List.mem_cons_of_mem _ hv))
    simp only [List.sum_cons, List.length_cons]
    have := abs_add a l.sum
    push_cast
    nlinarith

/-- The loop over a half adds up the values it reads, when no sum leaves the range of `int`. -/
theorem sumLoop_eq (values : List Int) (V : ℕ) (hV : ∀ v ∈ values, |v| ≤ V) :
    ∀ (count i : ℕ) (acc : Int), i + count ≤ values.length → |acc| + count * V < 2 ^ 63 →
      sumLoop values count i acc = some (acc + ((values.drop i).take count).sum) := by
  intro count
  induction count with
  | zero => intro i acc _ _; simp [sumLoop]
  | succ count ih =>
    intro i acc hi hacc
    have hlt : i < values.length := by omega
    have hv := hV values[i] (List.getElem_mem _)
    push_cast at hacc
    have hadd := abs_add acc values[i]
    have hc : (0 : Int) ≤ count * V := by positivity
    have hw : wrapInt (acc + values[i]) = acc + values[i] :=
      wrapInt_of_small _ (by nlinarith)
    rw [sumLoop, List.getElem?_eq_getElem hlt]
    simp only
    rw [hw, ih (i + 1) (acc + values[i]) (by omega) (by nlinarith),
      List.drop_eq_getElem_cons hlt, List.take_succ_cons, List.sum_cons]
    ring_nf

/-! ## The trend estimator against the rule of the specification -/

/-- The error analysis of `determineTrend`: `a`, `b` and `D` are the rounded means and the
rounded difference, `u` the unit round-off, `δ` the distance that separates an exact
difference other than one half from one half. -/
theorem classify_rounded (A B a b D V δ u : ℚ) (hu0 : 0 < u) (hu1 : u ≤ 1 / 2) (hV : 0 ≤ V)
    (hA : |A| ≤ V) (hB : |B| ≤ V) (ha : |a - A| ≤ |A| * u) (hb : |b - B| ≤ |B| * u)
    (hD : |D - (a - b)| ≤ |a - b| * u) (hδ : (2 * V + 1) * u ≤ δ) (hδ2 : δ ≤ 1 / 2) :
    (|A - B| ≤ 1 / 2 - δ → |D| < 1 / 2) ∧
    (1 / 2 + δ ≤ A - B → 1 / 2 ≤ D) ∧
    (A - B ≤ -(1 / 2 + δ) → D ≤ -(1 / 2)) ∧
    (A - B = 1 / 2 → 0 < D) ∧
    (A - B = -(1 / 2) → D < 0) := by
  have haV : |a - A| ≤ V * u := ha.trans (mul_le_mul_of_nonneg_right hA hu0.le)
  have hbV : |b - B| ≤ V * u := hb.trans (mul_le_mul_of_nonneg_right hB hu0.le)
  obtain ⟨ha1, ha2⟩ := abs_le.mp haV
  obtain ⟨hb1, hb2⟩ := abs_le.mp hbV
  obtain ⟨hD1, hD2⟩ := abs_le.mp hD
  have hVu : 0 ≤ V * u := mul_nonneg hV hu0.le
  have huu : 0 < u * u := mul_pos hu0 hu0
  have hu2 : u * u ≤ u / 2 := by nlinarith
  have hu3 : 0 ≤ 1 - u := by linarith
  refine ⟨?_, ?_, ?_, ?_, ?_⟩
  · intro h
    obtain ⟨h1, h2⟩ := abs_le.mp h
    have hx : |a - b| ≤ 1 / 2 - u := by
      rw [abs_le]
      constructor <;> linarith
    have hxu : |a - b| * u ≤ (1 / 2 - u) * u := mul_le_mul_of_nonneg_right hx hu0.le
    have e : (1 / 2 - u) * u = u / 2 - u * u := by ring
    rw [e] at hxu
    obtain ⟨hx1, hx2⟩ := abs_le.mp hx
    rw [abs_lt]
    constructor <;> linarith
  · intro h
    have hx : 1 / 2 + u ≤ a - b := by linarith
    have hpos : 0 ≤ a - b := by linarith
    rw [abs_of_nonneg hpos] at hD1
    have h3 : 0 ≤ (a - b - (1 / 2 + u)) * (1 - u) := mul_nonneg (by linarith) hu3
    have e : (a - b - (1 / 2 + u)) * (1 - u) =
        (a - b) - (a - b) * u - 1 / 2 - u / 2 + u * u := by ring
    rw [e] at h3
    linarith
  · intro h
    have hx : a - b ≤ -(1 / 2 + u) := by linarith
    have hneg : a - b ≤ 0 := by linarith
    rw [abs_of_nonpos hneg] at hD2
    have h3 : 0 ≤ (-(a - b) - (1 / 2 + u)) * (1 - u) := mul_nonneg (by linarith) hu3
    have e : (-(a - b) - (1 / 2 + u)) * (1 - u) =
        -(a - b) + (a - b) * u - 1 / 2 - u / 2 + u * u := by ring
    rw [e] at h3
    linarith
  · intro h
    have hx : 0 < a - b := by linarith
    rw [abs_of_pos hx] at hD1
    have h3 : 0 < (a - b) * (1 - u) := mul_pos hx (by linarith)
    have e : (a - b) * (1 - u) = (a - b) - (a - b) * u := by ring
    rw [e] at h3
    linarith
  · intro h
    have hx : a - b < 0 := by linarith
    rw [abs_of_neg hx] at hD2
    have h3 : 0 < (-(a - b)) * (1 - u) := mul_pos (by linarith) (by linarith)
    have e : (-(a - b)) * (1 - u) = -(a - b) + (a - b) * u := by ring
    rw [e] at h3
    linarith

/-- Two means of integers that differ by less than one half, or by more, keep a distance of
`1/(2mk)` from one half, `m` and `k` being the two numbers of values. -/
theorem mean_gap (S1 S2 : Int) (m k : ℕ) (hm : 0 < m) (hk : 0 < k) :
    (|(S1 : ℚ) / m - (S2 : ℚ) / k| < 1 / 2 →
      |(S1 : ℚ) / m - (S2 : ℚ) / k| ≤ 1 / 2 - 1 / (2 * m * k)) ∧
    (1 / 2 < (S1 : ℚ) / m - (S2 : ℚ) / k →
      1 / 2 + 1 / (2 * m * k) ≤ (S1 : ℚ) / m - (S2 : ℚ) / k) ∧
    ((S1 : ℚ) / m - (S2 : ℚ) / k < -(1 / 2) →
      (S1 : ℚ) / m - (S2 : ℚ) / k ≤ -(1 / 2 + 1 / (2 * m * k))) := by
  have hm' : (0 : ℚ) < m := by exact_mod_cast hm
  have hk' : (0 : ℚ) < k := by exact_mod_cast hk
  have hmk : (0 : ℚ) < 2 * m * k := by positivity
  have hd : (S1 : ℚ) / m - (S2 : ℚ) / k = ((2 * (S1 * k - S2 * m) : Int) : ℚ) / (2 * m * k) := by
    push_cast
    field_simp
    ring
  have hhalf : (1 : ℚ) / 2 = ((m * k : Int) : ℚ) / (2 * m * k) := by
    push_cast
    field_simp
    ring
  have hone : (1 : ℚ) / (2 * m * k) = ((1 : Int) : ℚ) / (2 * m * k) := by simp
  rw [hd, hhalf, hone]
  refine ⟨?_, ?_, ?_⟩
  · intro h
    rw [abs_div, abs_of_pos hmk, div_lt_div_iff_of_pos_right hmk, ← Int.cast_abs, Int.cast_lt] at h
    rw [abs_div, abs_of_pos hmk, ← sub_div, div_le_div_iff_of_pos_right hmk, ← Int.cast_abs,
      ← Int.cast_sub, Int.cast_le]
    omega
  · intro h
    rw [div_lt_div_iff_of_pos_right hmk, Int.cast_lt] at h
    rw [← add_div, div_le_div_iff_of_pos_right hmk, ← Int.cast_add, Int.cast_le]
    omega
  · intro h
    rw [← neg_div, div_lt_div_iff_of_pos_right hmk, ← Int.cast_neg, Int.cast_lt] at h
    rw [← add_div, ← neg_div, div_le_div_iff_of_pos_right hmk, ← Int.cast_add, ← Int.cast_neg, Int.cast_le]
    omega

/-- The label that `determineTrend` gives to a rounded difference of the half means. -/
theorem determineTrend_eq (s : List Int) (V : ℕ) (hV : ∀ v ∈ s, |v| ≤ V)
    (hsize : 2 * s.length ^ 2 * (2 * V + 1) ≤ 2 ^ 53) (hn : 2 ≤ s.length) :
    determineTrend s = some
      (if |roundF64 (roundF64 (mean (s.take (s.length / 2))) -
            roundF64 (mean (s.drop (s.length / 2))))| < 1 / 2 then "stable"
       else if roundF64 (roundF64 (mean (s.take (s.length / 2))) -
            roundF64 (mean (s.drop (s.length / 2)))) > 0 then "improving"
       else "worsening") := by
  have hm : 0 < s.length / 2 := Nat.div_pos hn (by norm_num)
  have hmn : s.length / 2 ≤ s.length := Nat.div_le_self _ _
  have hk : 0 < s.length - s.length / 2 := by omega
  have hnn : s.length ≤ s.length ^ 2 := by nlinarith
  have hnV : s.length * V ≤ 2 ^ 52 := by nlinarith
  have hlen : s.length ≤ 2 ^ 52 := by nlinarith
  have hVtake : ∀ v ∈ s.take (s.length / 2), |v| ≤ V := fun v hv => hV v (List.mem_of_mem_take hv)
  have hVdrop : ∀ v ∈ s.drop (s.length / 2), |v| ≤ V := fun v hv => hV v (List.mem_of_mem_drop hv)
  have hS1 := sum_abs_le V _ hVtake
  have hS2 := sum_abs_le V _ hVdrop
  rw [List.length_take, Nat.min_eq_left hmn] at hS1
  rw [List.length_drop] at hS2
  have hmV : ((s.length / 2 : ℕ) : Int) * V ≤ 2 ^ 52 := by
    have : (s.length / 2) * V ≤ s.length * V := Nat.mul_le_mul_right _ hmn
    exact_mod_cast this.trans hnV
  have hkV : ((s.length - s.length / 2 : ℕ) : Int) * V ≤ 2 ^ 52 := by
    have : (s.length - s.length / 2) * V ≤ s.length * V :=
      Nat.mul_le_mul_right _ (Nat.sub_le _ _)
    exact_mod_cast this.trans hnV
  have hb1 : |(0 : Int)| + ((s.length / 2 : ℕ) : Int) * V < 2 ^ 63 := by
    rw [abs_zero]
    linarith
  have hb2 : |(0 : Int)| + ((s.length - s.length / 2 : ℕ) : Int) * V < 2 ^ 63 := by
    rw [abs_zero]
    linarith
  have hsum1 : sumLoop s (s.length / 2) 0 0 = some (s.take (s.length / 2)).sum := by
    rw [sumLoop_eq s V hV _ 0 0 (by omega) hb1]
    simp
  have hsum2 : sumLoop s (s.length - s.length / 2) (s.length / 2) 0 =
      some (s.drop (s.length / 2)).sum := by
    rw [sumLoop_eq s V hV _ _ 0 (by omega) hb2]
    rw [List.take_of_length_le (by simp)]
    simp
  have hf1 : float64 (s.take (s.length / 2)).sum = ((s.take (s.length / 2)).sum : ℚ) :=
    float64_exact _ (by linarith)
  have hf2 : float64 (s.drop (s.length / 2)).sum = ((s.drop (s.length / 2)).sum : ℚ) :=
    float64_exact _ (by linarith)
  have hnat : ∀ j : ℕ, j ≤ s.length → float64 ((j : ℕ) : Int) = ((j : ℕ) : ℚ) := by
    intro j hj
    have hj53 : ((j : ℕ) : Int) < 2 ^ 53 := by
      have : j < 2 ^ 53 := by omega
      exact_mod_cast this
    rw [float64_exact _ (by rw [abs_of_nonneg (Int.natCast_nonneg j)]; exact hj53),
      Int.cast_natCast]
  have hfm := hnat (s.length / 2) hmn
  have hfk := hnat (s.length - s.length / 2) (Nat.sub_le _ _)
  have hm0 : ((s.length / 2 : ℕ) : ℚ) ≠ 0 := by exact_mod_cast hm.ne'
  have hk0 : ((s.length - s.length / 2 : ℕ) : ℚ) ≠ 0 := by exact_mod_cast hk.ne'
  have hmean1 : mean (s.take (s.length / 2)) =
      ((s.take (s.length / 2)).sum : ℚ) / ((s.length / 2 : ℕ) : ℚ) := by
    rw [mean, List.length_take, Nat.min_eq_left hmn]
  have hmean2 : mean (s.drop (s.length / 2)) =
      ((s.drop (s.length / 2)).sum : ℚ) / ((s.length - s.length / 2 : ℕ) : ℚ) := by
    rw [mean, List.length_drop]
  unfold determineTrend
  rw [if_neg (by omega)]
  simp only [hsum1, hsum2, Option.bind, hf1, hf2, hfm, hfk, fdiv, hm0, hk0, if_false, fsub,
    hmean1, hmean2]
  split_ifs <;> rfl

/-- The label of the rounded difference `D` against the label of the exact difference of the
means `A` and `B`, given on which side of one half the rounding leaves the difference. -/
theorem label_agrees (A B D : ℚ) (c1 : |A - B| < 1 / 2 → |D| < 1 / 2)
    (c2 : 1 / 2 < A - B → 1 / 2 ≤ D) (c3 : A - B < -(1 / 2) → D ≤ -(1 / 2))
    (c4 : A - B = 1 / 2 → 0 < D) (c5 : A - B = -(1 / 2) → D < 0) :
    (|A - B| ≠ 1 / 2 →
      (if |D| < 1 / 2 then "stable" else if D > 0 then "improving" else "worsening") =
      (if |A - B| < 1 / 2 then "stable" else if A > B then "improving" else "worsening")) ∧
    ((if |D| < 1 / 2 then "stable" else if D > 0 then "improving" else "worsening") =
      (if |A - B| < 1 / 2 then "stable" else if A > B then "improving" else "worsening") ∨
     (if |D| < 1 / 2 then "stable" else if D > 0 then "improving" else "worsening") =
      "stable") := by
  have key : ¬ |D| < 1 / 2 →
      (if |D| < 1 / 2 then "stable" else if D > 0 then "improving" else "worsening") =
      (if |A - B| < 1 / 2 then "stable" else if A > B then "improving" else "worsening") := by
    intro hst
    have hnot : ¬ |A - B| < 1 / 2 := fun h => hst (c1 h)
    rw [if_neg hst, if_neg hnot]
    rcases lt_or_eq_of_le (not_lt.mp hnot) with h | h
    · rcases lt_abs.mp h with h' | h'
      · have hD := c2 h'
        rw [if_pos (by linarith), if_pos (by linarith)]
      · have hD := c3 (by linarith)
        rw [if_neg (by linarith), if_neg (by linarith)]
    · rcases (abs_eq (by norm_num : (0 : ℚ) ≤ 1 / 2)).mp h.symm with h' | h'
      · have hD := c4 h'
        rw [if_pos hD, if_pos (by linarith)]
      · have hD := c5 h'
        rw [if_neg (by linarith), if_neg (by linarith)]
  constructor
  · intro htie
    by_cases hst : |D| < 1 / 2
    · have hlt : |A - B| < 1 / 2 := by
        by_contra hnot
        rcases lt_or_eq_of_le (not_lt.mp hnot) with h | h
        · rcases lt_abs.mp h with h' | h'
          · have hD := c2 h'
            have := (abs_lt.mp hst).2
            linarith
          · have hD := c3 (by linarith)
            have := (abs_lt.mp hst).1
            linarith
        · exact htie h.symm
      rw [if_pos hst, if_pos hlt]
    · exact key hst
  · by_cases hst : |D| < 1 / 2
    · right
      rw [if_pos hst]
    · left
      exact key hst

/-- The two half means of a bounded series, their rounded difference and the rule of the
specification. -/
theorem rounded_difference_sides (s : List Int) (V : ℕ) (hV : ∀ v ∈ s, |v| ≤ V)
    (hsize : 2 * s.length ^ 2 * (2 * V + 1) ≤ 2 ^ 53) (hn2 : 2 ≤ s.length) (A B D : ℚ)
    (hAdef : A = mean (s.take (s.length / 2))) (hBdef : B = mean (s.drop (s.length / 2)))
    (hDdef : D = roundF64 (roundF64 A - roundF64 B)) :
    (|A - B| < 1 / 2 → |D| < 1 / 2) ∧ (1 / 2 < A - B → 1 / 2 ≤ D) ∧
    (A - B < -(1 / 2) → D ≤ -(1 / 2)) ∧ (A - B = 1 / 2 → 0 < D) ∧
    (A - B = -(1 / 2) → D < 0) := by
  have hm : 0 < s.length / 2 := Nat.div_pos hn2 (by norm_num)
  have hmn : s.length / 2 ≤ s.length := Nat.div_le_self _ _
  have hk : 0 < s.length - s.length / 2 := by omega
  have hVtake : ∀ v ∈ s.take (s.length / 2), |v| ≤ V :=
    fun v hv => hV v (List.mem_of_mem_take hv)
  have hVdrop : ∀ v ∈ s.drop (s.length / 2), |v| ≤ V :=
    fun v hv => hV v (List.mem_of_mem_drop hv)
  have hS1 := sum_abs_le V _ hVtake
  have hS2 := sum_abs_le V _ hVdrop
  rw [List.length_take, Nat.min_eq_left hmn] at hS1
  rw [List.length_drop] at hS2
  generalize hmdef : s.length / 2 = m at *
  generalize hkdef : s.length - m = k at *
  generalize hS1def : (s.take m).sum = S1 at *
  generalize hS2def : (s.drop m).sum = S2 at *
  have hmean1 : A = (S1 : ℚ) / (m : ℚ) := by
    rw [hAdef, mean, List.length_take, Nat.min_eq_left hmn, hS1def]
  have hmean2 : B = (S2 : ℚ) / (k : ℚ) := by
    rw [hBdef, mean, List.length_drop, hkdef, hS2def]
  have hm' : (0 : ℚ) < (m : ℚ) := by exact_mod_cast hm
  have hk' : (0 : ℚ) < (k : ℚ) := by exact_mod_cast hk
  have hA : |A| ≤ V := by
    rw [hmean1, abs_div, abs_of_pos hm', div_le_iff₀ hm']
    have : ((|S1| : Int) : ℚ) ≤ (((m : ℕ) : Int) * V : Int) := Int.cast_le.mpr hS1
    rw [Int.cast_abs, Int.cast_mul, Int.cast_natCast, Int.cast_natCast] at this
    linarith
  have hB : |B| ≤ V := by
    rw [hmean2, abs_div, abs_of_pos hk', div_le_iff₀ hk']
    have : ((|S2| : Int) : ℚ) ≤ (((k : ℕ) : Int) * V : Int) := Int.cast_le.mpr hS2
    rw [Int.cast_abs, Int.cast_mul, Int.cast_natCast, Int.cast_natCast] at this
    linarith
  have hkn : k ≤ s.length := by omega
  have hmk : m * k ≤ s.length ^ 2 := by nlinarith
  have hδnat : 2 * (m * k) * (2 * V + 1) ≤ 2 ^ 53 :=
    (Nat.mul_le_mul_right (2 * V + 1) (Nat.mul_le_mul_left 2 hmk)).trans hsize
  have hδq : (2 * (m : ℚ) * (k : ℚ)) * (2 * V + 1) ≤ 2 ^ 53 := by
    have : ((2 * (m * k) * (2 * V + 1) : ℕ) : ℚ) ≤ ((2 ^ 53 : ℕ) : ℚ) := Nat.cast_le.mpr hδnat
    push_cast at this
    linarith
  have hpos : (0 : ℚ) < 2 * (m : ℚ) * (k : ℚ) := by positivity
  have hδ : (2 * (V : ℚ) + 1) * (1 / 2 ^ 53) ≤ 1 / (2 * (m : ℚ) * (k : ℚ)) := by
    rw [mul_one_div, div_le_div_iff₀ (by positivity) hpos]
    linarith
  have hδ2 : 1 / (2 * (m : ℚ) * (k : ℚ)) ≤ 1 / 2 := by
    rw [div_le_div_iff₀ hpos (by norm_num)]
    have h1 : (1 : ℚ) ≤ (m : ℚ) := by exact_mod_cast hm
    have h2 : (1 : ℚ) ≤ (k : ℚ) := by exact_mod_cast hk
    nlinarith
  have herr : ∀ q : ℚ, |roundF64 q - q| ≤ |q| * (1 / 2 ^ 53) := by
    intro q
    have := roundF64_error q
    rwa [div_eq_mul_one_div] at this
  obtain ⟨c1, c2, c3, c4, c5⟩ := classify_rounded A B (roundF64 A) (roundF64 B) D V
    (1 / (2 * (m : ℚ) * (k : ℚ))) (1 / 2 ^ 53) (by positivity) (by norm_num) (by positivity)
    hA hB (herr _) (herr _) (hDdef ▸ herr _) hδ hδ2
  obtain ⟨g1, g2, g3⟩ := mean_gap S1 S2 m k hm hk
  rw [← hmean1, ← hmean2] at g1 g2 g3
  exact ⟨fun h => c1 (g1 h), fun h => c2 (g2 h), fun h => c3 (g3 h), c4, c5⟩

/-- C1, as amended. For a series whose values are at most `V` in magnitude and whose length
`n` satisfies `2·n²·(2V+1) ≤ 2^53` (for ratings in 1..10, every series of up to fourteen
million values), `determineTrend` returns a label; the label is the one of the rule of the
specification with exact means whenever the exact difference of the two half means is not
exactly one half in magnitude, and it is that label or `stable` when the difference is exactly
one half. In particular the series 8,8,7,6,5,4 is improving, and 5,5,5,5 and 1 are stable. -/
theorem determineTrend_follows_rule (s : List Int) (V : ℕ) (hV : ∀ v ∈ s, |v| ≤ V)
    (hsize : 2 * s.length ^ 2 * (2 * V + 1) ≤ 2 ^ 53) :
    (∃ r, determineTrend s = some r ∧
      (|mean (s.take (s.length / 2)) - mean (s.drop (s.length / 2))| ≠ 1 / 2 →
        r = trendRule s) ∧
      (r = trendRule s ∨ r = "stable")) ∧
    determineTrend [8, 8, 7, 6, 5, 4] = some "improving" ∧
    determineTrend [5, 5, 5, 5] = some "stable" ∧
    determineTrend [1] = some "stable" := by
  refine ⟨?_, by decide!, by decide!, by decide!⟩
  by_cases hn : s.length < 2
  · refine ⟨"stable", ?_, ?_, Or.inr rfl⟩
    · simp [determineTrend, hn]
    · intro _
      simp [trendRule, hn]
  · obtain ⟨c1, c2, c3, c4, c5⟩ := rounded_difference_sides s V hV hsize (by omega) _ _ _
      rfl rfl rfl
    have h := label_agrees _ _ _ c1 c2 c3 c4 c5
    refine ⟨_, determineTrend_eq s V hV hsize (by omega), ?_, ?_⟩
    · intro htie
      rw [trendRule, if_neg hn]
      exact h.1 htie
    · rw [trendRule, if_neg hn]
      exact h.2

/-- C1 as amended, at an instance: on the series 8,8,7,6,5,4 of the specification, whose half
means 23/3 and 5 differ by more than one half, `determineTrend` returns the label of the
rule. -/
theorem determineTrend_follows_rule_witness :
    ∃ r, determineTrend [8, 8, 7, 6, 5, 4] = some r ∧ r = trendRule [8, 8, 7, 6, 5, 4] ∧
      trendRule [8, 8, 7, 6, 5, 4] = "improving" :=
  match (determineTrend_follows_rule [8, 8, 7, 6, 5, 4] 10 (by decide) (by decide)).1 with
  | ⟨r, h1, h2, _⟩ => ⟨r, h1, h2 (by decide!), by decide!⟩

/-- C1, refuted as stated: twelve ratings in 1..10 whose half means, 13/6 and 10/6, differ by
exactly one half. The rule with exact means says `improving`; the float64 means differ by less
than one half and `determineTrend` says `stable`. -/
theorem determineTrend_tie_is_stable :
    (∀ v ∈ tieSeries, 1 ≤ v ∧ v ≤ 10) ∧
    mean (tieSeries.take 6) - mean (tieSeries.drop 6) = 1 / 2 ∧
    trendRule tieSeries = "improving" ∧
    determineTrend tieSeries = some "stable" := by
  refine ⟨by decide, by decide!, by decide!, by decide!⟩

/-! ## The conversation turn -/

/-- C2. A reply that cannot be parsed, or that parses with a next action other than
`CONTINUE_CHAT` and `END_SESSION`, makes the turn fail with status 500 and leaves the store as
it was: no message is appended and no session is modified. -/
theorem GenerateTherapyResponse_rejects_unusable_reply (env : Env) (db : DB)
    (req : ChatRequest) (row : TherapySession) (input : TherapyChatInput) (reply : String)
    (hrow : db.First req.session_id = .ok row)
    (hbody : req.body = some input)
    (hreply : GetTherapyResponse env db req.tPrompt input.NewMessage
      (db.PreloadMessages (db.PreloadUser row)) = .ok reply)
    (hbad : (∃ err, ParseTherapyJSON env reply = .error err) ∨
      (∃ r, ParseTherapyJSON env reply = .ok r ∧
        r.NextAction ≠ "CONTINUE_CHAT" ∧ r.NextAction ≠ "END_SESSION")) :
    ∃ msg, controllers.GenerateTherapyResponse env db req = (.message 500 msg, db) := by
  unfold controllers.GenerateTherapyResponse
  simp only [hrow, hbody, hreply]
  rcases hbad with ⟨err, herr⟩ | ⟨r, hr, h1, h2⟩
  · simp only [herr]
    exact ⟨_, rfl⟩
  · have h1b : (r.NextAction == "CONTINUE_CHAT") = false := by simpa using h1
    have h2b : (r.NextAction == "END_SESSION") = false := by simpa using h2
    simp only [hr, h1b, h2b]
    exact ⟨_, rfl⟩

/-- C2, at an instance: the reply `FOO` on the sample store. -/
theorem GenerateTherapyResponse_rejects_unusable_reply_witness :
    ∃ msg, controllers.GenerateTherapyResponse (Env.answering fooText (.ok fooResponse))
      sampleStore sampleTurn = (.message 500 msg, sampleStore) :=
  GenerateTherapyResponse_rejects_unusable_reply (Env.answering fooText (.ok fooResponse))
    sampleStore sampleTurn sampleRow { NewMessage := "I cannot sleep" } fooText rfl rfl rfl
    (Or.inr ⟨fooResponse, rfl, by decide, by decide⟩)

/-- The store after a recommendation update: the session read back by its id, and the other
sessions. -/
theorem First_after_update (db : DB) (id id' : String) (new : TherapySession)
    (hnew : new.ID = id) (hrow : new.row = new)
    (hany : db.therapy_sessions.any (fun r => r.ID == id) = true) :
    DB.First { db with therapy_sessions :=
        db.therapy_sessions.map (fun r => if r.ID == id then new else r) } id' =
      if id' = id then .ok new else db.First id' := by
  unfold DB.First
  simp only [find_map_update _ id id' new hnew, hany, if_true]
  by_cases h : id' = id
  · simp only [h, if_true, hrow]
  · simp only [h, if_false]

/-- The end of a turn on a session that exists: the two messages are appended and the turn is
answered with status 200. -/
theorem updateHistory_found {db : DB} {req : ChatRequest} {row : TherapySession}
    (input : TherapyChatInput) (r : TherapyResponse) (h : db.First req.session_id = .ok row) :
    controllers.GenerateTherapyResponse.updateHistory db req input r =
      (.chat 200 r req.session_id, { db with messages := db.messages ++
        [userMessage req.session_id input.NewMessage req.tHistory,
         therapistMessage req.session_id r.Reply req.tHistory] }) := by
  unfold controllers.GenerateTherapyResponse.updateHistory
  rw [UpdateTherapyChatHistory_found _ _ _ h]

/-- C3. A turn whose parsed reply has the next action `CONTINUE_CHAT` is answered with status
200 and changes the store only by appending the user message and the therapist message: the
users and every session row, with its recommendation and next steps, are as before, whatever
the reply carries in its recommendation and next-steps fields. -/
theorem GenerateTherapyResponse_continue_chat (env : Env) (db : DB)
    (req : ChatRequest) (row : TherapySession) (input : TherapyChatInput) (reply : String)
    (r : TherapyResponse)
    (hrow : db.First req.session_id = .ok row)
    (hbody : req.body = some input)
    (hreply : GetTherapyResponse env db req.tPrompt input.NewMessage
      (db.PreloadMessages (db.PreloadUser row)) = .ok reply)
    (hparse : ParseTherapyJSON env reply = .ok r)
    (haction : r.NextAction = "CONTINUE_CHAT") :
    ∃ db', controllers.GenerateTherapyResponse env db req = (.chat 200 r req.session_id, db') ∧
      db'.users = db.users ∧
      db'.therapy_sessions = db.therapy_sessions ∧
      db'.First req.session_id = .ok row ∧
      db'.messages = db.messages ++
        [userMessage req.session_id input.NewMessage req.tHistory,
         therapistMessage req.session_id r.Reply req.tHistory] := by
  have h1 : (r.NextAction == "CONTINUE_CHAT") = true := by simp [haction]
  refine ⟨{ db with messages := db.messages ++
        [userMessage req.session_id input.NewMessage req.tHistory,
         therapistMessage req.session_id r.Reply req.tHistory] }, ?_, rfl, rfl, hrow, rfl⟩
  unfold controllers.GenerateTherapyResponse
  simp only [hrow, hbody, hreply, hparse, h1, if_true]
  exact updateHistory_found input r hrow

/-- C3, at an instance: a `CONTINUE_CHAT` reply that carries a recommendation, on the sample
store. -/
theorem GenerateTherapyResponse_continue_chat_witness :
    ∃ db', controllers.GenerateTherapyResponse
        (Env.answering continueText (.ok continueResponse)) sampleStore sampleTurn =
        (.chat 200 continueResponse "s1", db') ∧
      db'.users = sampleStore.users ∧
      db'.therapy_sessions = sampleStore.therapy_sessions ∧
      db'.First "s1" = .ok sampleRow ∧
      db'.messages = sampleStore.messages ++
        [userMessage "s1" "I cannot sleep" 4000, therapistMessage "s1" "Tell me more" 4000] :=
  GenerateTherapyResponse_continue_chat (Env.answering continueText (.ok continueResponse))
    sampleStore sampleTurn sampleRow { NewMessage := "I cannot sleep" } continueText
    continueResponse rfl rfl rfl rfl rfl

/-- C4. A turn whose parsed reply has the next action `END_SESSION` is answered with status
200; afterwards the session read back by its id has the reply's recommendation and next steps
and the clock reading as update time, all its other fields being as before; every other
session and the users are as before, and the user message and the therapist message of the
turn are appended. -/
theorem GenerateTherapyResponse_end_session (env : Env) (db : DB)
    (req : ChatRequest) (row : TherapySession) (input : TherapyChatInput) (reply : String)
    (r : TherapyResponse)
    (hrow : db.First req.session_id = .ok row)
    (hbody : req.body = some input)
    (hreply : GetTherapyResponse env db req.tPrompt input.NewMessage
      (db.PreloadMessages (db.PreloadUser row)) = .ok reply)
    (hparse : ParseTherapyJSON env reply = .ok r)
    (haction : r.NextAction = "END_SESSION") :
    ∃ db', controllers.GenerateTherapyResponse env db req = (.chat 200 r req.session_id, db') ∧
      db'.First req.session_id = .ok { row with Recommendation := r.Recommendation, NextSteps := r.NextSteps, UpdatedAt := req.tRecommendation } ∧
      (∀ id', id' ≠ req.session_id → db'.First id' = db.First id') ∧
      db'.users = db.users ∧
      db'.messages = db.messages ++
        [userMessage req.session_id input.NewMessage req.tHistory,
         therapistMessage req.session_id r.Reply req.tHistory] := by
  have h1 : (r.NextAction == "CONTINUE_CHAT") = false := by simp [haction]
  have h2 : (r.NextAction == "END_SESSION") = true := by simp [haction]
  have hid := First_ok_ID hrow
  have hrr := First_ok_row hrow
  have hany := First_ok_any hrow
  have hnew : ∀ id', DB.First { db with therapy_sessions := db.therapy_sessions.map (fun s => if s.ID == req.session_id then { row with Recommendation := r.Recommendation, NextSteps := r.NextSteps, UpdatedAt := req.tRecommendation } else s) } id' =
      if id' = req.session_id then .ok { row with Recommendation := r.Recommendation, NextSteps := r.NextSteps, UpdatedAt := req.tRecommendation }
      else db.First id' := by
    intro id'
    refine First_after_update db req.session_id id' { row with Recommendation := r.Recommendation, NextSteps := r.NextSteps, UpdatedAt := req.tRecommendation } hid ?_ hany
    conv_rhs => rw [← hrr]
    rfl
  have hfirst := hnew req.session_id
  rw [if_pos rfl] at hfirst
  refine ⟨{ db with
      therapy_sessions := db.therapy_sessions.map (fun s => if s.ID == req.session_id then { row with Recommendation := r.Recommendation, NextSteps := r.NextSteps, UpdatedAt := req.tRecommendation } else s)
      messages := db.messages ++
        [userMessage req.session_id input.NewMessage req.tHistory,
         therapistMessage req.session_id r.Reply req.tHistory] }, ?_, ?_, ?_, rfl, rfl⟩
  · unfold controllers.GenerateTherapyResponse
    simp only [hrow, hbody, hreply, hparse, h1, h2, if_true, Bool.false_eq_true, if_false,
      UpdateSessionRecommendation_found _ _ _ hrow]
    exact updateHistory_found input r hfirst
  · exact hfirst
  · intro id' hne
    have := hnew id'
    rw [if_neg hne] at this
    exact this

/-- C4, at an instance: an `END_SESSION` reply on the sample store. -/
theorem GenerateTherapyResponse_end_session_witness :
    ∃ db', controllers.GenerateTherapyResponse (Env.answering endText (.ok endResponse))
        sampleStore sampleTurn = (.chat 200 endResponse "s1", db') ∧
      db'.First "s1" = .ok { sampleRow with Recommendation := "Rest", NextSteps := "Walk", UpdatedAt := 3000 } ∧
      (∀ id', id' ≠ "s1" → db'.First id' = sampleStore.First id') ∧
      db'.users = sampleStore.users ∧
      db'.messages = sampleStore.messages ++
        [userMessage "s1" "I cannot sleep" 4000, therapistMessage "s1" "Take care" 4000] :=
  GenerateTherapyResponse_end_session (Env.answering endText (.ok endResponse))
    sampleStore sampleTurn sampleRow { NewMessage := "I cannot sleep" } endText endResponse
    rfl rfl rfl rfl rfl

/-! ## The lifecycle of a session -/

/-- What a turn does to the session table: nothing, unless the reply was decoded as an
`END_SESSION` reply, in which case the rows with the session's id take the reply's
recommendation and next steps. -/
theorem turn_sessions (env : Env) (db : DB) (req : ChatRequest) :
    (controllers.GenerateTherapyResponse env db req).2.therapy_sessions = db.therapy_sessions ∨
    ∃ row input reply r, db.First req.session_id = .ok row ∧ req.body = some input ∧
      GetTherapyResponse env db req.tPrompt input.NewMessage
        (db.PreloadMessages (db.PreloadUser row)) = .ok reply ∧
      env.unmarshal reply = .ok r ∧ r.NextAction = "END_SESSION" ∧
      (controllers.GenerateTherapyResponse env db req).2.therapy_sessions =
        db.therapy_sessions.map (fun s => if s.ID == req.session_id then
          { row with Recommendation := r.Recommendation, NextSteps := r.NextSteps, UpdatedAt := req.tRecommendation }
          else s) := by
  cases hrow : db.First req.session_id with
  | error err =>
    left
    simp [controllers.GenerateTherapyResponse, hrow]
  | ok row =>
    cases hbody : req.body with
    | none =>
      left
      simp [controllers.GenerateTherapyResponse, hrow, hbody]
    | some input =>
      cases hreply : GetTherapyResponse env db req.tPrompt input.NewMessage
          (db.PreloadMessages (db.PreloadUser row)) with
      | error err =>
        left
        simp [controllers.GenerateTherapyResponse, hrow, hbody, hreply]
      | ok reply =>
        cases hun : env.unmarshal reply with
        | error err =>
          left
          simp [controllers.GenerateTherapyResponse, hrow, hbody, hreply, ParseTherapyJSON, hun]
        | ok r =>
          have hparse : ParseTherapyJSON env reply = .ok r := by simp [ParseTherapyJSON, hun]
          by_cases h1 : r.NextAction = "CONTINUE_CHAT"
          · left
            have h1b : (r.NextAction == "CONTINUE_CHAT") = true := by simp [h1]
            unfold controllers.GenerateTherapyResponse
            simp only [hrow, hbody, hreply, hparse, h1b, if_true]
            rw [updateHistory_found input r hrow]
          · by_cases h2 : r.NextAction = "END_SESSION"
            · right
              refine ⟨row, input, reply, r, rfl, rfl, hreply, hun, h2, ?_⟩
              have h1b : (r.NextAction == "CONTINUE_CHAT") = false := by simp [h2]
              have h2b : (r.NextAction == "END_SESSION") = true := by simp [h2]
              have hid : row.ID = req.session_id := First_ok_ID hrow
              have hrr : row.row = row := First_ok_row hrow
              have hfirst := First_after_update db req.session_id req.session_id
                { row with Recommendation := r.Recommendation, NextSteps := r.NextSteps, UpdatedAt := req.tRecommendation }
                hid
                (by conv_rhs => rw [← hrr]
                    rfl)
                (First_ok_any hrow)
              rw [if_pos rfl] at hfirst
              unfold controllers.GenerateTherapyResponse
              simp only [hrow, hbody, hreply, hparse, h1b, h2b, if_true, Bool.false_eq_true,
                if_false, UpdateSessionRecommendation_found _ _ _ hrow]
              rw [updateHistory_found input r hfirst]
            · left
              have h1b : (r.NextAction == "CONTINUE_CHAT") = false := by simpa using h1
              have h2b : (r.NextAction == "END_SESSION") = false := by simpa using h2
              unfold controllers.GenerateTherapyResponse
              simp only [hrow, hbody, hreply, hparse, h1b, h2b]
              rfl

/-- The service `CreateTherapySession` with an id that no row has: the new row is appended and
returned with its user. -/
theorem CreateTherapySession_fresh (db : DB) (t1 t2 : Time) (newID uid : UUID)
    (input : TherapySessionInput)
    (hfresh : db.therapy_sessions.any (fun r => r.ID == newID) = false) :
    services.CreateTherapySession db t1 t2 newID uid input =
      (.ok (db.PreloadUser (newSessionRow newID uid input t1 t2)),
       { db with therapy_sessions :=
           db.therapy_sessions ++ [newSessionRow newID uid input t1 t2] }) := by
  have hnone : db.therapy_sessions.find? (fun s => s.ID == newID) = none := by
    rw [List.find?_eq_none]
    intro x hx hxid
    have : db.therapy_sessions.any (fun r => r.ID == newID) = true :=
      List.any_eq_true.mpr ⟨x, hx, hxid⟩
    rw [hfresh] at this
    cases this
  by_cases hw : input.IsHealthWorker = true
  · simp [services.CreateTherapySession, DB.CreateSession, hfresh, hw, DB.First,
      List.find?_append, hnone, TherapySession.row, newSessionRow, DB.PreloadUser]
  · simp [services.CreateTherapySession, DB.CreateSession, hfresh, hw, DB.First,
      List.find?_append, hnone, TherapySession.row, newSessionRow, DB.PreloadUser]

/-- The service `CreateTherapySession` with an id that a row already has: the store refuses
the insertion and is as before. -/
theorem CreateTherapySession_taken (db : DB) (t1 t2 : Time) (newID uid : UUID)
    (input : TherapySessionInput)
    (htaken : db.therapy_sessions.any (fun r => r.ID == newID) = true) :
    ∃ err, services.CreateTherapySession db t1 t2 newID uid input = (.error err, db) := by
  by_cases hw : input.IsHealthWorker = true
  · exact ⟨_, by simp [services.CreateTherapySession, DB.CreateSession, htaken, hw]; rfl⟩
  · exact ⟨_, by simp [services.CreateTherapySession, DB.CreateSession, htaken, hw]; rfl⟩

/-- What a request to create a session does to the session table: nothing, or one new row
without recommendation and next steps. -/
theorem create_sessions (env : Env) (db : DB) (req : CreateRequest) :
    (controllers.CreateTherapySession env db req).2.therapy_sessions = db.therapy_sessions ∨
    ∃ s : TherapySession, s.Recommendation = "" ∧ s.NextSteps = "" ∧
      (controllers.CreateTherapySession env db req).2.therapy_sessions =
        db.therapy_sessions ++ [s] := by
  cases hu : req.user_id with
  | none => left; simp [controllers.CreateTherapySession, hu]
  | some userID =>
    cases hp : env.parseUUID userID with
    | error err => left; simp [controllers.CreateTherapySession, hu, hp]
    | ok uid =>
      cases hb : BindAndValidate req.body with
      | none => left; simp [controllers.CreateTherapySession, hu, hp, hb]
      | some input =>
        have hcreate : ((match services.CreateTherapySession db req.t1 req.t2 req.newID uid
              input with
              | (.error err, db1) => (Reply.message 500 err, db1)
              | (.ok session, db1) => (Reply.session 201 session, db1)) :
                Reply × DB).2.therapy_sessions = db.therapy_sessions ∨
            ∃ s : TherapySession, s.Recommendation = "" ∧ s.NextSteps = "" ∧
            ((match services.CreateTherapySession db req.t1 req.t2 req.newID uid input with
              | (.error err, db1) => (Reply.message 500 err, db1)
              | (.ok session, db1) => (Reply.session 201 session, db1)) :
                Reply × DB).2.therapy_sessions = db.therapy_sessions ++ [s] := by
          cases hany : db.therapy_sessions.any (fun r => r.ID == req.newID) with
          | true =>
            obtain ⟨err, herr⟩ := CreateTherapySession_taken db req.t1 req.t2 req.newID uid
              input hany
            left
            rw [herr]
          | false =>
            right
            rw [CreateTherapySession_fresh db req.t1 req.t2 req.newID uid input hany]
            exact ⟨_, rfl, rfl, rfl⟩
        simp only [controllers.CreateTherapySession, hu, hp, hb]
        by_cases hw : input.IsHealthWorker = true
        · simp only [hw, if_true]
          by_cases hs : (input.Specialization == "") = true
          · left; simp [hs]
          · simp only [hs, if_false, Bool.false_eq_true]
            by_cases hh : input.WorkHours ≤ 0
            · left; simp [hh]
            · simp only [hh, if_false]
              exact hcreate
        · simp only [hw, if_false, Bool.false_eq_true]
          exact hcreate

/-- The reply that a turn receives, when the turn reaches the decoding of an answer. -/
theorem receivedReply_eq (env : Env) (db : DB) (req : ChatRequest) (row : TherapySession)
    (input : TherapyChatInput) (reply : String) (r : TherapyResponse)
    (hrow : db.First req.session_id = .ok row) (hbody : req.body = some input)
    (hreply : GetTherapyResponse env db req.tPrompt input.NewMessage
      (db.PreloadMessages (db.PreloadUser row)) = .ok reply)
    (hun : env.unmarshal reply = .ok r) : receivedReply env db req = some r := by
  simp [receivedReply, hrow, hbody, hreply, hun]

/-- One request keeps the pairing of recommendation and next steps in every session, when the
reply it receives is paired if it ends the session. -/
theorem apply_bothOrNeither (db : DB) (step : Step)
    (hinv : ∀ s ∈ db.therapy_sessions, s.bothOrNeither = true) (hstep : step.pairedReply db) :
    ∀ s ∈ (step.apply db).therapy_sessions, s.bothOrNeither = true := by
  cases step with
  | create env req =>
    rcases create_sessions env db req with h | ⟨s0, h1, h2, h⟩
    · intro s hs
      exact hinv s (by simpa [Step.apply, h] using hs)
    · intro s hs
      simp only [Step.apply, h, List.mem_append, List.mem_singleton] at hs
      rcases hs with hs | rfl
      · exact hinv s hs
      · simp [TherapySession.bothOrNeither, h1, h2]
  | turn env req =>
    rcases turn_sessions env db req with h | ⟨row, input, reply, r, hrow, hbody, hreply, hun,
      hact, h⟩
    · intro s hs
      exact hinv s (by simpa [Step.apply, h] using hs)
    · intro s hs
      simp only [Step.apply, h, List.mem_map] at hs
      obtain ⟨s0, hs0, rfl⟩ := hs
      by_cases hid : (s0.ID == req.session_id) = true
      · have := hstep r (receivedReply_eq env db req row input reply r hrow hbody hreply hun) hact
        simpa [hid, TherapySession.bothOrNeither, TherapyResponse.paired] using this
      · simpa [hid] using hinv s0 hs0

/-- C5, as amended. From a store in which every session has its recommendation and next steps
both empty or both set (a newly created session has both empty), every sequence of requests in
which each `END_SESSION` reply that a turn receives carries a recommendation and next steps that
are both empty or both set leads to a store in which every session again has both empty or both
set. The condition bears on the replies received along the run, whatever the decoder and the
completion service are. -/
theorem run_bothOrNeither (db : DB) (steps : List Step)
    (hinit : ∀ s ∈ db.therapy_sessions, s.bothOrNeither = true)
    (hreplies : pairedRun db steps) :
    ∀ s ∈ (run db steps).therapy_sessions, s.bothOrNeither = true := by
  induction steps generalizing db with
  | nil => simpa [run] using hinit
  | cons step steps ih =>
    have h1 := apply_bothOrNeither db step hinit hreplies.1
    have h2 := ih (step.apply db) h1 hreplies.2
    simpa [run] using h2

set_option maxRecDepth 100000 in
/-- C5 as amended, at an instance, with `json.Unmarshal` as the decoder: in the store
`clinicStore` a second session is created, the first session is ended by the reply `endText`,
which carries a recommendation and next steps, and the second session is continued by the reply
`continueText`. Every session of the final store has both fields empty or both set, and the
first one has both set. -/
theorem run_bothOrNeither_witness :
    (run clinicStore
        [Step.create (Env.replying endText) sampleCreate,
         Step.turn (Env.replying endText) clinicTurn,
         Step.turn (Env.replying continueText)
           { clinicTurn with session_id := secondID }]).therapy_sessions.all
      TherapySession.bothOrNeither = true ∧
    receivedReply (Env.replying endText)
      (Step.apply clinicStore (Step.create (Env.replying endText) sampleCreate)) clinicTurn =
      some endResponse ∧
    ((run clinicStore
        [Step.create (Env.replying endText) sampleCreate,
         Step.turn (Env.replying endText) clinicTurn,
         Step.turn (Env.replying continueText)
           { clinicTurn with session_id := secondID }]).therapy_sessions.map
      fun s => (s.ID, s.Recommendation, s.NextSteps)) =
      [(firstID, "Rest", "Walk"), (secondID, "", "")] :=
  ⟨List.all_eq_true.mpr <| run_bothOrNeither clinicStore _ (by decide)
    ⟨trivial,
     fun r h _ => by
      have h1 : receivedReply (Env.replying endText)
          (Step.apply clinicStore (Step.create (Env.replying endText) sampleCreate))
          clinicTurn = some endResponse := rfl
      rw [h1] at h
      injection h with h
      subst h
      decide,
     fun r h hact => by
      have h1 : receivedReply (Env.replying continueText)
          (Step.apply (Step.apply clinicStore (Step.create (Env.replying endText) sampleCreate))
            (Step.turn (Env.replying endText) clinicTurn))
          { clinicTurn with session_id := secondID } = some continueResponse := rfl
      rw [h1] at h
      injection h with h
      subst h
      exact absurd hact (by decide),
     trivial⟩,
   rfl, rfl⟩

set_option maxRecDepth 100000 in
/-- C5, refuted as stated: on the newly created session of `clinicStore` the reply
`endNoStepsText`, read by `json.Unmarshal` as an `END_SESSION` reply with a recommendation and
with empty next steps, leaves the session with a recommendation and without next steps. -/
theorem bothOrNeither_fails_for_unpaired_reply :
    (∀ s ∈ clinicStore.therapy_sessions, s.Recommendation = "" ∧ s.NextSteps = "") ∧
    receivedReply (Env.replying endNoStepsText) clinicStore clinicTurn =
      some endNoStepsResponse ∧
    ∃ s ∈ (run clinicStore
        [Step.turn (Env.replying endNoStepsText) clinicTurn]).therapy_sessions,
      s.Recommendation = "Rest" ∧ s.NextSteps = "" ∧ s.bothOrNeither = false := by
  refine ⟨by decide, rfl,
    { clinicRow with Recommendation := "Rest", UpdatedAt := 1735725661000000000 }, ?_, rfl,
    rfl, by decide⟩
  have h : (run clinicStore [Step.turn (Env.replying endNoStepsText)
      clinicTurn]).therapy_sessions =
      [{ clinicRow with Recommendation := "Rest", UpdatedAt := 1735725661000000000 }] := rfl
  rw [h]
  exact List.mem_singleton_self _

/-- C6, as amended. A turn whose reply is not decoded as an `END_SESSION` reply leaves every
session row as it was, so a recommendation and next steps that an earlier turn has set are not
changed by it. -/
theorem GenerateTherapyResponse_keeps_sessions (env : Env) (db : DB) (req : ChatRequest)
    (hnot : ∀ row input reply r, db.First req.session_id = .ok row → req.body = some input →
      GetTherapyResponse env db req.tPrompt input.NewMessage
        (db.PreloadMessages (db.PreloadUser row)) = .ok reply →
      ParseTherapyJSON env reply = .ok r → r.NextAction ≠ "END_SESSION") :
    (controllers.GenerateTherapyResponse env db req).2.therapy_sessions = db.therapy_sessions ∧
    ∀ id, (controllers.GenerateTherapyResponse env db req).2.First id = db.First id := by
  have h : (controllers.GenerateTherapyResponse env db req).2.therapy_sessions =
      db.therapy_sessions := by
    rcases turn_sessions env db req with h | ⟨row, input, reply, r, h1, h2, h3, hun, hact, _⟩
    · exact h
    · exact absurd hact (hnot row input reply r h1 h2 h3 (by simp [ParseTherapyJSON, hun]))
  exact ⟨h, fun id => by simp [DB.First, h]⟩

/-- C6 as amended, at an instance: a `CONTINUE_CHAT` turn on the completed session. -/
theorem GenerateTherapyResponse_keeps_sessions_witness :
    (controllers.GenerateTherapyResponse (Env.answering continueText (.ok continueResponse))
      completedStore sampleTurn).2.therapy_sessions = completedStore.therapy_sessions ∧
    ∀ id, (controllers.GenerateTherapyResponse (Env.answering continueText (.ok continueResponse))
      completedStore sampleTurn).2.First id = completedStore.First id :=
  GenerateTherapyResponse_keeps_sessions (Env.answering continueText (.ok continueResponse))
    completedStore sampleTurn (by
      intro row input reply r _ _ _ h
      simp only [ParseTherapyJSON, Env.answering] at h
      split at h
      · cases h
      · rename_i heq
        split at heq
        · injection heq with heq
          injection h with h
          subst h
          subst heq
          decide
        · cases heq)

/-- C6, refuted as stated: after an `END_SESSION` turn has set the recommendation and the next
steps of the sample session, a second `END_SESSION` turn on the same session replaces both. -/
theorem recommendation_set_twice :
    (controllers.GenerateTherapyResponse (Env.answering endText (.ok endResponse)) sampleStore
      sampleTurn).2 = completedStore ∧
    completedStore.First "s1" =
      .ok { sampleRow with Recommendation := "Rest", NextSteps := "Walk", UpdatedAt := 3000 } ∧
    (controllers.GenerateTherapyResponse (Env.answering endAgainText (.ok endAgainResponse))
      completedStore sampleTurn).2.First "s1" =
      .ok { sampleRow with Recommendation := "Sleep early", NextSteps := "Keep a diary", UpdatedAt := 3000 } :=
  ⟨rfl, rfl, rfl⟩

/-- In a list sorted by creation time, a message created strictly before another one that is
also in the list comes before it. -/
theorem sublist_pair_insertionSort (l : List Message) (a b : Message) (ha : a ∈ l)
    (hb : b ∈ l) (hlt : a.CreatedAt < b.CreatedAt) :
    [a, b].Sublist (l.insertionSort (fun x y => x.CreatedAt ≤ y.CreatedAt)) := by
  haveI : IsTotal Message (fun x y => x.CreatedAt ≤ y.CreatedAt) :=
    ⟨fun x y => le_total x.CreatedAt y.CreatedAt⟩
  haveI : IsTrans Message (fun x y => x.CreatedAt ≤ y.CreatedAt) :=
    ⟨fun x y z hxy hyz => le_trans hxy hyz⟩
  have hs := List.sorted_insertionSort (fun x y : Message => x.CreatedAt ≤ y.CreatedAt) l
  have hp := List.perm_insertionSort (fun x y : Message => x.CreatedAt ≤ y.CreatedAt) l
  have ha' := hp.mem_iff.mpr ha
  have hb' := hp.mem_iff.mpr hb
  obtain ⟨l1, l2, h12⟩ := List.append_of_mem ha'
  rw [h12] at hs hb' ⊢
  rcases List.mem_append.mp hb' with h | h
  · have := (List.pairwise_append.mp hs).2.2 b h a (List.mem_cons_self _ _)
    exact absurd this (not_le.mpr hlt)
  · rcases List.mem_cons.mp h with h | h
    · subst h
      exact absurd hlt (lt_irrefl _)
    · exact (List.Sublist.cons₂ a (List.singleton_sublist.mpr h)).trans
        (List.sublist_append_right l1 _)

/-- C7. On a session that exists, `UpdateTherapyChatHistory` succeeds and changes the store
only by appending two messages of that session: first the one with role `user` and the new
text, then the one with role `therapist` and the reply, created exactly one millisecond later,
so that the messages of the session in order of creation time hold the user message before
the therapist message. On an unknown session id it fails and the store is as before. -/
theorem UpdateTherapyChatHistory_appends_turn (db : DB) (now : Time)
    (id newMessage LLMResponse : String) :
    (∀ row, db.First id = .ok row →
      UpdateTherapyChatHistory db now id newMessage LLMResponse =
        (.ok (), { db with messages := db.messages ++
          [userMessage id newMessage now, therapistMessage id LLMResponse now] }) ∧
      userMessage id newMessage now =
        { Role := "user", Content := newMessage, SessionID := row.ID, CreatedAt := now,
          UpdatedAt := now } ∧
      therapistMessage id LLMResponse now =
        { Role := "therapist", Content := LLMResponse, SessionID := row.ID,
          CreatedAt := now + Millisecond, UpdatedAt := now + Millisecond } ∧
      (therapistMessage id LLMResponse now).CreatedAt =
        (userMessage id newMessage now).CreatedAt + 1000000 ∧
      (userMessage id newMessage now).CreatedAt < (therapistMessage id LLMResponse now).CreatedAt ∧
      [userMessage id newMessage now, therapistMessage id LLMResponse now].Sublist
        (DB.PreloadMessages (UpdateTherapyChatHistory db now id newMessage LLMResponse).2
          row).Messages) ∧
    ((∀ row, db.First id ≠ .ok row) →
      ∃ err, UpdateTherapyChatHistory db now id newMessage LLMResponse = (.error err, db)) := by
  constructor
  · intro row hrow
    have hid := First_ok_ID hrow
    have hlt : (userMessage id newMessage now).CreatedAt <
        (therapistMessage id LLMResponse now).CreatedAt := by
      simp [userMessage, therapistMessage, Millisecond]
    refine ⟨UpdateTherapyChatHistory_found _ _ _ hrow, ?_, ?_, ?_, hlt, ?_⟩
    · simp [userMessage, hid]
    · simp [therapistMessage, hid]
    · simp [userMessage, therapistMessage, Millisecond]
    · rw [UpdateTherapyChatHistory_found _ _ _ hrow]
      simp only [DB.PreloadMessages]
      apply sublist_pair_insertionSort _ _ _ _ _ hlt
      · simp [List.mem_filter, userMessage, hid]
      · simp [List.mem_filter, therapistMessage, hid]
  · intro hnone
    unfold UpdateTherapyChatHistory
    cases h : db.First id with
    | error err => exact ⟨_, rfl⟩
    | ok row => exact absurd h (hnone row)

/-- C7, at an instance: a turn appended to the session of the sample store, and a turn for a
session id that the store does not know. -/
theorem UpdateTherapyChatHistory_appends_turn_witness :
    UpdateTherapyChatHistory sampleStore 4000 "s1" "I cannot sleep" "Tell me more" =
      (.ok (), { sampleStore with messages :=
        [userMessage "s1" "I cannot sleep" 4000, therapistMessage "s1" "Tell me more" 4000] }) ∧
    ∃ err, UpdateTherapyChatHistory sampleStore 4000 "s2" "I cannot sleep" "Tell me more" =
      (.error err, sampleStore) :=
  ⟨((UpdateTherapyChatHistory_appends_turn sampleStore 4000 "s1" "I cannot sleep"
      "Tell me more").1 sampleRow rfl).1,
   (UpdateTherapyChatHistory_appends_turn sampleStore 4000 "s2" "I cannot sleep"
      "Tell me more").2 (fun row h => by simp [DB.First, sampleStore] at h)⟩

/-! ## Validation of a request to create a session -/

/-- What the validation accepts: the three ratings in 1..10. -/
theorem validateTherapySessionInput_iff (input : TherapySessionInput) :
    validateTherapySessionInput input = true ↔
      ratingInRange input.StressLevel = true ∧ ratingInRange input.MoodRating = true ∧
      ratingInRange input.SleepQuality = true := by
  simp only [validateTherapySessionInput, Bool.and_eq_true]
  exact ⟨fun h => ⟨h.1.1, h.1.2, h.2⟩, fun h => ⟨⟨h.1, h.2.1⟩, h.2.2⟩⟩

/-- A rating outside 1..10 is refused by the validation. -/
theorem validate_rejects_rating (input : TherapySessionInput)
    (h : ratingInRange input.StressLevel = false ∨ ratingInRange input.MoodRating = false ∨
      ratingInRange input.SleepQuality = false) :
    BindAndValidate (some input) = none := by
  have : validateTherapySessionInput input ≠ true := by
    intro hv
    rw [validateTherapySessionInput_iff] at hv
    rcases h with h | h | h
    · rw [hv.1] at h; cases h
    · rw [hv.2.1] at h; cases h
    · rw [hv.2.2] at h; cases h
  simp [BindAndValidate, this]

/-- The handler on an input that has passed the validation and the checks of a healthcare
worker: it answers with what the service returns. -/
theorem CreateTherapySession_passes (env : Env) (db : DB) (req : CreateRequest)
    (userID : String) (uid : UUID) (input : TherapySessionInput)
    (huser : req.user_id = some userID) (hparse : env.parseUUID userID = .ok uid)
    (hbody : req.body = some input)
    (h1 : ratingInRange input.StressLevel = true) (h2 : ratingInRange input.MoodRating = true)
    (h3 : ratingInRange input.SleepQuality = true)
    (hwell : input.IsHealthWorker = false ∨ (input.Specialization ≠ "" ∧ 0 < input.WorkHours)) :
    controllers.CreateTherapySession env db req =
      match services.CreateTherapySession db req.t1 req.t2 req.newID uid input with
      | (.error err, db1) => (.message 500 err, db1)
      | (.ok session, db1) => (.session 201 session, db1) := by
  have hv : validateTherapySessionInput input = true :=
    (validateTherapySessionInput_iff input).mpr ⟨h1, h2, h3⟩
  rcases hwell with hw | ⟨hs, hh⟩
  · simp [controllers.CreateTherapySession, huser, hparse, hbody, BindAndValidate, hv, hw]
  · have hh' : ¬ input.WorkHours ≤ 0 := by omega
    by_cases hw : input.IsHealthWorker = true
    · simp [controllers.CreateTherapySession, huser, hparse, hbody, BindAndValidate, hv, hw, hs,
        hh']
    · simp [controllers.CreateTherapySession, huser, hparse, hbody, BindAndValidate, hv, hw]

/-- What the service answers is no validation error, and under an id that no row has it is the
created session, stored as a new row. -/
theorem service_answer (db : DB) (t1 t2 : Time) (newID uid : UUID)
    (input : TherapySessionInput) :
    ((match services.CreateTherapySession db t1 t2 newID uid input with
      | (.error err, db1) => (Reply.message 500 err, db1)
      | (.ok session, db1) => (Reply.session 201 session, db1)) : Reply × DB).1.isValidationError
      = false ∧
    (db.therapy_sessions.any (fun r => r.ID == newID) = false →
      ((match services.CreateTherapySession db t1 t2 newID uid input with
        | (.error err, db1) => (Reply.message 500 err, db1)
        | (.ok session, db1) => (Reply.session 201 session, db1)) : Reply × DB) =
        (.session 201 (db.PreloadUser (newSessionRow newID uid input t1 t2)),
         { db with therapy_sessions :=
             db.therapy_sessions ++ [newSessionRow newID uid input t1 t2] })) := by
  constructor
  · cases hany : db.therapy_sessions.any (fun r => r.ID == newID) with
    | true =>
      obtain ⟨err, herr⟩ := CreateTherapySession_taken db t1 t2 newID uid input hany
      rw [herr]
      rfl
    | false =>
      rw [CreateTherapySession_fresh db t1 t2 newID uid input hany]
      rfl
  · intro hfresh
    rw [CreateTherapySession_fresh db t1 t2 newID uid input hfresh]

/-- C8. For an authenticated request whose body binds: when one of the three ratings is outside
1..10 the request is answered with the validation error of `utils.BindAndValidate` and the
store is as before; when each of the three ratings is in 1..10 and the input is otherwise
well-formed (a general user, or a healthcare worker with a specialization and positive work
hours) the request passes the validation: it is answered with what the service returns, which
is no validation error, and, under an id that no row has, with status 201 and the session
stored as a new row. -/
theorem CreateTherapySession_validates_ratings (env : Env) (db : DB) (req : CreateRequest)
    (userID : String) (uid : UUID) (input : TherapySessionInput)
    (huser : req.user_id = some userID) (hparse : env.parseUUID userID = .ok uid)
    (hbody : req.body = some input) :
    ((ratingInRange input.StressLevel = false ∨ ratingInRange input.MoodRating = false ∨
        ratingInRange input.SleepQuality = false) →
      controllers.CreateTherapySession env db req = (.invalid, db) ∧
      (controllers.CreateTherapySession env db req).1.isValidationError = true) ∧
    ((ratingInRange input.StressLevel = true ∧ ratingInRange input.MoodRating = true ∧
        ratingInRange input.SleepQuality = true) →
      (input.IsHealthWorker = false ∨ (input.Specialization ≠ "" ∧ 0 < input.WorkHours)) →
      (controllers.CreateTherapySession env db req).1.isValidationError = false ∧
      (db.therapy_sessions.any (fun r => r.ID == req.newID) = false →
        controllers.CreateTherapySession env db req =
          (.session 201 (db.PreloadUser (newSessionRow req.newID uid input req.t1 req.t2)),
           { db with therapy_sessions :=
               db.therapy_sessions ++ [newSessionRow req.newID uid input req.t1 req.t2] }))) := by
  constructor
  · intro h
    have hctl : controllers.CreateTherapySession env db req = (.invalid, db) := by
      simp [controllers.CreateTherapySession, huser, hparse, hbody,
        validate_rejects_rating input h]
    exact ⟨hctl, by rw [hctl]; rfl⟩
  · rintro ⟨h1, h2, h3⟩ hwell
    rw [CreateTherapySession_passes env db req userID uid input huser hparse hbody h1 h2 h3
      hwell]
    exact service_answer db req.t1 req.t2 req.newID uid input

/-- C8 at an instance, in the store `clinicStore`: the request of a general user with ratings
5, 5, 5 and the request of the healthcare worker of `sampleCreate` are answered with status 201,
the request `badRatingCreate`, with a stress level of 11, with a validation error. -/
theorem CreateTherapySession_validates_ratings_witness :
    (controllers.CreateTherapySession sampleEnv clinicStore generalCreate).1.isCreated = true ∧
    (controllers.CreateTherapySession sampleEnv clinicStore sampleCreate).1.isCreated = true ∧
    controllers.CreateTherapySession sampleEnv clinicStore badRatingCreate =
      (.invalid, clinicStore) :=
  ⟨by
    rw [((CreateTherapySession_validates_ratings sampleEnv clinicStore generalCreate ayuID ayuID
      { StressLevel := 5, MoodRating := 5, SleepQuality := 5 } rfl rfl rfl).2 ⟨rfl, rfl, rfl⟩
      (Or.inl rfl)).2 rfl]
    rfl,
   by
    rw [((CreateTherapySession_validates_ratings sampleEnv clinicStore sampleCreate ayuID ayuID
      { StressLevel := 7, MoodRating := 6, SleepQuality := 5, IsHealthWorker := true,
        Specialization := "Doctor", WorkHours := 60 } rfl rfl rfl).2 ⟨rfl, rfl, rfl⟩
      (Or.inr ⟨by decide, by decide⟩)).2 rfl]
    rfl,
   ((CreateTherapySession_validates_ratings sampleEnv clinicStore badRatingCreate ayuID ayuID
      { StressLevel := 11, MoodRating := 6, SleepQuality := 5, IsHealthWorker := true,
        Specialization := "Doctor", WorkHours := 60 } rfl rfl rfl).1 (Or.inl rfl)).1⟩

/-- C9. For an authenticated request of a healthcare worker whose body binds with all three
ratings in 1..10: when the specialization is empty or the work hours are 0 or less, the handler
answers with status 400 and the store is as before; when the specialization is not empty and the
work hours are positive, the request passes the validation: it is answered with what the service
returns, which is no validation error, and, under an id that no row has, with status 201 and the
session stored as a new row. -/
theorem CreateTherapySession_validates_health_worker (env : Env) (db : DB)
    (req : CreateRequest) (userID : String) (uid : UUID) (input : TherapySessionInput)
    (huser : req.user_id = some userID) (hparse : env.parseUUID userID = .ok uid)
    (hbody : req.body = some input) (hw : input.IsHealthWorker = true)
    (h1 : ratingInRange input.StressLevel = true) (h2 : ratingInRange input.MoodRating = true)
    (h3 : ratingInRange input.SleepQuality = true) :
    (input.Specialization = "" →
      controllers.CreateTherapySession env db req =
        (.message 400 "Specialization is required for healthcare workers", db)) ∧
    (input.Specialization ≠ "" → input.WorkHours ≤ 0 →
      controllers.CreateTherapySession env db req =
        (.message 400 "Work hours must be greater than 0 for healthcare workers", db)) ∧
    ((input.Specialization = "" ∨ input.WorkHours ≤ 0) →
      (controllers.CreateTherapySession env db req).1.isValidationError = true ∧
      (controllers.CreateTherapySession env db req).2 = db) ∧
    ((input.Specialization ≠ "" ∧ 0 < input.WorkHours) →
      (controllers.CreateTherapySession env db req).1.isValidationError = false ∧
      (db.therapy_sessions.any (fun r => r.ID == req.newID) = false →
        controllers.CreateTherapySession env db req =
          (.session 201 (db.PreloadUser (newSessionRow req.newID uid input req.t1 req.t2)),
           { db with therapy_sessions :=
               db.therapy_sessions ++ [newSessionRow req.newID uid input req.t1 req.t2] }))) := by
  have hv : validateTherapySessionInput input = true :=
    (validateTherapySessionInput_iff input).mpr ⟨h1, h2, h3⟩
  have hempty : input.Specialization = "" →
      controllers.CreateTherapySession env db req =
        (.message 400 "Specialization is required for healthcare workers", db) := by
    intro hs
    simp [controllers.CreateTherapySession, huser, hparse, hbody, BindAndValidate, hv, hw, hs]
  have hhours : input.Specialization ≠ "" → input.WorkHours ≤ 0 →
      controllers.CreateTherapySession env db req =
        (.message 400 "Work hours must be greater than 0 for healthcare workers", db) := by
    intro hs hh
    simp [controllers.CreateTherapySession, huser, hparse, hbody, BindAndValidate, hv, hw, hs,
      hh]
  refine ⟨hempty, hhours, ?_, ?_⟩
  · intro hbad
    by_cases hs : input.Specialization = ""
    · rw [hempty hs]
      exact ⟨rfl, rfl⟩
    · have hh : input.WorkHours ≤ 0 := by
        rcases hbad with h | h
        · exact absurd h hs
        · exact h
      rw [hhours hs hh]
      exact ⟨rfl, rfl⟩
  · intro hgood
    rw [CreateTherapySession_passes env db req userID uid input huser hparse hbody h1 h2 h3
      (Or.inr hgood)]
    exact service_answer db req.t1 req.t2 req.newID uid input

/-- C9 at an instance, in the store `clinicStore`: the healthcare worker of `sampleCreate`
(`Doctor`, 60 hours) and the one of `longHoursCreate` (`Nurse`, 169 hours) are answered with
status 201, the one without specialization with status 400 and no change of the store. -/
theorem CreateTherapySession_validates_health_worker_witness :
    (controllers.CreateTherapySession sampleEnv clinicStore sampleCreate).1.isCreated = true ∧
    (controllers.CreateTherapySession sampleEnv clinicStore longHoursCreate).1.isCreated = true ∧
    controllers.CreateTherapySession sampleEnv clinicStore noSpecializationCreate =
      (.message 400 "Specialization is required for healthcare workers", clinicStore) :=
  ⟨by
    rw [((CreateTherapySession_validates_health_worker sampleEnv clinicStore sampleCreate ayuID
      ayuID { StressLevel := 7, MoodRating := 6, SleepQuality := 5, IsHealthWorker := true,
              Specialization := "Doctor", WorkHours := 60 } rfl rfl rfl rfl rfl rfl rfl).2.2.2
      ⟨by decide, by decide⟩).2 rfl]
    rfl,
   by
    rw [((CreateTherapySession_validates_health_worker sampleEnv clinicStore longHoursCreate ayuID
      ayuID { StressLevel := 5, MoodRating := 5, SleepQuality := 5, IsHealthWorker := true,
              Specialization := "Nurse", WorkHours := 169 } rfl rfl rfl rfl rfl rfl rfl).2.2.2
      ⟨by decide, by decide⟩).2 rfl]
    rfl,
   (CreateTherapySession_validates_health_worker sampleEnv clinicStore noSpecializationCreate
      ayuID ayuID
      { StressLevel := 5, MoodRating := 5, SleepQuality := 5, IsHealthWorker := true,
        Specialization := "", WorkHours := 40 } rfl rfl rfl rfl rfl rfl rfl).1 rfl⟩

/-! ## Occurrences of a text in a text -/

/-- The loop over a range inside the slice reads no index outside it. -/
theorem sumLoop_some (values : List Int) :
    ∀ (count i : ℕ) (acc : Int), i + count ≤ values.length →
      ∃ sum, sumLoop values count i acc = some sum := by
  intro count
  induction count with
  | zero => intro i acc _; exact ⟨acc, by simp [sumLoop]⟩
  | succ count ih =>
    intro i acc hi
    have hlt : i < values.length := by omega
    obtain ⟨sum, hsum⟩ := ih (i + 1) (wrapInt (acc + values[i])) (by omega)
    exact ⟨sum, by simp [sumLoop, List.getElem?_eq_getElem hlt, hsum]⟩

/-- Rounding to binary64 takes no number other than zero to zero. -/
theorem roundF64_ne_zero (q : ℚ) (hq : q ≠ 0) : roundF64 q ≠ 0 := by
  intro h0
  have herr := roundF64_error q
  rw [h0, zero_sub, abs_neg] at herr
  have hpos : 0 < |q| := abs_pos.mpr hq
  have : |q| / 2 ^ 53 < |q| := by
    rw [div_lt_iff₀ (by positivity)]
    nlinarith
  linarith

/-- The conversion of a positive count is not zero. -/
theorem float64_pos_ne_zero (n : ℕ) (hn : 0 < n) : float64 (n : Int) ≠ 0 := by
  unfold float64
  apply roundF64_ne_zero
  have : (0 : ℚ) < ((n : Int) : ℚ) := by exact_mod_cast hn
  exact this.ne'

/-- A division by the conversion of a positive count has a result. -/
theorem fdiv_count (a : ℚ) (n : ℕ) (hn : 0 < n) :
    fdiv a (float64 (n : Int)) = some (roundF64 (a / float64 (n : Int))) := by
  simp [fdiv, float64_pos_ne_zero n hn]

/-- The trend estimator returns one of the three labels on every series. -/
theorem determineTrend_some (values : List Int) :
    ∃ label, determineTrend values = some label ∧ isTrendLabel label := by
  unfold determineTrend isTrendLabel
  split_ifs with hlen
  · exact ⟨"stable", rfl, Or.inr (Or.inr rfl)⟩
  · have hn : 2 ≤ values.length := by omega
    have hm : 0 < values.length / 2 := Nat.div_pos hn (by norm_num)
    have hmn : values.length / 2 ≤ values.length := Nat.div_le_self _ _
    have hk : 0 < values.length - values.length / 2 := by omega
    obtain ⟨s1, h1⟩ := sumLoop_some values (values.length / 2) 0 0 (by omega)
    obtain ⟨s2, h2⟩ := sumLoop_some values (values.length - values.length / 2)
      (values.length / 2) 0 (by omega)
    simp only [h1, h2, Option.some_bind, fdiv_count _ _ hm, fdiv_count _ _ hk]
    split_ifs
    · exact ⟨"stable", rfl, Or.inr (Or.inr rfl)⟩
    · exact ⟨"improving", rfl, Or.inl rfl⟩
    · exact ⟨"worsening", rfl, Or.inr (Or.inl rfl)⟩

/-- C19: `determineTrend` returns on every series, and what it returns is one of "improving",
"worsening" and "stable". A series of fewer than two values is "stable" before any division. For
a series of `n ≥ 2` values the split point `m = n / 2` leaves both halves non-empty
(`1 ≤ m`, `1 ≤ n - m`), both loops read inside the slice and so return their sums, and both
divisors, the conversions of `m` and of `n - m`, are not zero. -/
theorem determineTrend_total (values : List Int) :
    (∃ label, determineTrend values = some label ∧
      (label = "improving" ∨ label = "worsening" ∨ label = "stable")) ∧
    (values.length < 2 → determineTrend values = some "stable") ∧
    (2 ≤ values.length →
      1 ≤ values.length / 2 ∧ 1 ≤ values.length - values.length / 2 ∧
      0 + values.length / 2 ≤ values.length ∧
      values.length / 2 + (values.length - values.length / 2) ≤ values.length ∧
      (∃ firstHalfSum, sumLoop values (values.length / 2) 0 0 = some firstHalfSum) ∧
      (∃ secondHalfSum, sumLoop values (values.length - values.length / 2)
          (values.length / 2) 0 = some secondHalfSum) ∧
      float64 ((values.length / 2 : ℕ) : Int) ≠ 0 ∧
      float64 ((values.length - values.length / 2 : ℕ) : Int) ≠ 0) := by
  refine ⟨determineTrend_some values, ?_, ?_⟩
  · intro h
    simp [determineTrend, h]
  · intro hn
    have hm : 0 < values.length / 2 := Nat.div_pos hn (by norm_num)
    have hmn : values.length / 2 ≤ values.length := Nat.div_le_self _ _
    have hk : 0 < values.length - values.length / 2 := by omega
    exact ⟨hm, hk, by omega, by omega, sumLoop_some values _ 0 0 (by omega),
      sumLoop_some values _ _ 0 (by omega), float64_pos_ne_zero _ hm, float64_pos_ne_zero _ hk⟩
/-! ## The record of a new session -/

/-- The record of `CreateTherapySessionTest` is the row of `CreateTherapySession` with the mock
user. -/
theorem CreateTherapySessionTest_eq (t1 t2 : Time) (newID u : UUID) (i : TherapySessionInput) :
    CreateTherapySessionTest t1 t2 newID u i =
      .ok { newSessionRow newID u i t1 t2 with
            User := { ID := u, Name := "Test User", Email := "test@example.com",
                      DOB := "1990-01-01" } } := by
  unfold CreateTherapySessionTest newSessionRow
  cases h : i.IsHealthWorker <;> simp

/-- C17: `CreateTherapySessionTest(u, i)` succeeds for every user id and input. Its session has
the user id `u`, the ratings and the flag of `i`, no recommendation, no next steps and no
messages; its specialization and work hours are those of `i` when `i.IsHealthWorker` is set, and
the empty text and 0 otherwise. The record that `CreateTherapySession` writes under a fresh id is
the same record apart from the id and the mock user: that row is stored and, with the user
preloaded, returned. -/
theorem CreateTherapySessionTest_fields (t1 t2 : Time) (newID u : UUID)
    (i : TherapySessionInput) :
    ∃ s, CreateTherapySessionTest t1 t2 newID u i = .ok s ∧
      s.UserID = u ∧ s.StressLevel = i.StressLevel ∧ s.MoodRating = i.MoodRating ∧
      s.SleepQuality = i.SleepQuality ∧ s.IsHealthWorker = i.IsHealthWorker ∧
      s.Recommendation = "" ∧ s.NextSteps = "" ∧ s.Messages = [] ∧
      (i.IsHealthWorker = true → s.Specialization = i.Specialization ∧ s.WorkHours = i.WorkHours) ∧
      (i.IsHealthWorker = false → s.Specialization = "" ∧ s.WorkHours = 0) ∧
      ∀ (db : DB) (storeID : UUID),
        db.therapy_sessions.any (fun r => r.ID == storeID) = false →
        services.CreateTherapySession db t1 t2 storeID u i =
          (.ok (db.PreloadUser { s with ID := storeID, User := {} }),
           { db with therapy_sessions :=
               db.therapy_sessions ++ [{ s with ID := storeID, User := {} }] }) := by
  refine ⟨_, CreateTherapySessionTest_eq t1 t2 newID u i, rfl, rfl, rfl, rfl, rfl, rfl, rfl, rfl,
    ?_, ?_, ?_⟩
  · intro h
    simp [newSessionRow, h]
  · intro h
    simp [newSessionRow, h]
  · intro db storeID hfresh
    exact CreateTherapySession_fresh db t1 t2 storeID u i hfresh

/-! ## The history block -/

/-- The loop over the history from index `i` on: it adds the entries of the sessions, other than
the current one, among the first `3 - i` it meets. -/
theorem historyLoop_eq (env : Env) (currentID : UUID) :
    ∀ (history : List TherapySession) (i : ℕ) (text : String),
      historyLoop env currentID history i text =
        text ++ historyEntries env (otherSessions currentID (history.take (3 - i))) := by
  intro history
  induction history with
  | nil => intro i text; simp [historyLoop, otherSessions, historyEntries]
  | cons h rest ih =>
    intro i text
    unfold historyLoop
    by_cases hid : (h.ID == currentID) = true
    · rw [if_pos hid, ih]
      by_cases hi : 3 ≤ i
      · have e1 : 3 - i = 0 := by omega
        have e2 : 3 - (i + 1) = 0 := by omega
        rw [e1, e2]
        simp [otherSessions]
      · obtain ⟨k, hk⟩ : ∃ k, 3 - i = k + 1 := ⟨2 - i, by omega⟩
        have e2 : 3 - (i + 1) = k := by omega
        rw [hk, e2]
        simp [otherSessions, hid]
    · rw [if_neg hid]
      by_cases hi : 3 ≤ i
      · have e1 : 3 - i = 0 := by omega
        rw [if_pos hi, e1]
        simp [otherSessions, historyEntries]
      · obtain ⟨k, hk⟩ : ∃ k, 3 - i = k + 1 := ⟨2 - i, by omega⟩
        have e2 : 3 - (i + 1) = k := by omega
        rw [if_neg hi, ih, hk, e2]
        simp [otherSessions, hid, historyEntries, String.append_assoc]

/-- The history block: the fixed sentence when the store returns no session of the user, else
the header and the entries of the sessions, other than the current one, among the three newest
of the user. -/
theorem historyText_eq (env : Env) (db : DB) (session : TherapySession) :
    historyText env db session =
      if (GetTherapyHistory db session.User.ID).length > 0 then
        historyHeader ++ historyEntries env
          (otherSessions session.ID ((GetTherapyHistory db session.User.ID).take 3))
      else noHistory := by
  unfold historyText
  simp only [historyLoop_eq]
  rfl

/-- When the current session is not among the three newest of a history, the sessions other than
the current one among these three are the three most recent other sessions. -/
theorem otherSessions_take (currentID : UUID) (history : List TherapySession)
    (h : ∀ s ∈ history.take 3, s.ID ≠ currentID) :
    otherSessions currentID (history.take 3) = (otherSessions currentID history).take 3 := by
  unfold otherSessions
  have hself : (history.take 3).filter (fun s => !(s.ID == currentID)) = history.take 3 := by
    rw [List.filter_eq_self]
    intro s hs
    simpa using h s hs
  have hsplit : history.filter (fun s => !(s.ID == currentID)) =
      history.take 3 ++ (history.drop 3).filter (fun s => !(s.ID == currentID)) := by
    conv_lhs => rw [← List.take_append_drop 3 history]
    rw [List.filter_append, hself]
  rw [hself, hsplit]
  by_cases hlen : 3 ≤ history.length
  · have : (history.take 3).length = 3 := by simp [hlen]
    rw [List.take_left' this]
  · have hd : history.drop 3 = [] := List.drop_eq_nil_of_le (by omega)
    have ht : history.take 3 = history := List.take_of_length_le (by omega)
    rw [hd, ht]
    simp
    omega

/-- C11 (the code departs from the claim): the limit of three is tested on the index in the whole
history, which counts the current session too. The block therefore lists the sessions, other than
the current one, among the three newest stored sessions of the user: an initial part of the three
most recent other sessions, never the current session and never more than three sessions, and
all of the three most recent other sessions when the current session is not among the three
newest; but not always all of them. For the user of `fourSessions`, whose current session is the
newest of four, the three most recent other sessions are those of March, February and January,
and the block lists those of March and February only. -/
theorem history_block_counts_current_session :
    (∀ (env : Env) (db : DB) (session : TherapySession),
      (historyText env db session =
        if (GetTherapyHistory db session.User.ID).length > 0 then
          historyHeader ++ historyEntries env
            (otherSessions session.ID ((GetTherapyHistory db session.User.ID).take 3))
        else noHistory) ∧
      otherSessions session.ID ((GetTherapyHistory db session.User.ID).take 3) <+:
        (otherSessions session.ID (GetTherapyHistory db session.User.ID)).take 3 ∧
      (otherSessions session.ID ((GetTherapyHistory db session.User.ID).take 3)).length ≤ 3 ∧
      (∀ h ∈ otherSessions session.ID ((GetTherapyHistory db session.User.ID).take 3),
        h.ID ≠ session.ID) ∧
      ((∀ h ∈ (GetTherapyHistory db session.User.ID).take 3, h.ID ≠ session.ID) →
        otherSessions session.ID ((GetTherapyHistory db session.User.ID).take 3) =
          (otherSessions session.ID (GetTherapyHistory db session.User.ID)).take 3)) ∧
    GetTherapyHistory fourSessions (fourSessions.PreloadUser aprilSession).User.ID =
      [aprilSession, marchSession, februarySession, januarySession] ∧
    (otherSessions aprilSession.ID
        [aprilSession, marchSession, februarySession, januarySession]).take 3 =
      [marchSession, februarySession, januarySession] ∧
    historyText utcEnv fourSessions (fourSessions.PreloadUser aprilSession) =
      historyHeader ++ historyEntries utcEnv [marchSession, februarySession] ∧
    historyText utcEnv fourSessions (fourSessions.PreloadUser aprilSession) ≠
      historyHeader ++
        historyEntries utcEnv [marchSession, februarySession, januarySession] := by
  refine ⟨?_, by decide, by decide, by decide!, by decide!⟩
  intro env db session
  have hlen : (otherSessions session.ID ((GetTherapyHistory db session.User.ID).take 3)).length
      ≤ 3 := by
    unfold otherSessions
    exact (List.length_filter_le _ _).trans (List.length_take_le _ _)
  refine ⟨historyText_eq env db session, ?_, hlen, ?_, otherSessions_take _ _⟩
  · rw [List.prefix_take_iff]
    exact ⟨List.IsPrefix.filter _ (List.take_prefix _ _), hlen⟩
  · intro h hh
    unfold otherSessions at hh
    have := (List.mem_filter.mp hh).2
    simpa using this

/-- C12 (the code departs from the claim): the fixed sentence is written only when the store
returns no session of the user at all. When the store returns sessions and every one of them is
the current session, the block is the bare header `Previous therapy sessions:`; so it is for the
user of `oneSession`, whose only stored session is the current one. -/
theorem history_block_of_only_current_session :
    (∀ (env : Env) (db : DB) (session : TherapySession),
      (GetTherapyHistory db session.User.ID = [] → historyText env db session = noHistory) ∧
      (GetTherapyHistory db session.User.ID ≠ [] →
        (∀ h ∈ GetTherapyHistory db session.User.ID, h.ID = session.ID) →
        historyText env db session = historyHeader)) ∧
    GetTherapyHistory oneSession (oneSession.PreloadUser aprilSession).User.ID =
      [aprilSession] ∧
    otherSessions aprilSession.ID [aprilSession] = [] ∧
    historyText utcEnv oneSession (oneSession.PreloadUser aprilSession) = historyHeader ∧
    historyHeader ≠ noHistory := by
  refine ⟨?_, by decide, by decide, by decide!, by decide!⟩
  intro env db session
  constructor
  · intro h
    rw [historyText_eq, h]
    rfl
  · intro hne hall
    have hpos : (GetTherapyHistory db session.User.ID).length > 0 :=
      List.length_pos.mpr hne
    have hnone : otherSessions session.ID ((GetTherapyHistory db session.User.ID).take 3) =
        [] := by
      unfold otherSessions
      rw [List.filter_eq_nil_iff]
      intro h hh
      simp [hall h (List.mem_of_mem_take hh)]
    rw [historyText_eq, if_pos hpos, hnone]
    rfl

/-! ## Rounding between two integers -/

/-- The nearest integer of a number is not below an integer below the number. -/
theorem le_roundHalfEven (n : Int) (q : ℚ) (h : (n : ℚ) ≤ q) : n ≤ roundHalfEven q := by
  have hf : n ≤ ⌊q⌋ := Int.le_floor.mpr h
  unfold roundHalfEven
  simp only
  split_ifs <;> omega

/-- The nearest integer of a number is not above an integer above the number. -/
theorem roundHalfEven_le (n : Int) (q : ℚ) (h : q ≤ (n : ℚ)) : roundHalfEven q ≤ n := by
  have hf : ⌊q⌋ ≤ n := by
    have h0 : ((⌊q⌋ : Int) : ℚ) ≤ q := Int.floor_le q
    exact_mod_cast h0.trans h
  unfold roundHalfEven
  simp only
  rcases eq_or_lt_of_le hf with heq | hlt
  · have hq : q = (n : ℚ) := by
      have h0 : ((⌊q⌋ : Int) : ℚ) ≤ q := Int.floor_le q
      rw [heq] at h0
      exact le_antisymm h h0
    have hfl : q - (⌊q⌋ : Int) < 1 / 2 := by
      rw [heq, hq]
      norm_num
    rw [if_pos hfl]
    exact hf
  · split_ifs <;> omega

/-- A positive number below `2^53` that lies between two integers is rounded to a binary64
number between them. -/
theorem roundF64_between (q : ℚ) (lo hi : Int) (hq : 0 < q) (hlt : q < 2 ^ 53)
    (h1 : (lo : ℚ) ≤ q) (h2 : q ≤ (hi : ℚ)) :
    (lo : ℚ) ≤ roundF64 q ∧ roundF64 q ≤ (hi : ℚ) := by
  unfold roundF64
  rw [if_neg hq.ne']
  simp only
  have habs : |q| = q := abs_of_pos hq
  have hlt2 : |q| < ((2 : ℕ) : ℚ) ^ (53 : Int) := by
    rw [habs]
    norm_num
    exact hlt
  have hlog : Int.log 2 |q| < 53 :=
    (Int.lt_zpow_iff_log_lt (by norm_num) (by rw [habs]; exact hq)).mp hlt2
  obtain ⟨k, hk⟩ : ∃ k : ℕ, Int.log 2 |q| - 52 = -(k : Int) :=
    ⟨(52 - Int.log 2 |q|).toNat, by omega⟩
  rw [hk, zpow_neg, zpow_natCast]
  have hp : (0 : ℚ) < 2 ^ k := by positivity
  have hdiv : q / ((2 : ℚ) ^ k)⁻¹ = q * 2 ^ k := by
    field_simp
  rw [hdiv]
  have hlo : lo * 2 ^ k ≤ roundHalfEven (q * 2 ^ k) := by
    apply le_roundHalfEven
    push_cast
    exact mul_le_mul_of_nonneg_right h1 hp.le
  have hhi : roundHalfEven (q * 2 ^ k) ≤ hi * 2 ^ k := by
    apply roundHalfEven_le
    push_cast
    exact mul_le_mul_of_nonneg_right h2 hp.le
  have hlo' : ((lo * 2 ^ k : Int) : ℚ) ≤ (roundHalfEven (q * 2 ^ k) : ℚ) := by exact_mod_cast hlo
  have hhi' : (roundHalfEven (q * 2 ^ k) : ℚ) ≤ ((hi * 2 ^ k : Int) : ℚ) := by exact_mod_cast hhi
  push_cast at hlo' hhi'
  constructor
  · rw [le_mul_inv_iff₀ hp]
    exact hlo'
  · rw [mul_inv_le_iff₀ hp]
    exact hhi'

/-! ## The loop of the summary -/

/-- The slices of the loop hold the three ratings of the sessions in the order of the loop. -/
theorem summaryLoop_slices : ∀ (sessions : List TherapySession) (t : Totals),
    (summaryLoop sessions t).stressLevels = t.stressLevels ++ sessions.map (·.StressLevel) ∧
    (summaryLoop sessions t).moodRatings = t.moodRatings ++ sessions.map (·.MoodRating) ∧
    (summaryLoop sessions t).sleepQualities =
      t.sleepQualities ++ sessions.map (·.SleepQuality)
  | [], t => by simp [summaryLoop]
  | s :: rest, t => by
    have ih := summaryLoop_slices rest (t.add s)
    simp only [summaryLoop, List.map_cons]
    rw [ih.1, ih.2.1, ih.2.2]
    simp [Totals.add]

/-- The totals of the loop are the sums of the ratings, when no sum leaves the range of `int`. -/
theorem summaryLoop_totals (V : ℕ) : ∀ (sessions : List TherapySession) (t : Totals),
    (∀ s ∈ sessions, |s.StressLevel| ≤ V ∧ |s.MoodRating| ≤ V ∧ |s.SleepQuality| ≤ V) →
    |t.totalStressLevel| + sessions.length * V < 2 ^ 63 →
    |t.totalMoodRating| + sessions.length * V < 2 ^ 63 →
    |t.totalSleepQuality| + sessions.length * V < 2 ^ 63 →
    (summaryLoop sessions t).totalStressLevel =
      t.totalStressLevel + (sessions.map (·.StressLevel)).sum ∧
    (summaryLoop sessions t).totalMoodRating =
      t.totalMoodRating + (sessions.map (·.MoodRating)).sum ∧
    (summaryLoop sessions t).totalSleepQuality =
      t.totalSleepQuality + (sessions.map (·.SleepQuality)).sum
  | [], t, _, _, _, _ => by simp [summaryLoop]
  | s :: rest, t, hV, h1, h2, h3 => by
    obtain ⟨b1, b2, b3⟩ := hV s (List.mem_cons_self _ _)
    simp only [List.length_cons] at h1 h2 h3
    push_cast at h1 h2 h3
    have hc : (0 : Int) ≤ rest.length * V := by positivity
    have a1 := abs_add t.totalStressLevel s.StressLevel
    have a2 := abs_add t.totalMoodRating s.MoodRating
    have a3 := abs_add t.totalSleepQuality s.SleepQuality
    have w1 : wrapInt (t.totalStressLevel + s.StressLevel) = t.totalStressLevel + s.StressLevel :=
      wrapInt_of_small _ (by linarith)
    have w2 : wrapInt (t.totalMoodRating + s.MoodRating) = t.totalMoodRating + s.MoodRating :=
      wrapInt_of_small _ (by linarith)
    have w3 : wrapInt (t.totalSleepQuality + s.SleepQuality) =
        t.totalSleepQuality + s.SleepQuality :=
      wrapInt_of_small _ (by linarith)
    have ih := summaryLoop_totals V rest (t.add s)
      (fun x hx => hV x (List.mem_cons_of_mem _ hx))
      (by simp only [Totals.add, w1]; linarith)
      (by simp only [Totals.add, w2]; linarith)
      (by simp only [Totals.add, w3]; linarith)
    simp only [summaryLoop, List.map_cons, List.sum_cons]
    rw [ih.1, ih.2.1, ih.2.2]
    simp only [Totals.add, w1, w2, w3]
    refine ⟨by ring, by ring, by ring⟩

/-- The summary of a user with a session: the function returns, and what it returns. -/
theorem summary_returns (env : Env) (db : DB) (userID : UUID) (first : TherapySession)
    (rest : List TherapySession) (h : GetTherapySessionsByUserID db userID = first :: rest) :
    ∃ stressTrend moodTrend sleepTrend,
      determineTrend ((first :: rest).map (·.StressLevel)) = some stressTrend ∧
      determineTrend ((first :: rest).map (·.MoodRating)) = some moodTrend ∧
      determineTrend ((first :: rest).map (·.SleepQuality)) = some sleepTrend ∧
      GetMentalHealthSummary env db userID = some (.ok
        [("total_sessions", .int ((first :: rest).length : ℕ)),
         ("healthcare_worker",
            .bool (decide ((summaryLoop (first :: rest) {}).healthWorkerSessions > 0))),
         ("avg_stress_level", .float (roundF64
            (float64 (summaryLoop (first :: rest) {}).totalStressLevel /
              float64 ((first :: rest).length : ℕ)))),
         ("avg_mood_rating", .float (roundF64
            (float64 (summaryLoop (first :: rest) {}).totalMoodRating /
              float64 ((first :: rest).length : ℕ)))),
         ("avg_sleep_quality", .float (roundF64
            (float64 (summaryLoop (first :: rest) {}).totalSleepQuality /
              float64 ((first :: rest).length : ℕ)))),
         ("stress_trend", .str stressTrend),
         ("mood_trend", .str moodTrend),
         ("sleep_trend", .str sleepTrend),
         ("last_session_date", .str (env.formatDate first.CreatedAt)),
         ("completed_sessions", .int ((first :: rest).length : ℕ))]) := by
  obtain ⟨stressTrend, hs, -⟩ := determineTrend_some ((first :: rest).map (·.StressLevel))
  obtain ⟨moodTrend, hm, -⟩ := determineTrend_some ((first :: rest).map (·.MoodRating))
  obtain ⟨sleepTrend, hq, -⟩ := determineTrend_some ((first :: rest).map (·.SleepQuality))
  refine ⟨stressTrend, moodTrend, sleepTrend, hs, hm, hq, ?_⟩
  have hsl := summaryLoop_slices (first :: rest) {}
  simp only [List.nil_append] at hsl
  have hpos : 0 < (first :: rest).length := by simp
  unfold GetMentalHealthSummary
  simp only [h]
  rw [if_neg (by simp)]
  simp only [hsl.1, hsl.2.1, hsl.2.2, hs, hm, hq, fdiv_count _ _ hpos, Option.some_bind,
    List.getElem?_cons_zero]

/-! ## The averages of the summary -/

/-- The conversions of a total and of a count are exact when the ratings are bounded. -/
theorem average_eq (l : List Int) (V : ℕ) (hV : ∀ v ∈ l, |v| ≤ V)
    (hsize : l.length * (V + 1) < 2 ^ 53) :
    roundF64 (float64 l.sum / float64 (l.length : ℕ)) = roundF64 (mean l) := by
  have hsum := sum_abs_le V l hV
  have h1 : |l.sum| < 2 ^ 53 := by
    have : (l.length : Int) * V < 2 ^ 53 := by
      have : l.length * V ≤ l.length * (V + 1) := Nat.mul_le_mul_left _ (Nat.le_succ V)
      exact_mod_cast lt_of_le_of_lt this hsize
    linarith
  have h2 : |((l.length : ℕ) : Int)| < 2 ^ 53 := by
    have : l.length ≤ l.length * (V + 1) := Nat.le_mul_of_pos_right _ (Nat.succ_pos V)
    have : ((l.length : ℕ) : Int) < 2 ^ 53 := by exact_mod_cast lt_of_le_of_lt this hsize
    rw [abs_of_nonneg (by positivity)]
    exact this
  rw [float64_exact _ h1, float64_exact _ h2]
  simp [mean]

/-- The mean of values between two bounds lies between the bounds. -/
theorem mean_between (lo hi : Int) : ∀ l : List Int, l ≠ [] → (∀ v ∈ l, lo ≤ v ∧ v ≤ hi) →
    (lo : ℚ) ≤ mean l ∧ mean l ≤ (hi : ℚ) := by
  intro l hne h
  have hsum : ∀ l : List Int, (∀ v ∈ l, lo ≤ v ∧ v ≤ hi) →
      l.length * lo ≤ l.sum ∧ l.sum ≤ l.length * hi := by
    intro l
    induction l with
    | nil => intro _; simp
    | cons a l ih =>
      intro h
      have ha := h a (List.mem_cons_self _ _)
      have hl := ih (fun v hv => h v (List.mem_cons_of_mem _ hv))
      simp only [List.length_cons, List.sum_cons]
      push_cast
      constructor <;> nlinarith
  obtain ⟨s1, s2⟩ := hsum l h
  have hpos : (0 : ℚ) < (l.length : ℚ) := by
    have : 0 < l.length := List.length_pos.mpr hne
    exact_mod_cast this
  have s1' : ((l.length : ℚ)) * (lo : ℚ) ≤ (l.sum : ℚ) := by exact_mod_cast s1
  have s2' : (l.sum : ℚ) ≤ (l.length : ℚ) * (hi : ℚ) := by exact_mod_cast s2
  unfold mean
  constructor
  · rw [le_div_iff₀ hpos]
    linarith
  · rw [div_le_iff₀ hpos]
    linarith

/-- The rounded mean of ratings from 1 to 10 lies between 1 and 10. -/
theorem rounded_mean_in_range (l : List Int) (hne : l ≠ [])
    (h : ∀ v ∈ l, 1 ≤ v ∧ v ≤ 10) : 1 ≤ roundF64 (mean l) ∧ roundF64 (mean l) ≤ 10 := by
  obtain ⟨h1, h2⟩ := mean_between 1 10 l hne h
  have hb := roundF64_between (mean l) 1 10 (by push_cast at h1; linarith)
    (by push_cast at h2; linarith) h1 h2
  simpa using hb

/-- The label of a bounded series whose half means differ by more than one half. -/
theorem determineTrend_of_gap (s : List Int) (V : ℕ) (hV : ∀ v ∈ s, |v| ≤ V)
    (hsize : 2 * s.length ^ 2 * (2 * V + 1) ≤ 2 ^ 53) (hn : 2 ≤ s.length) :
    (1 / 2 < mean (s.take (s.length / 2)) - mean (s.drop (s.length / 2)) →
      determineTrend s = some "improving") ∧
    (mean (s.take (s.length / 2)) - mean (s.drop (s.length / 2)) < -(1 / 2) →
      determineTrend s = some "worsening") := by
  have hsides := rounded_difference_sides s V hV hsize hn _ _ _ rfl rfl rfl
  rw [determineTrend_eq s V hV hsize hn]
  constructor
  · intro hgap
    have hD := hsides.2.1 hgap
    have h1 : ¬ |roundF64 (roundF64 (mean (s.take (s.length / 2))) -
        roundF64 (mean (s.drop (s.length / 2))))| < 1 / 2 := by
      rw [abs_of_nonneg (by linarith)]
      linarith
    rw [if_neg h1, if_pos (by linarith)]
  · intro hgap
    have hD := hsides.2.2.1 hgap
    have h1 : ¬ |roundF64 (roundF64 (mean (s.take (s.length / 2))) -
        roundF64 (mean (s.drop (s.length / 2))))| < 1 / 2 := by
      rw [abs_of_nonpos (by linarith)]
      linarith
    rw [if_neg h1, if_neg (by linarith)]

/-- A user without stored sessions. -/
theorem no_sessions_of_user (db : DB) (userID : UUID)
    (h : ∀ s ∈ db.therapy_sessions, s.UserID ≠ userID) :
    GetTherapySessionsByUserID db userID = [] := by
  unfold GetTherapySessionsByUserID DB.FindByUser
  simp only
  rw [List.filter_eq_nil_iff]
  intro s hs
  simpa using h s hs

/-- C13: for a user without stored sessions `GetMentalHealthSummary` returns, without an error,
the payload whose keys are `total_sessions`, with the value 0, and `message`: it holds none of the
keys of the averages, of the trends and of the last date. -/
theorem GetMentalHealthSummary_without_sessions (env : Env) (db : DB) (userID : UUID)
    (h : ∀ s ∈ db.therapy_sessions, s.UserID ≠ userID) :
    ∃ payload, GetMentalHealthSummary env db userID = some (.ok payload) ∧
      payload.get "total_sessions" = some (.int 0) ∧
      payload.keys = ["total_sessions", "message"] ∧
      payload.get "avg_stress_level" = none ∧ payload.get "avg_mood_rating" = none ∧
      payload.get "avg_sleep_quality" = none ∧ payload.get "stress_trend" = none ∧
      payload.get "mood_trend" = none ∧ payload.get "sleep_trend" = none ∧
      payload.get "last_session_date" = none := by
  refine ⟨[("total_sessions", .int 0),
    ("message", .str "No therapy sessions found for this user")], ?_, by decide, by decide,
    by decide, by decide, by decide, by decide, by decide, by decide, by decide⟩
  unfold GetMentalHealthSummary
  simp [no_sessions_of_user db userID h]

/-- C13 at an instance: the store `fourSessions` holds no session of the user `u2`. -/
theorem GetMentalHealthSummary_without_sessions_witness :
    ∃ payload, GetMentalHealthSummary utcEnv fourSessions "u2" = some (.ok payload) ∧
      payload.get "total_sessions" = some (.int 0) ∧
      payload.keys = ["total_sessions", "message"] ∧
      payload.get "avg_stress_level" = none ∧ payload.get "avg_mood_rating" = none ∧
      payload.get "avg_sleep_quality" = none ∧ payload.get "stress_trend" = none ∧
      payload.get "mood_trend" = none ∧ payload.get "sleep_trend" = none ∧
      payload.get "last_session_date" = none :=
  GetMentalHealthSummary_without_sessions utcEnv fourSessions "u2" (by decide)

/-- C14, refuted as stated: a user with three sessions whose stress levels are 1, 1 and 2. Their
mean is 4/3, which is not a binary64 number; the summary holds the binary64 number next to it,
`6004799503160661 / 2^52`. -/
theorem average_of_thirds_is_rounded :
    stressSeries thirds "u1" = [1, 1, 2] ∧ mean [1, 1, 2] = 4 / 3 ∧
    ∃ payload, GetMentalHealthSummary utcEnv thirds "u1" = some (.ok payload) ∧
      payload.get "total_sessions" = some (.int 3) ∧
      payload.get "avg_stress_level" =
        some (.float (6004799503160661 / 4503599627370496)) ∧
      (6004799503160661 / 4503599627370496 : ℚ) ≠ 4 / 3 := by
  obtain ⟨st, mo, sl, -, -, -, h⟩ := summary_returns utcEnv thirds "u1" _ _ rfl
  have hx : roundF64 (float64 (summaryLoop (GetTherapySessionsByUserID thirds "u1")
      {}).totalStressLevel / float64 ((GetTherapySessionsByUserID thirds "u1").length : ℕ)) =
      6004799503160661 / 4503599627370496 := by decide!
  exact ⟨by decide, by decide!, _, h, rfl, congrArg (fun q => some (Value.float q)) hx,
    by norm_num⟩

/-- C14 as amended: for a user with `N ≥ 1` stored sessions whose ratings are at most `V` in
magnitude, `N * (V + 1) < 2^53`, the summary holds `total_sessions = N` and, as
`avg_stress_level`, `avg_mood_rating` and `avg_sleep_quality`, the binary64 roundings of the
arithmetic means of the stress, mood and sleep ratings: each is within the relative error `2^-53`
of the exact mean, and lies in [1, 10] when the ratings it averages lie in 1..10. -/
theorem GetMentalHealthSummary_averages (env : Env) (db : DB) (userID : UUID) (V : ℕ)
    (hne : GetTherapySessionsByUserID db userID ≠ [])
    (hV : ∀ s ∈ GetTherapySessionsByUserID db userID,
      |s.StressLevel| ≤ V ∧ |s.MoodRating| ≤ V ∧ |s.SleepQuality| ≤ V)
    (hsize : (GetTherapySessionsByUserID db userID).length * (V + 1) < 2 ^ 53) :
    ∃ payload, GetMentalHealthSummary env db userID = some (.ok payload) ∧
      payload.get "total_sessions" =
        some (.int ((GetTherapySessionsByUserID db userID).length : ℕ)) ∧
      payload.get "avg_stress_level" = some (.float (roundF64 (mean (stressSeries db userID)))) ∧
      payload.get "avg_mood_rating" = some (.float (roundF64 (mean (moodSeries db userID)))) ∧
      payload.get "avg_sleep_quality" = some (.float (roundF64 (mean (sleepSeries db userID)))) ∧
      |roundF64 (mean (stressSeries db userID)) - mean (stressSeries db userID)| ≤
        |mean (stressSeries db userID)| / 2 ^ 53 ∧
      |roundF64 (mean (moodSeries db userID)) - mean (moodSeries db userID)| ≤
        |mean (moodSeries db userID)| / 2 ^ 53 ∧
      |roundF64 (mean (sleepSeries db userID)) - mean (sleepSeries db userID)| ≤
        |mean (sleepSeries db userID)| / 2 ^ 53 ∧
      ((∀ v ∈ stressSeries db userID, 1 ≤ v ∧ v ≤ 10) →
        1 ≤ roundF64 (mean (stressSeries db userID)) ∧
        roundF64 (mean (stressSeries db userID)) ≤ 10) ∧
      ((∀ v ∈ moodSeries db userID, 1 ≤ v ∧ v ≤ 10) →
        1 ≤ roundF64 (mean (moodSeries db userID)) ∧
        roundF64 (mean (moodSeries db userID)) ≤ 10) ∧
      ((∀ v ∈ sleepSeries db userID, 1 ≤ v ∧ v ≤ 10) →
        1 ≤ roundF64 (mean (sleepSeries db userID)) ∧
        roundF64 (mean (sleepSeries db userID)) ≤ 10) := by
  unfold stressSeries moodSeries sleepSeries
  cases hs : GetTherapySessionsByUserID db userID with
  | nil => exact absurd hs hne
  | cons first rest =>
    rw [hs] at hV hsize
    obtain ⟨st, mo, sl, -, -, -, hsum⟩ := summary_returns env db userID first rest hs
    have hlenV : ((first :: rest).length : Int) * V < 2 ^ 63 := by
      have : (first :: rest).length * V ≤ (first :: rest).length * (V + 1) :=
        Nat.mul_le_mul_left _ (Nat.le_succ V)
      have h53 : ((first :: rest).length * V : ℕ) < 2 ^ 53 := lt_of_le_of_lt this hsize
      have : (((first :: rest).length * V : ℕ) : Int) < 2 ^ 53 := by exact_mod_cast h53
      push_cast at this
      linarith
    have htot := summaryLoop_totals V (first :: rest) {} hV
      (by simpa using hlenV) (by simpa using hlenV) (by simpa using hlenV)
    simp only [zero_add] at htot
    have hlen1 : ((first :: rest).map (·.StressLevel)).length = (first :: rest).length := by simp
    have hlen2 : ((first :: rest).map (·.MoodRating)).length = (first :: rest).length := by simp
    have hlen3 : ((first :: rest).map (·.SleepQuality)).length = (first :: rest).length := by
      simp
    have e1 := average_eq ((first :: rest).map (·.StressLevel)) V
      (by intro v hv; obtain ⟨s, hs1, rfl⟩ := List.mem_map.mp hv; exact (hV s hs1).1)
      (by rw [hlen1]; exact hsize)
    have e2 := average_eq ((first :: rest).map (·.MoodRating)) V
      (by intro v hv; obtain ⟨s, hs1, rfl⟩ := List.mem_map.mp hv; exact (hV s hs1).2.1)
      (by rw [hlen2]; exact hsize)
    have e3 := average_eq ((first :: rest).map (·.SleepQuality)) V
      (by intro v hv; obtain ⟨s, hs1, rfl⟩ := List.mem_map.mp hv; exact (hV s hs1).2.2)
      (by rw [hlen3]; exact hsize)
    rw [hlen1] at e1
    rw [hlen2] at e2
    rw [hlen3] at e3
    rw [htot.1, htot.2.1, htot.2.2, e1, e2, e3] at hsum
    refine ⟨_, hsum, rfl, rfl, rfl, rfl, roundF64_error _, roundF64_error _, roundF64_error _,
      ?_, ?_, ?_⟩
    · exact rounded_mean_in_range _ (by simp)
    · exact rounded_mean_in_range _ (by simp)
    · exact rounded_mean_in_range _ (by simp)

/-- C14 as amended, at an instance: the four sessions of `fourSessions`, with stress levels 8, 7,
6 and 5 and ratings from 1 to 10. -/
theorem GetMentalHealthSummary_averages_witness :
    ∃ payload, GetMentalHealthSummary utcEnv fourSessions "u1" = some (.ok payload) ∧
      payload.get "total_sessions" = some (.int 4) ∧
      payload.get "avg_stress_level" = some (.float (roundF64 (mean [8, 7, 6, 5]))) ∧
      1 ≤ roundF64 (mean [8, 7, 6, 5]) ∧ roundF64 (mean [8, 7, 6, 5]) ≤ 10 :=
  match GetMentalHealthSummary_averages utcEnv fourSessions "u1" 10 (by decide) (by decide)
    (by decide) with
  | ⟨payload, h1, h2, h3, _, _, _, _, _, h4, _, _⟩ => ⟨payload, h1, h2, h3, h4 (by decide)⟩

/-! ## The last date and the trends of the summary -/

/-- C15 (the code departs from the claim): the date the summary reports as `last_session_date`
is the date of the first session the store returns, `sessions[0]`, and the query has no order.
For the user of `fourSessions`, whose sessions are returned in the order of their creation, the
summary reports the date of the oldest session, 2025-01-01, where the session with the latest
creation time is that of 2025-04-01. -/
theorem last_session_date_is_of_first_returned :
    (∀ (env : Env) (db : DB) (userID : UUID) (first : TherapySession)
        (rest : List TherapySession),
      GetTherapySessionsByUserID db userID = first :: rest →
      ∃ payload, GetMentalHealthSummary env db userID = some (.ok payload) ∧
        payload.get "last_session_date" = some (.str (env.formatDate first.CreatedAt))) ∧
    GetTherapySessionsByUserID fourSessions "u1" =
      [januarySession, februarySession, marchSession, aprilSession] ∧
    [januarySession, februarySession, marchSession, aprilSession].all
      (fun s => decide (s.CreatedAt ≤ aprilSession.CreatedAt)) = true ∧
    utcDate aprilSession.CreatedAt = "2025-04-01" ∧
    ∃ payload, GetMentalHealthSummary utcEnv fourSessions "u1" = some (.ok payload) ∧
      payload.get "last_session_date" = some (.str "2025-01-01") := by
  refine ⟨?_, by decide, by decide, by decide, ?_⟩
  · intro env db userID first rest h
    obtain ⟨st, mo, sl, -, -, -, hsum⟩ := summary_returns env db userID first rest h
    exact ⟨_, hsum, rfl⟩
  · obtain ⟨st, mo, sl, -, -, -, hsum⟩ := summary_returns utcEnv fourSessions "u1" _ _ rfl
    have hd : utcEnv.formatDate januarySession.CreatedAt = "2025-01-01" := by decide
    exact ⟨_, hsum, congrArg (fun d => some (Value.str d)) hd⟩

/-- C18, refuted as stated: twelve sessions whose mood ratings are those of `tieSeries`. The mean
of the first six exceeds the mean of the last six by exactly one half, and the summary holds the
mood trend "stable", not "improving". -/
theorem mood_trend_of_tie_is_stable :
    moodSeries tieStore "u1" = tieSeries ∧ halfGap tieSeries = 1 / 2 ∧
    ∃ payload, GetMentalHealthSummary utcEnv tieStore "u1" = some (.ok payload) ∧
      payload.get "mood_trend" = some (.str "stable") := by
  obtain ⟨st, mo, sl, -, hmo, -, hsum⟩ := summary_returns utcEnv tieStore "u1" _ _ rfl
  have htie : determineTrend tieSeries = some "stable" := by decide!
  have hseries : moodSeries tieStore "u1" = tieSeries := by decide
  have hmo' : determineTrend tieSeries = some mo := hmo
  rw [htie] at hmo'
  have hmo'' : mo = "stable" := (Option.some.inj hmo').symm
  subst hmo''
  exact ⟨hseries, by decide!, _, hsum, rfl⟩

/-- C18 as amended: for a user with stored sessions the summary holds, as `stress_trend`,
`mood_trend` and `sleep_trend`, what `determineTrend` returns on the stress, mood and sleep
ratings in the order in which the store returns the sessions: the same function for the three
series, none of them inverted. So, for `n ≥ 2` sessions with mood and sleep ratings at most `V`
in magnitude and `2 * n^2 * (2 * V + 1) ≤ 2^53`, a mood (or sleep) series whose first-half mean
exceeds its second-half mean by more than one half, one that decreases, is labelled "improving",
and one whose second-half mean exceeds its first-half mean by more than one half is labelled
"worsening". -/
theorem GetMentalHealthSummary_trends (env : Env) (db : DB) (userID : UUID)
    (hne : GetTherapySessionsByUserID db userID ≠ []) :
    ∃ payload stressTrend moodTrend sleepTrend,
      GetMentalHealthSummary env db userID = some (.ok payload) ∧
      payload.get "stress_trend" = some (.str stressTrend) ∧
      payload.get "mood_trend" = some (.str moodTrend) ∧
      payload.get "sleep_trend" = some (.str sleepTrend) ∧
      determineTrend (stressSeries db userID) = some stressTrend ∧
      determineTrend (moodSeries db userID) = some moodTrend ∧
      determineTrend (sleepSeries db userID) = some sleepTrend ∧
      ∀ V : ℕ,
        (∀ s ∈ GetTherapySessionsByUserID db userID, |s.MoodRating| ≤ V ∧ |s.SleepQuality| ≤ V) →
        2 * (GetTherapySessionsByUserID db userID).length ^ 2 * (2 * V + 1) ≤ 2 ^ 53 →
        2 ≤ (GetTherapySessionsByUserID db userID).length →
        (1 / 2 < halfGap (moodSeries db userID) → moodTrend = "improving") ∧
        (halfGap (moodSeries db userID) < -(1 / 2) → moodTrend = "worsening") ∧
        (1 / 2 < halfGap (sleepSeries db userID) → sleepTrend = "improving") ∧
        (halfGap (sleepSeries db userID) < -(1 / 2) → sleepTrend = "worsening") := by
  unfold stressSeries moodSeries sleepSeries halfGap
  cases hs : GetTherapySessionsByUserID db userID with
  | nil => exact absurd hs hne
  | cons first rest =>
    obtain ⟨st, mo, sl, hst, hmo, hsl, hsum⟩ := summary_returns env db userID first rest hs
    refine ⟨_, st, mo, sl, hsum, rfl, rfl, rfl, hst, hmo, hsl, ?_⟩
    intro V hV hsize hn
    have hlen1 : ((first :: rest).map (·.MoodRating)).length = (first :: rest).length := by simp
    have hlen2 : ((first :: rest).map (·.SleepQuality)).length = (first :: rest).length := by
      simp
    have g1 := determineTrend_of_gap ((first :: rest).map (·.MoodRating)) V
      (by intro v hv; obtain ⟨s, hs1, rfl⟩ := List.mem_map.mp hv; exact (hV s hs1).1)
      (by rw [hlen1]; exact hsize) (by rw [hlen1]; exact hn)
    have g2 := determineTrend_of_gap ((first :: rest).map (·.SleepQuality)) V
      (by intro v hv; obtain ⟨s, hs1, rfl⟩ := List.mem_map.mp hv; exact (hV s hs1).2)
      (by rw [hlen2]; exact hsize) (by rw [hlen2]; exact hn)
    rw [hmo] at g1
    rw [hsl] at g2
    exact ⟨fun h => Option.some.inj (g1.1 h), fun h => Option.some.inj (g1.2 h),
      fun h => Option.some.inj (g2.1 h), fun h => Option.some.inj (g2.2 h)⟩

/-- C18 as amended, at an instance: the mood ratings 4, 5, 6, 7 of the four sessions of
`fourSessions` rise from a first-half mean of 9/2 to a second-half mean of 13/2, and the summary
labels them "worsening". -/
theorem GetMentalHealthSummary_trends_witness :
    moodSeries fourSessions "u1" = [4, 5, 6, 7] ∧ halfGap [4, 5, 6, 7] = -2 ∧
    ∃ payload, GetMentalHealthSummary utcEnv fourSessions "u1" = some (.ok payload) ∧
      payload.get "mood_trend" = some (.str "worsening") ∧
      determineTrend (moodSeries fourSessions "u1") = some "worsening" :=
  match GetMentalHealthSummary_trends utcEnv fourSessions "u1" (by decide) with
  | ⟨payload, _, moodTrend, _, h1, _, h2, _, _, h3, _, h4⟩ =>
    have hw : moodTrend = "worsening" :=
      (h4 10 (by decide) (by decide) (by decide)).2.1 (by decide!)
    ⟨by decide, by decide!, payload, h1, hw ▸ h2, hw ▸ h3⟩

/-! ## Reading back a written object -/

namespace json

/-- The four digits written for a control character are read back as its number. -/
theorem getu4_hexChar : ∀ k : ℕ, k < 32 →
    getu4 '0' '0' (hexChar (k / 16)) (hexChar (k % 16)) = some k := by
  decide

/-- The escapes of a text, read from behind the opening quote on: the text, and what follows the
closing quote. -/
theorem unquote_escape : ∀ (s acc rest : List Char) (n : ℕ),
    (escape s).length < n →
    unquote n (escape s ++ '"' :: rest) acc = some (acc.reverse ++ s, rest) := by
  intro s
  induction s with
  | nil =>
    intro acc rest n hn
    obtain ⟨n, rfl⟩ : ∃ m, n = m + 1 := ⟨n - 1, by omega⟩
    simp [unquote, escape]
  | cons c s ih =>
    intro acc rest n hn
    obtain ⟨n, rfl⟩ : ∃ m, n = m + 1 := ⟨n - 1, by omega⟩
    simp only [escape, List.length_append] at hn
    by_cases h1 : c = '"'
    · subst h1
      have hlen : (escape s).length < n := by
        simp [escapeChar] at hn
        omega
      simp [unquote, escape, escapeChar, escaped, ih _ _ _ hlen]
    · by_cases h2 : c = '\\'
      · subst h2
        have hlen : (escape s).length < n := by
          simp [escapeChar] at hn
          omega
        simp [unquote, escape, escapeChar, escaped, ih _ _ _ hlen]
      · by_cases h3 : c.toNat < 0x20
        · have hlen : (escape s).length < n := by
            simp [escapeChar, h1, h2, h3] at hn
            omega
          have hk := getu4_hexChar c.toNat h3
          have hs : ¬ (0xD800 ≤ c.toNat ∧ c.toNat < 0xE000) := by omega
          simp [unquote, escape, escapeChar, h1, h2, h3, hk, hs, ih _ _ _ hlen,
            Char.ofNat_toNat]
        · have hlen : (escape s).length < n := by
            simp [escapeChar, h1, h2, h3] at hn
            omega
          simp [unquote, escape, escapeChar, h1, h2, h3, ih _ _ _ hlen]

/-- A written string literal is read back as its text. -/
theorem stringLiteral_quote (s : String) (rest : List Char) :
    stringLiteral (escape s.data ++ '"' :: rest) = some (s, rest) := by
  unfold stringLiteral
  rw [unquote_escape s.data [] rest _ (by simp)]
  rfl

/-- A written string literal is read as a value at every depth. -/
theorem parseValue_quote (depth : ℕ) (s : String) (rest : List Char) :
    parseValue depth ('"' :: (escape s.data ++ '"' :: rest)) = some (.string s, rest) := by
  unfold parseValue
  simp [stringLiteral_quote]

/-- No white space is skipped before a character that is none. -/
theorem skipSpace_cons (c : Char) (rest : List Char) (h : isSpace c = false) :
    skipSpace (c :: rest) = c :: rest := by
  simp [skipSpace, h]

/-- The written members of an object, the first of them at the head of the text, are read back
one by one up to the closing brace. -/
theorem parseMembers_membersText (depth : ℕ) : ∀ (ms : List (String × String))
    (m : String × String) (n : ℕ) (rest : List Char) (acc : List (String × JSON)),
    ms.length < n →
    parseMembers (parseValue depth) n (membersText (m :: ms) ++ '}' :: rest) acc =
      some (acc.reverse ++ (m :: ms).map memberValue, rest) := by
  intro ms
  induction ms with
  | nil =>
    intro m n rest acc hn
    obtain ⟨n, rfl⟩ : ∃ k, n = k + 1 := ⟨n - 1, by omega⟩
    have hstep : membersText [m] ++ '}' :: rest =
        '"' :: (escape m.1.data ++ '"' :: ':' :: '"' ::
          (escape m.2.data ++ '"' :: '}' :: rest)) := by
      simp [membersText, member, quote]
    rw [hstep]
    simp [parseMembers, stringLiteral_quote, parseValue_quote,
      skipSpace_cons ':' _ (by decide), skipSpace_cons '"' _ (by decide),
      skipSpace_cons '}' _ (by decide), memberValue]
  | cons m2 ms ih =>
    intro m n rest acc hn
    obtain ⟨n, rfl⟩ : ∃ k, n = k + 1 := ⟨n - 1, by omega⟩
    have hn2 : ms.length < n := by simpa using hn
    have hnext := ih m2 n rest ((m.1, .string m.2) :: acc) hn2
    have hhead : ∃ tail, membersText (m2 :: ms) = '"' :: tail := by
      cases ms <;> exact ⟨_, rfl⟩
    obtain ⟨tail, htail⟩ := hhead
    have hskip : skipSpace (membersText (m2 :: ms) ++ '}' :: rest) =
        membersText (m2 :: ms) ++ '}' :: rest := by
      rw [htail]
      exact skipSpace_cons '"' _ (by decide)
    have hstep : membersText (m :: m2 :: ms) ++ '}' :: rest =
        '"' :: (escape m.1.data ++ '"' :: ':' :: '"' ::
          (escape m.2.data ++ '"' :: ',' :: (membersText (m2 :: ms) ++ '}' :: rest))) := by
      simp [membersText, member, quote]
    rw [hstep]
    simp [parseMembers, stringLiteral_quote, parseValue_quote,
      skipSpace_cons ':' _ (by decide), skipSpace_cons '"' _ (by decide),
      skipSpace_cons ',' _ (by decide), hskip, hnext, memberValue]

/-- The text of written members is longer than their number. -/
theorem length_membersText : ∀ (ms : List (String × String)) (m : String × String),
    ms.length < (membersText (m :: ms)).length := by
  intro ms
  induction ms with
  | nil => intro m; simp [membersText, member, quote]
  | cons a ms ih =>
    intro m
    have := ih a
    simp only [membersText, List.length_append, List.length_cons] at this ⊢
    omega

/-- A written object is read back as the object of its members. -/
theorem parse_objectText (members : List (String × String)) :
    parse (objectText members) = .ok (.object (members.map memberValue)) := by
  cases members with
  | nil => rfl
  | cons m ms =>
    obtain ⟨tail, htail⟩ : ∃ tail, membersText (m :: ms) = '"' :: tail := by
      cases ms <;> exact ⟨_, rfl⟩
    have hm : ∀ n, ms.length < n →
        parseMembers (parseValue 9999) n ('"' :: (tail ++ ['}'])) [] =
          some ((m :: ms).map memberValue, []) := by
      intro n hn
      have := parseMembers_membersText 9999 ms m n [] [] hn
      rw [htail] at this
      simpa using this
    have hl : ms.length < tail.length + 1 + 1 := by
      have := length_membersText ms m
      rw [htail] at this
      simp only [List.length_cons] at this
      omega
    have hv : parseValue (9999 + 1) ('{' :: (membersText (m :: ms) ++ ['}'])) =
        some (.object ((m :: ms).map memberValue), []) := by
      unfold parseValue
      rw [htail]
      simp only [List.cons_append]
      rw [skipSpace_cons '"' _ (by decide)]
      simp [hm _ hl]
    unfold parse objectText maxNestingDepth
    simp only
    rw [skipSpace_cons '{' _ (by decide)]
    show (match parseValue (9999 + 1) ('{' :: (membersText (m :: ms) ++ ['}'])) with
      | none => Except.error "invalid character"
      | some (v, rest) =>
        if skipSpace rest = [] then Except.ok v
        else Except.error "invalid character after top-level value") = _
    rw [hv]
    rfl

end json

/-! ## The structured reply -/

/-- A name that is not a key of the members is not found among them. -/
theorem lookup_of_not_key (ms : List (String × String)) (k : String)
    (h : k ∉ ms.map Prod.fst) : ms.lookup k = none := by
  rw [List.lookup_eq_none_iff]
  intro p hp
  have : k ≠ p.1 := fun he => h (he ▸ List.mem_map_of_mem Prod.fst hp)
  simpa using this

/-- A member of a list without a repeated key is found under its key. -/
theorem lookup_of_mem : ∀ (ms : List (String × String)) (k v : String),
    (ms.map Prod.fst).Nodup → (k, v) ∈ ms → ms.lookup k = some v := by
  intro ms
  induction ms with
  | nil => intro k v _ h; simp at h
  | cons m ms ih =>
    intro k v hnd hmem
    obtain ⟨k1, v1⟩ := m
    simp only [List.map_cons, List.nodup_cons] at hnd
    rcases List.mem_cons.mp hmem with heq | hin
    · have h1 : k = k1 := (Prod.mk.inj heq).1
      have h2 : v = v1 := (Prod.mk.inj heq).2
      subst h1 h2
      simp [List.lookup_cons]
    · have hne : k ≠ k1 := by
        intro he
        subst he
        exact hnd.1 (List.mem_map_of_mem Prod.fst hin)
      have hb : (k == k1) = false := by simpa using hne
      rw [List.lookup_cons, hb]
      exact ih k v hnd.2 hin

/-- The members of an object whose keys are names of fields, none of them repeated, go to their
fields; a field without a member keeps its text. -/
theorem decodeMembers_lookup : ∀ (ms : List (String × String)) (r : TherapyResponse),
    (ms.map Prod.fst).Nodup → (∀ m ∈ ms, m.1 ∈ json.fieldNames) →
    json.decodeMembers (ms.map json.memberValue) r none =
      ({ NextAction := (ms.lookup "next_action").getD r.NextAction
         Reply := (ms.lookup "reply").getD r.Reply
         Recommendation := (ms.lookup "recommendation").getD r.Recommendation
         NextSteps := (ms.lookup "next_steps").getD r.NextSteps }, none) := by
  intro ms
  induction ms with
  | nil => intro r _ _; rfl
  | cons m ms ih =>
    intro r hnd hkeys
    obtain ⟨k, v⟩ := m
    simp only [List.map_cons, List.nodup_cons] at hnd
    have hk : k ∈ json.fieldNames := hkeys (k, v) (List.mem_cons_self _ _)
    have hrest := fun r1 => ih r1 hnd.2 (fun m hm => hkeys m (List.mem_cons_of_mem _ hm))
    have hnone := lookup_of_not_key ms k hnd.1
    have f1 : json.fieldOf "next_action" = some 0 := by decide
    have f2 : json.fieldOf "reply" = some 1 := by decide
    have f3 : json.fieldOf "recommendation" = some 2 := by decide
    have f4 : json.fieldOf "next_steps" = some 3 := by decide
    simp only [json.fieldNames, List.mem_cons, List.mem_singleton, List.not_mem_nil,
      or_false] at hk
    rcases hk with h | h | h | h <;> subst h <;>
      simp [json.decodeMembers, json.memberValue, json.setField, f1, f2, f3, f4, hrest, hnone,
        List.lookup_cons]

/-- The four members of a reply in any order are the record of the four values. -/
theorem responseOf_perm (a r c n : String) (ms : List (String × String))
    (h : ms.Perm (replyMembers a r c n)) :
    (ms.map Prod.fst).Nodup ∧ (∀ m ∈ ms, m.1 ∈ json.fieldNames) ∧
    responseOf ms = { NextAction := a, Reply := r, Recommendation := c, NextSteps := n } := by
  have hnd : (ms.map Prod.fst).Nodup := by
    rw [(h.map Prod.fst).nodup_iff]
    simp [replyMembers]
  have hmem : ∀ m, m ∈ ms ↔ m ∈ replyMembers a r c n := fun m => h.mem_iff
  refine ⟨hnd, ?_, ?_⟩
  · intro m hm
    have := (hmem m).mp hm
    simp only [replyMembers, List.mem_cons, List.mem_singleton, List.not_mem_nil,
      or_false] at this
    rcases this with h | h | h | h <;> subst h <;> simp [json.fieldNames]
  · have l1 := lookup_of_mem ms "next_action" a hnd ((hmem _).mpr (by simp [replyMembers]))
    have l2 := lookup_of_mem ms "reply" r hnd ((hmem _).mpr (by simp [replyMembers]))
    have l3 := lookup_of_mem ms "recommendation" c hnd ((hmem _).mpr (by simp [replyMembers]))
    have l4 := lookup_of_mem ms "next_steps" n hnd ((hmem _).mpr (by simp [replyMembers]))
    simp [responseOf, l1, l2, l3, l4]

/-- C16: with `json.Unmarshal` as the decoder, `ParseTherapyJSON` returns without an error the
record of the members of a structured reply. For all texts `a`, `r`, `c`, `n` and every order of
the four string members `next_action = a`, `reply = r`, `recommendation = c`, `next_steps = n`,
the object written with these members, and every other text that the scanner reads as that
object, is parsed to the record with exactly these four values: no value of `next_action` is
refused. An object with some of the four members only is parsed without an error as well, with
the empty text in the field of every member left out. -/
theorem ParseTherapyJSON_reads_members (env : Env) (henv : env.unmarshal = json.Unmarshal) :
    (∀ (a r c n : String) (ms : List (String × String)), ms.Perm (replyMembers a r c n) →
      ParseTherapyJSON env (json.objectText ms) =
        .ok { NextAction := a, Reply := r, Recommendation := c, NextSteps := n } ∧
      ∀ text, json.parse text = .ok (.object (ms.map json.memberValue)) →
        ParseTherapyJSON env text =
          .ok { NextAction := a, Reply := r, Recommendation := c, NextSteps := n }) ∧
    (∀ ms : List (String × String),
      (ms.map Prod.fst).Nodup → (∀ m ∈ ms, m.1 ∈ json.fieldNames) →
      ParseTherapyJSON env (json.objectText ms) = .ok (responseOf ms) ∧
      ∀ text, json.parse text = .ok (.object (ms.map json.memberValue)) →
        ParseTherapyJSON env text = .ok (responseOf ms)) := by
  have hread : ∀ (ms : List (String × String)) (text : String),
      (ms.map Prod.fst).Nodup → (∀ m ∈ ms, m.1 ∈ json.fieldNames) →
      json.parse text = .ok (.object (ms.map json.memberValue)) →
      ParseTherapyJSON env text = .ok (responseOf ms) := by
    intro ms text hnd hkeys h
    simp only [ParseTherapyJSON, henv, json.Unmarshal, h, json.decode,
      decodeMembers_lookup ms {} hnd hkeys]
    rfl
  constructor
  · intro a r c n ms hperm
    obtain ⟨hnd, hkeys, hresp⟩ := responseOf_perm a r c n ms hperm
    rw [← hresp]
    exact ⟨hread ms _ hnd hkeys (json.parse_objectText ms), fun text h => hread ms text hnd hkeys h⟩
  · intro ms hnd hkeys
    exact ⟨hread ms _ hnd hkeys (json.parse_objectText ms), fun text h => hread ms text hnd hkeys h⟩

set_option maxRecDepth 100000 in
/-- C16 at an instance: the two texts of `TestParseTherapyJSON`, read by `json.Unmarshal`. The
first holds the four members, the second the action `INVALID_ACTION` and a reply only. -/
theorem ParseTherapyJSON_reads_members_witness :
    ParseTherapyJSON utcEnv validJSON =
      .ok { NextAction := "CONTINUE_CHAT", Reply := "How are you feeling today?",
            Recommendation := "Consider practicing mindfulness",
            NextSteps := "Try deep breathing exercises" } ∧
    ParseTherapyJSON utcEnv invalidJSON =
      .ok { NextAction := "INVALID_ACTION", Reply := "How are you feeling today?",
            Recommendation := "", NextSteps := "" } :=
  ⟨((ParseTherapyJSON_reads_members utcEnv rfl).1 "CONTINUE_CHAT" "How are you feeling today?"
      "Consider practicing mindfulness" "Try deep breathing exercises" _
      (List.Perm.refl _)).2 validJSON rfl,
   ((ParseTherapyJSON_reads_members utcEnv rfl).2
      [("next_action", "INVALID_ACTION"), ("reply", "How are you feeling today?")]
      (by decide) (by decide)).2 invalidJSON rfl⟩

/-- The decoder refuses what is not a structured reply: every text of `malformedReplies` makes
`ParseTherapyJSON` fail. -/
theorem ParseTherapyJSON_refuses_malformed :
    malformedReplies.all (fun text =>
      match ParseTherapyJSON utcEnv text with
      | .error _ => true
      | .ok _ => false) = true := by
  decide

end OmSehat
